import Mathlib

/-!
UIFontVector: font catalogue, collection reader and glyph cache bridge.

A shallow embedding of `frameworks/font/ui_font_vector.cpp`.

Conventions of the embedding.

* C strings are lists of bytes (`CStr`); a nullable `const char*` is an `Option CStr`.
* The fixed-size member arrays `fontInfo_`, `ftFaces_` and `ttcInfos_` are total
  functions on `Nat`: index `i` is the element `i` places after the array base.  The
  array proper is the indices below `FONT_ID_MAX` (resp. `FONT_TTC_MAX`); an update at
  a larger index is a write past the end of the array.  `UnregisterTtcFontInfo`, whose
  loop bound is not the length of the array it scans, returns an `Option`: `none` when
  it reads `ttcInfos_` past its end.
* Loops bounded by a constant are recursions on the number of iterations left.
* Constants, enums and record types that are declared in headers outside this source
  file are fields of `FontConfig`; fields of such records hold plain numbers.
* FreeType and the file system are external: a font resource is a `FontData` record
  that carries the answers FreeType gives for it, and the files that
  `GetTtfInfoFromTtf` opens and the classification `TypedText::IsColourWord` are
  function parameters.
* The stream of a collection is one object shared by the collection record and the
  faces opened from it.  FreeType closes it in `FT_Stream_Free`, in `FT_Done_Face` on a
  face opened from it and in a failed `FT_Open_Face` on it; a closed stream has size 0
  and nothing can be read or opened from it.
-/

namespace OHOS

/-! ## Constants declared outside the source file -/

/-- Compile-time constants used by `ui_font_vector.cpp` whose declarations live in
headers outside the source file, together with the conditional-compilation switch
`ENABLE_VECTOR_FONT` and the byte order of the target. -/
structure FontConfig where
  FONT_ID_MAX : Nat
  FONT_TTC_MAX : Nat
  FONT_INVALID_TTF_ID : Nat
  TTF_NAME_LEN_MAX : Nat
  BPP_BIT_8 : Nat
  BPP_BIT_32 : Nat
  FONT_PIXEL_IN_POINT : Int
  INVALID_RET_VALUE : Int
  RET_VALUE_OK : Int
  /-- The value of `sizeof(Metric)`. -/
  SIZEOF_METRIC : Nat
  ENABLE_VECTOR_FONT : Bool
  /-- Byte order of the target: whether a `uint32_t` is stored most significant byte
  first. -/
  HOST_BIG_ENDIAN : Bool

/-- Conversion to `uint8_t`. -/
def toU8 (n : Nat) : Nat := n % 256

/-- Conversion of a signed value to `uint16_t`. -/
def toU16 (n : Int) : Int := n % 65536

/-- Conversion of a signed value to `int16_t`. -/
def toI16 (n : Int) : Int := (n + 32768) % 65536 - 32768

/-- Conversion to `uint32_t`. -/
def toU32 (n : Int) : Nat := (n % 4294967296).toNat

/-! ## C strings -/

/-- A NUL-terminated C string, without its terminator. -/
abbrev CStr := List Nat

/-- The C library `strncmp`: compares at most `n` bytes, stopping at a terminator. -/
def strncmp : CStr → CStr → Nat → Int
  | _, _, 0 => 0
  | [], [], _ + 1 => 0
  | [], b :: _, _ + 1 => -(b : Int)
  | a :: _, [], _ + 1 => (a : Int)
  | a :: as, b :: bs, n + 1 =>
    if a = b then (if a = 0 then 0 else strncmp as bs n) else (a : Int) - (b : Int)

/-- Pointwise update of an array modelled as a function. -/
def setAt {α : Type} (f : Nat → α) (i : Nat) (v : α) : Nat → α :=
  fun j => if j = i then v else f j

/-! ## FreeType objects -/

/-- The `TextStyle` enum. -/
inductive TextStyle where
  | TEXT_STYLE_NORMAL
  | TEXT_STYLE_ITALIC
  | TEXT_STYLE_BOLD
  | TEXT_STYLE_BOLD_ITALIC
  deriving DecidableEq, Repr

/-- The values of `FT_Glyph_Format`. -/
inductive FT_Glyph_Format where
  | FT_GLYPH_FORMAT_NONE
  | FT_GLYPH_FORMAT_COMPOSITE
  | FT_GLYPH_FORMAT_BITMAP
  | FT_GLYPH_FORMAT_OUTLINE
  | FT_GLYPH_FORMAT_PLOTTER
  deriving DecidableEq, Repr

/-- The load flags this file passes to FreeType. -/
inductive FT_Load_Flag where
  | FT_LOAD_RENDER
  | FT_LOAD_COLOR
  deriving DecidableEq, Repr

/-- The value of `FT_PIXEL_MODE_BGRA` in the `FT_Pixel_Mode` enum. -/
def FT_PIXEL_MODE_BGRA : Nat := 7

/-- The fields of `face->glyph` (an `FT_GlyphSlot`) that this file reads. -/
structure FT_GlyphSlot where
  glyph_index : Nat
  format : FT_Glyph_Format
  bitmap_left : Int
  bitmap_top : Int
  width : Int
  rows : Int
  pixel_mode : Nat
  buffer : List Nat
  advance_x : Int
  deriving DecidableEq, Repr

/-- The fields of `face->size->metrics` that this file reads. -/
structure FT_Size_Metrics where
  ascender : Int
  descender : Int
  height : Int
  deriving DecidableEq, Repr

/-- A font resource as FreeType sees it: what the engine answers for this resource.
`none` stands for a non-zero `FT_Error`. -/
structure FontData where
  /-- Length reported by `FT_Load_Sfnt_Table` for the `CBDT` tag (0 when absent). -/
  cbdtLength : Nat
  /-- The `width` of each entry of `face->available_sizes`. -/
  available_sizes : List Int
  /-- Result of `FT_Set_Char_Size(face, charWidth, 0, 0, 0)`. -/
  setCharSize : Int → Option FT_Size_Metrics
  /-- Result of `FT_Select_Size(face, strikeIndex)`. -/
  selectSize : Nat → Option FT_Size_Metrics
  /-- Result of `FT_Get_Char_Index(face, charCode)`. -/
  getCharIndex : Nat → Nat
  /-- Result of `FT_Load_Glyph(face, glyphIndex, flags)` at the current size. -/
  loadGlyph : FT_Size_Metrics → Nat → FT_Load_Flag → Option FT_GlyphSlot
  /-- Effect of `FT_Outline_Transform` with the shear matrix of `SetItaly`. -/
  outlineTransform : FT_GlyphSlot → FT_GlyphSlot
  /-- Effect of `FT_Outline_Embolden` with the strength of `SetBold`; `none` on error. -/
  outlineEmbolden : FT_Size_Metrics → FT_GlyphSlot → Option FT_GlyphSlot
  /-- Effect of `FT_Bitmap_Embolden` with the strength of `SetBold`; `none` on error. -/
  bitmapEmbolden : FT_Size_Metrics → FT_GlyphSlot → Option FT_GlyphSlot
  /-- Effect of `FT_Render_Glyph(slot, FT_RENDER_MODE_NORMAL)`; `none` on error. -/
  renderGlyph : FT_GlyphSlot → Option FT_GlyphSlot

/-- An open `FT_Face`: the resource, the active size and the glyph slot.  `stream` is
`face->stream` for a face opened with `FT_OPEN_STREAM`: the index of the collection
slot whose `FT_Stream` object the face reads from (a slot receives a stream object at
most once, so the index names the object); it is `none` for a face opened from a path
name, which owns its stream. -/
structure FT_Face where
  font : FontData
  size : FT_Size_Metrics
  glyph : FT_GlyphSlot
  stream : Option Nat := none

/-- The glyph slot of a face on which no glyph has been loaded. -/
def emptySlot : FT_GlyphSlot :=
  { glyph_index := 0, format := FT_Glyph_Format.FT_GLYPH_FORMAT_NONE, bitmap_left := 0,
    bitmap_top := 0, width := 0, rows := 0, pixel_mode := 0, buffer := [], advance_x := 0 }

/-- The face FreeType hands back when a resource is opened. -/
def newFace (font : FontData) : FT_Face :=
  { font := font, size := { ascender := 0, descender := 0, height := 0 }, glyph := emptySlot }

/-- An `FT_Stream` over a file: its size and its bytes (`base p` is the byte at
position `p`, read modulo 256), and whether it has been closed (`freed`). -/
structure FT_Stream where
  size : Nat
  base : Nat → Nat
  freed : Bool

/-- `FT_Stream_Close` on a stream that `FT_Stream_New` opened from a path name: the
file is released, the stream has size 0 and no bytes, and the object stays allocated.
Closing a closed stream changes nothing. -/
def FT_Stream_Close (_stream : FT_Stream) : FT_Stream :=
  { size := 0, base := fun _ => 0, freed := true }

/-- `FT_Stream_Free(stream, 1)` on a handle that may be null: the stream is closed
and, being external, not deallocated; whoever holds the handle keeps it. -/
def FT_Stream_Free (stream : Option FT_Stream) : Option FT_Stream :=
  stream.map FT_Stream_Close

/-- The FreeType library together with the file system it reads from.
`none` stands for a non-zero `FT_Error`. -/
structure FreeType where
  /-- Result of `FT_New_Face(library, path, 0, &face)`. -/
  New_Face : CStr → Option FontData
  /-- Result of `FT_Stream_New` with `FT_OPEN_PATHNAME`. -/
  Stream_New : CStr → Option FT_Stream
  /-- Result of `FT_Open_Face` with `FT_OPEN_STREAM` and the given face index. -/
  Open_Face : FT_Stream → Nat → Option FontData

/-! ## The catalogue -/

/-- The record `UITextLanguageFontParam` (a FontRecord). -/
structure UITextLanguageFontParam where
  size : Nat
  fontWeight : Nat
  shaping : Nat
  ttfId : Nat
  ttfIndex : Nat
  ttcIndex : Nat
  ttfName : Option CStr
  deriving DecidableEq, Repr

/-- The record `TtfInfo`: one sub-font descriptor of a collection. -/
structure TtfInfo where
  ttfName : Option CStr
  shaping : Nat
  deriving DecidableEq, Repr

/-- The record `TtcInfo` (a CollectionRecord). -/
structure TtcInfo where
  ttcName : Option CStr
  stream : Option FT_Stream

/-- What `FT_Done_Face(face)` does to the collection table: destroying a face that
was opened with `FT_OPEN_STREAM` calls `FT_Stream_Free(face->stream, 1)`, which closes
the stream that the collection record holds; a face opened from a path name closes
its own stream, and a null face is an error without effect. -/
def FT_Done_Face (ttcInfos : Nat → TtcInfo) (face : Option FT_Face) : Nat → TtcInfo :=
  match face with
  | none => ttcInfos
  | some f =>
    match f.stream with
    | none => ttcInfos
    | some c =>
      setAt ttcInfos c
        ({ ttcName := (ttcInfos c).ttcName, stream := FT_Stream_Free (ttcInfos c).stream })

/-- `FT_Open_Face` with `FT_OPEN_STREAM` on `stream` and face index `faceIndex`: a
closed stream cannot be read, so the call fails on it. -/
def FT_Open_Face (ft : FreeType) (stream : FT_Stream) (faceIndex : Nat) : Option FontData :=
  if stream.freed then none else ft.Open_Face stream faceIndex

/-- The struct `Metric`: the header of a cached glyph. -/
structure Metric where
  left : Int
  top : Int
  cols : Int
  rows : Int
  advance : Int
  deriving DecidableEq, Repr

/-- One cached glyph: its address `(key, unicode, textStyle)`, the `Metric` header
and the pixel bytes stored after it. -/
structure CacheEntry where
  key : Nat
  unicode : Nat
  textStyle : TextStyle
  size : Nat
  metric : Metric
  pixels : List Nat
  deriving DecidableEq, Repr

/-- Modelled from the spec: the class `UIFontCache` (`font/ui_font_cache.cpp`) is not
part of the source file.  The spec describes a bounded-memory store addressed by
key, code point and style with a lookup (`GetBitmap`) and a get-or-allocate operation
(`GetSpace`) whose insertion may fail when the cache is full; the replacement policy
is left to the cache.  Here the store is a list of entries, newest first, over
`capacity` bytes of backing memory, and nothing is evicted. -/
structure UIFontCache where
  capacity : Nat
  entries : List CacheEntry
  deriving DecidableEq, Repr

/-- The state of a `UIFontVector` object. `ftLoadCalls` is a ghost counter of the
calls made to `FT_Load_Glyph` and `FT_Load_Char`. -/
structure UIFontVector where
  ttfDir_ : CStr
  freeTypeInited_ : Bool
  fontInfo_ : Nat → UITextLanguageFontParam
  ftFaces_ : Nat → Option FT_Face
  ttcInfos_ : Nat → TtcInfo
  currentFontInfoNum_ : Nat
  bitmapCache_ : Option UIFontCache
  ftLoadCalls : Nat

/-- The record of a slot that has never been written (zero-initialised). -/
def emptyFontParam : UITextLanguageFontParam :=
  { size := 0, fontWeight := 0, shaping := 0, ttfId := 0, ttfIndex := 0, ttcIndex := 0,
    ttfName := none }

/-- The state after construction with a working FreeType library: every table is
zero-initialised and the cache is not yet configured. -/
def emptyCatalogue (ttfDir : CStr) : UIFontVector :=
  { ttfDir_ := ttfDir, freeTypeInited_ := true, fontInfo_ := fun _ => emptyFontParam,
    ftFaces_ := fun _ => none, ttcInfos_ := fun _ => { ttcName := none, stream := none },
    currentFontInfoNum_ := 0, bitmapCache_ := none, ftLoadCalls := 0 }

/-- `UIFontVector::IsColorEmojiFont`: the face has a non-empty `CBDT` table. -/
def IsColorEmojiFont (face : FT_Face) : Bool :=
  if face.font.cbdtLength ≠ 0 then true else false

/-- The loop of `RegisterFontInfo(const char*, uint8_t)`: `fuel` iterations are left
and `j` is the loop variable, so `fuel + j = FONT_ID_MAX`. -/
def RegisterFontInfo.loop (k : FontConfig) (ft : FreeType) (ttfName : CStr) (shaping : Nat) :
    Nat → Nat → UIFontVector → Nat × UIFontVector
  | 0, _, s => (toU8 k.FONT_INVALID_TTF_ID, s)
  | fuel + 1, j, s =>
    match (s.fontInfo_ j).ttfName with
    | some name =>
      if strncmp name ttfName k.TTF_NAME_LEN_MAX = 0 then (toU8 j, s)
      else RegisterFontInfo.loop k ft ttfName shaping fuel (j + 1) s
    | none =>
      match ft.New_Face (s.ttfDir_ ++ ttfName) with
      | none => (toU8 k.FONT_INVALID_TTF_ID, s)
      | some font =>
        let face := newFace font
        let info : UITextLanguageFontParam :=
          { s.fontInfo_ j with
            ttfName := some ttfName, shaping := shaping, ttfId := j,
            ttcIndex := k.FONT_TTC_MAX,
            fontWeight := if IsColorEmojiFont face then k.BPP_BIT_32 else k.BPP_BIT_8 }
        (toU8 j, { s with fontInfo_ := setAt s.fontInfo_ j info,
                          ftFaces_ := setAt s.ftFaces_ j (some face),
                          currentFontInfoNum_ := j + 1 })

/-- `UIFontVector::RegisterFontInfo(const char* ttfName, uint8_t shaping)`: the
returned `uint8_t` and the state afterwards.  The call `UpdateScript` compiled under
`ENABLE_MULTI_FONT` reads the new record and changes only the multi-font manager,
which is not part of this object. -/
def RegisterFontInfo (k : FontConfig) (ft : FreeType) (s : UIFontVector)
    (ttfName : Option CStr) (shaping : Nat) : Nat × UIFontVector :=
  match ttfName with
  | none => (toU8 k.FONT_INVALID_TTF_ID, s)
  | some name =>
    if !s.freeTypeInited_ then (toU8 k.FONT_INVALID_TTF_ID, s)
    else RegisterFontInfo.loop k ft name shaping k.FONT_ID_MAX 0 s

/-- The loop of `UnregisterFontInfo(const char*)`. -/
def UnregisterFontInfo.loop (k : FontConfig) (ttfName : CStr) :
    Nat → Nat → UIFontVector → Nat × UIFontVector
  | 0, _, s => (toU8 k.FONT_INVALID_TTF_ID, s)
  | fuel + 1, i, s =>
    match (s.fontInfo_ i).ttfName with
    | some name =>
      if strncmp name ttfName k.TTF_NAME_LEN_MAX = 0 then
        (toU8 i, { s with fontInfo_ := setAt s.fontInfo_ i { s.fontInfo_ i with ttfName := none },
                          ftFaces_ := setAt s.ftFaces_ i none,
                          ttcInfos_ := FT_Done_Face s.ttcInfos_ (s.ftFaces_ i) })
      else UnregisterFontInfo.loop k ttfName fuel (i + 1) s
    | none => UnregisterFontInfo.loop k ttfName fuel (i + 1) s

/-- `UIFontVector::UnregisterFontInfo(const char* ttfName)`: the returned `uint8_t`
and the state afterwards. -/
def UnregisterFontInfo (k : FontConfig) (s : UIFontVector) (ttfName : Option CStr) :
    Nat × UIFontVector :=
  match ttfName with
  | none => (toU8 k.FONT_INVALID_TTF_ID, s)
  | some name => UnregisterFontInfo.loop k name k.FONT_ID_MAX 0 s

/-- The test `(fontInfo_[i].ttfName != nullptr) && !strncmp(fontInfo_[i].ttfName,
ttfName, TTF_NAME_LEN_MAX)` of the registration and unregistration loops. -/
def slotMatches (k : FontConfig) (s : UIFontVector) (i : Nat) (ttfName : CStr) : Bool :=
  match (s.fontInfo_ i).ttfName with
  | some name => decide (strncmp name ttfName k.TTF_NAME_LEN_MAX = 0)
  | none => false

/-- The search `while ((ttfIdx < FONT_ID_MAX) && fontInfo_[ttfIdx].ttfName != nullptr)`
of `RegisterTtcFontInfo`: the value of `ttfIdx` when it stops. -/
def RegisterTtcFontInfo.freeSlot (s : UIFontVector) : Nat → Nat → Nat
  | 0, ttfIdx => ttfIdx
  | fuel + 1, ttfIdx =>
    if (s.fontInfo_ ttfIdx).ttfName ≠ none then RegisterTtcFontInfo.freeSlot s fuel (ttfIdx + 1)
    else ttfIdx

/-- The loop `for (uint8_t j = 0; j < count; j++)` of `RegisterTtcFontInfo` over the
descriptors still to visit; `stream` is the stream object of collection slot `i` as
it is now, `j` the sub-font index and `ttfIdx` the FontRecord slot written next.  A
failed `FT_Open_Face` leaves `ftFaces_[ttfIdx]` as it was and closes the stream, from
which the later descriptors are then opened. -/
def RegisterTtcFontInfo.subFonts (k : FontConfig) (ft : FreeType) (stream : FT_Stream) (i : Nat) :
    List TtfInfo → Nat → Nat → UIFontVector → UIFontVector
  | [], _, _, s => s
  | d :: rest, j, ttfIdx, s =>
    match FT_Open_Face ft stream j with
    | none =>
      let closed := FT_Stream_Close stream
      let rec1 : TtcInfo := { ttcName := (s.ttcInfos_ i).ttcName, stream := some closed }
      RegisterTtcFontInfo.subFonts k ft closed i rest (j + 1) ttfIdx
        { s with ttcInfos_ := setAt s.ttcInfos_ i rec1 }
    | some font =>
      let face : FT_Face := { newFace font with stream := some i }
      let info : UITextLanguageFontParam :=
        { s.fontInfo_ ttfIdx with
          ttfName := d.ttfName, shaping := d.shaping, ttfId := ttfIdx, ttfIndex := j,
          ttcIndex := i,
          fontWeight := if IsColorEmojiFont face then k.BPP_BIT_32 else k.BPP_BIT_8 }
      RegisterTtcFontInfo.subFonts k ft stream i rest (j + 1) (ttfIdx + 1)
        { s with fontInfo_ := setAt s.fontInfo_ ttfIdx info,
                 ftFaces_ := setAt s.ftFaces_ ttfIdx (some face) }

/-- The outer loop of `RegisterTtcFontInfo` over the collection slots. -/
def RegisterTtcFontInfo.loop (k : FontConfig) (ft : FreeType) (ttcName : CStr)
    (ttfInfo : List TtfInfo) : Nat → Nat → UIFontVector → Nat × UIFontVector
  | 0, _, s => (toU8 k.FONT_INVALID_TTF_ID, s)
  | fuel + 1, i, s =>
    match (s.ttcInfos_ i).ttcName with
    | some name =>
      if strncmp name ttcName k.TTF_NAME_LEN_MAX = 0 then (toU8 i, s)
      else RegisterTtcFontInfo.loop k ft ttcName ttfInfo fuel (i + 1) s
    | none =>
      match ft.Stream_New (s.ttfDir_ ++ ttcName) with
      | none =>
        (toU8 k.FONT_INVALID_TTF_ID,
          { s with ttcInfos_ := setAt s.ttcInfos_ i { s.ttcInfos_ i with stream := none } })
      | some stream =>
        let s1 : UIFontVector :=
          { s with ttcInfos_ := setAt s.ttcInfos_ i { ttcName := some ttcName, stream := some stream } }
        let ttfIdx := RegisterTtcFontInfo.freeSlot s1 k.FONT_ID_MAX 0
        (toU8 i, RegisterTtcFontInfo.subFonts k ft stream i ttfInfo 0 ttfIdx s1)

/-- `UIFontVector::RegisterTtcFontInfo(ttcName, ttfInfo, count)`; the descriptor array
and its `uint8_t` length are the list `ttfInfo`. -/
def RegisterTtcFontInfo (k : FontConfig) (ft : FreeType) (s : UIFontVector)
    (ttcName : Option CStr) (ttfInfo : List TtfInfo) : Nat × UIFontVector :=
  match ttcName with
  | none => (toU8 k.FONT_INVALID_TTF_ID, s)
  | some name =>
    if !s.freeTypeInited_ then (toU8 k.FONT_INVALID_TTF_ID, s)
    else RegisterTtcFontInfo.loop k ft name ttfInfo k.FONT_TTC_MAX 0 s

/-! ## The collection reader -/

/-- The tag `TTAG_ttcf`, `FT_MAKE_TAG('t', 't', 'c', 'f')`. -/
def TTAG_ttcf : Nat := 0x74746366

/-- Big-endian 16-bit value of the two bytes at `p` (`FT_PEEK_USHORT`). -/
def FT_PEEK_USHORT (mem : Nat → Nat) (p : Nat) : Nat :=
  (mem p % 256) * 256 + mem (p + 1) % 256

/-- Big-endian 32-bit value of the four bytes at `p` (`FT_PEEK_ULONG`). -/
def FT_PEEK_ULONG (mem : Nat → Nat) (p : Nat) : Nat :=
  (mem p % 256) * 16777216 + (mem (p + 1) % 256) * 65536 + (mem (p + 2) % 256) * 256
    + mem (p + 3) % 256

/-- A 32-bit pattern read as a signed `int32_t`. -/
def toI32 (v : Nat) : Int :=
  if v % 4294967296 < 2147483648 then ((v % 4294967296 : Nat) : Int)
  else ((v % 4294967296 : Nat) : Int) - 4294967296

/-- The store `p[0] = v` through a `uint32_t*` at byte address `p`, in the byte order
of the target. -/
def storeU32 (bigEndian : Bool) (mem : Nat → Nat) (p : Nat) (v : Nat) : Nat → Nat :=
  fun a =>
    if a = p then (if bigEndian then v / 16777216 % 256 else v % 256)
    else if a = p + 1 then (if bigEndian then v / 65536 % 256 else v / 256 % 256)
    else if a = p + 2 then (if bigEndian then v / 256 % 256 else v / 65536 % 256)
    else if a = p + 3 then (if bigEndian then v % 256 else v / 16777216 % 256)
    else mem a

/-- `FT_Stream_Seek`: the new position, or `none` when `pos` lies beyond the end. -/
def FT_Stream_Seek (stream : FT_Stream) (pos : Nat) : Option Nat :=
  if pos > stream.size then none else some pos

/-- `FT_Stream_Skip` from position `pos`. -/
def FT_Stream_Skip (stream : FT_Stream) (pos distance : Nat) : Option Nat :=
  FT_Stream_Seek stream (pos + distance)

/-- `FT_Stream_ReadULong` at position `pos`: the value and the new position. -/
def FT_Stream_ReadULong (stream : FT_Stream) (pos : Nat) : Option (Nat × Nat) :=
  if pos + 3 < stream.size then some (FT_PEEK_ULONG stream.base pos, pos + 4) else none

/-- `FT_Stream_ReadUShort` at position `pos`: the value and the new position. -/
def FT_Stream_ReadUShort (stream : FT_Stream) (pos : Nat) : Option (Nat × Nat) :=
  if pos + 1 < stream.size then some (FT_PEEK_USHORT stream.base pos, pos + 2) else none

/-- `FT_Stream_Read` of `count` bytes at position `pos` into `buffer`: whether it
failed, and the buffer afterwards.  When fewer than `count` bytes are left the bytes
that are there are copied and the read fails. -/
def FT_Stream_Read (stream : FT_Stream) (pos : Nat) (buffer : Nat → Nat) (count : Nat) :
    Bool × (Nat → Nat) :=
  if pos ≥ stream.size then (true, buffer)
  else
    let readBytes := min count (stream.size - pos)
    (decide (readBytes < count),
      fun a => if a < readBytes then stream.base (pos + a) % 256 else buffer a)

/-- The struct `TtcHeader` as filled by `FT_STREAM_READ_FIELDS` with the frame
`FT_FRAME_START(12), FT_FRAME_ULONG(ttcTag), FT_FRAME_LONG(numFonts), FT_FRAME_END`:
the frame is entered at position 0 and needs 12 bytes; the fields are taken from the
frame one after the other, `ttcTag` from bytes 0..3 and `numFonts` from bytes 4..7;
the stream position afterwards is 12. -/
structure TtcHeader where
  ttcTag : Nat
  numFonts : Int

/-- Reading the collection header at position 0 (`FT_Stream_ReadFields`). -/
def readTtcHeader (stream : FT_Stream) : Option (TtcHeader × Nat) :=
  if 12 ≤ stream.size then
    some ({ ttcTag := FT_PEEK_ULONG stream.base 0,
            numFonts := toI32 (FT_PEEK_ULONG stream.base 4) }, 12)
  else none

/-- The table-record loop of `GetTtfInfoFromTtc`: `n` records are left and `p` is
the byte offset of `p` from `ttfBuffer`. -/
def GetTtfInfoFromTtc.patch (bigEndian : Bool) (ttfOffset : Nat) :
    Nat → Nat → (Nat → Nat) → (Nat → Nat)
  | 0, _, buf => buf
  | n + 1, p, buf =>
    let buf1 := storeU32 bigEndian buf p (toU32 ((FT_PEEK_ULONG buf p : Int) - ttfOffset))
    let buf2 := storeU32 bigEndian buf1 p (FT_PEEK_ULONG buf1 p)
    GetTtfInfoFromTtc.patch bigEndian ttfOffset n (p + 16) buf2

/-- What `GetTtfInfoFromTtc` leaves behind: the returned `bool`, the memory at
`ttfBuffer` (byte `a` is `ttfBuffer[a]`) and `ttfHeader.len`. -/
structure TtfResult where
  ret : Bool
  buffer : Option (Nat → Nat)
  len : Nat

/-- `UIFontVector::GetTtfInfoFromTtc`. `ttfBuffer` is `none` for a null pointer and
`len` is the value of `ttfHeader.len` on entry. -/
def GetTtfInfoFromTtc (k : FontConfig) (s : UIFontVector) (ttfBuffer : Option (Nat → Nat))
    (ttfBufferSize : Nat) (len : Nat) (fontInfo : UITextLanguageFontParam) : TtfResult :=
  let fail : TtfResult := { ret := false, buffer := ttfBuffer, len := len }
  match ttfBuffer with
  | none => fail
  | some buf =>
    if ttfBufferSize = 0 ∨ fontInfo.ttcIndex ≥ k.FONT_TTC_MAX then fail
    else
      match (s.ttcInfos_ fontInfo.ttcIndex).stream with
      | none => fail
      | some stream =>
        match FT_Stream_Seek stream 0 with
        | none => fail
        | some _ =>
          match readTtcHeader stream with
          | none => fail
          | some (header, pos) =>
            if header.ttcTag ≠ TTAG_ttcf then fail
            else
              let ttfIndex := toU8 fontInfo.ttfIndex
              if (ttfIndex : Int) ≥ header.numFonts then fail
              else
                match FT_Stream_Skip stream pos (4 * ttfIndex) with
                | none => fail
                | some pos1 =>
                  match FT_Stream_ReadULong stream pos1 with
                  | none => fail
                  | some (ttfOffset, pos2) =>
                    let ttfLength? : Option Nat :=
                      if (ttfIndex : Int) + 1 = header.numFonts then
                        some (toU32 ((stream.size : Int) - ttfOffset))
                      else
                        match FT_Stream_ReadULong stream pos2 with
                        | none => none
                        | some (nextTtfOffset, _) =>
                          some (toU32 ((nextTtfOffset : Int) - ttfOffset))
                    match ttfLength? with
                    | none => fail
                    | some ttfLength =>
                      if ttfLength > ttfBufferSize then fail
                      else
                        match FT_Stream_Seek stream ttfOffset with
                        | none => fail
                        | some pos3 =>
                          let rd := FT_Stream_Read stream pos3 buf ttfLength
                          if rd.1 then { ret := false, buffer := some rd.2, len := len }
                          else
                            match (FT_Stream_Seek stream (toU32 ((ttfOffset : Int) + 4))).bind
                                (FT_Stream_ReadUShort stream) with
                            | none => { ret := false, buffer := some rd.2, len := ttfLength }
                            | some (numTables, _) =>
                              { ret := true,
                                buffer := some (GetTtfInfoFromTtc.patch k.HOST_BIG_ENDIAN
                                  ttfOffset numTables 20 rd.2),
                                len := ttfLength }

/-- What `GetTtfInfoFromTtc` has read from the collection `stream` when it reaches
the test `ttfLength > ttfBufferSize`: the offset of sub-font `ttfIndex` and the
derived length as a signed difference, before its conversion to `uint32_t`; `none`
when the function returns earlier. -/
def GetTtfInfoFromTtc.derived (stream : FT_Stream) (ttfIndex : Nat) : Option (Nat × Int) :=
  match readTtcHeader stream with
  | none => none
  | some (header, pos) =>
    if header.ttcTag ≠ TTAG_ttcf then none
    else if (ttfIndex : Int) ≥ header.numFonts then none
    else
      match FT_Stream_Skip stream pos (4 * ttfIndex) with
      | none => none
      | some pos1 =>
        match FT_Stream_ReadULong stream pos1 with
        | none => none
        | some (ttfOffset, pos2) =>
          if (ttfIndex : Int) + 1 = header.numFonts then
            some (ttfOffset, (stream.size : Int) - ttfOffset)
          else
            match FT_Stream_ReadULong stream pos2 with
            | none => none
            | some (nextTtfOffset, _) => some (ttfOffset, (nextTtfOffset : Int) - ttfOffset)

/-! ## The glyph cache -/

/-- Modelled from the spec: bytes of the backing memory taken by the entries of a
`UIFontCache`. -/
def UIFontCache.used (c : UIFontCache) : Nat :=
  (c.entries.map (fun e => e.size)).sum

/-- Modelled from the spec: `UIFontCache::GetBitmap(key, unicode, textStyle)`, the
lookup of the cache; `none` is the null pointer of a miss. -/
def UIFontCache.GetBitmap (c : UIFontCache) (key unicode : Nat) (textStyle : TextStyle) :
    Option CacheEntry :=
  c.entries.find? (fun e => decide (e.key = key ∧ e.unicode = unicode ∧ e.textStyle = textStyle))

/-- Modelled from the spec: `UIFontCache::GetSpace(key, unicode, size, textStyle)`,
which reserves `size` bytes for a new entry, or fails (`none`, the null pointer) when
the cache is full.  The new entry is the head of `entries`; its content is blank
until the caller writes it. -/
def UIFontCache.GetSpace (c : UIFontCache) (key unicode size : Nat) (textStyle : TextStyle) :
    Option UIFontCache :=
  if c.used + size ≤ c.capacity then
    some { c with entries :=
      { key := key, unicode := unicode, textStyle := textStyle, size := size,
        metric := { left := 0, top := 0, cols := 0, rows := 0, advance := 0 },
        pixels := [] } :: c.entries }
  else none

/-- The first `memcpy_s` of `SetFace`: the `Metric` header is written at the start
of the space that `GetSpace` returned. -/
def UIFontCache.storeMetric (c : UIFontCache) (f : Metric) : UIFontCache :=
  match c.entries with
  | [] => c
  | e :: es => { c with entries := { e with metric := f } :: es }

/-- The second `memcpy_s` of `SetFace`: `bitmapSize` pixel bytes are written after
the header; `memcpy_s` rejects a zero length and then copies nothing. -/
def UIFontCache.storePixels (c : UIFontCache) (buffer : List Nat) (bitmapSize : Nat) :
    UIFontCache :=
  match c.entries with
  | [] => c
  | e :: es =>
    if bitmapSize = 0 then c
    else { c with entries := { e with pixels := buffer.take bitmapSize } :: es }

/-! ## Glyph resolution -/

/-- The fields of `GlyphNode` that this file reads or writes. -/
structure GlyphNode where
  left : Int
  top : Int
  cols : Int
  rows : Int
  advance : Int
  fontId : Nat
  textStyle : TextStyle
  deriving DecidableEq, Repr

/-- `UIFontVector::GetKey`, a `uint32_t`. -/
def GetKey (fontId : Nat) (size : Nat) : Nat :=
  ((fontId <<< 24) % 4294967296 + size) % 4294967296

/-- `UIFontVector::GetFontWeight`. -/
def GetFontWeight (k : FontConfig) (s : UIFontVector) (fontId : Nat) : Nat :=
  if fontId ≥ k.FONT_ID_MAX then k.BPP_BIT_8 else (s.fontInfo_ fontId).fontWeight

/-- `UIFontVector::IsEmojiFont`. -/
def IsEmojiFont (k : FontConfig) (s : UIFontVector) (fontId : Nat) : Bool :=
  if fontId ≥ k.FONT_ID_MAX then false else decide ((s.fontInfo_ fontId).fontWeight ≥ 16)

/-- `UIFontVector::GetFontInfo`: `none` is the null pointer. -/
def GetFontInfo (k : FontConfig) (s : UIFontVector) (fontId : Nat) :
    Option UITextLanguageFontParam :=
  if fontId < k.FONT_ID_MAX then some (s.fontInfo_ fontId) else none

/-- A non-zero `FT_Error`, as seen through the `int8_t` that receives it; callers only
compare it with 0. -/
def FT_Err_Some : Int := 1

/-- The scan of `SetupColorFont` over `available_sizes[i]` for the indices from `i`
on: the pair `(bestMatch, diff)` when the loop ends. -/
def SetupColorFont.scan (fontSize : Int) : List Int → Nat → Nat → Int → Nat × Int
  | [], _, bestMatch, diff => (bestMatch, diff)
  | w :: rest, i, bestMatch, diff =>
    let ndiff := |fontSize - w|
    if ndiff < diff then SetupColorFont.scan fontSize rest (i + 1) i ndiff
    else SetupColorFont.scan fontSize rest (i + 1) bestMatch diff

/-- The index `bestMatch` that `SetupColorFont` passes to `FT_Select_Size`. -/
def SetupColorFont.bestMatch (sizes : List Int) (fontSize : Nat) : Option Nat :=
  match sizes with
  | [] => none
  | w0 :: rest => some (SetupColorFont.scan fontSize rest 1 0 |(fontSize : Int) - w0|).1

/-- `SetupColorFont(face, fontSize)`: the returned `int8_t` and the face afterwards. -/
def SetupColorFont (k : FontConfig) (face : FT_Face) (fontSize : Nat) : Int × FT_Face :=
  match SetupColorFont.bestMatch face.font.available_sizes fontSize with
  | none => (k.INVALID_RET_VALUE, face)
  | some bestMatch =>
    match face.font.selectSize bestMatch with
    | none => (FT_Err_Some, face)
    | some m => (0, { face with size := m })

/-- `FT_Set_Char_Size(face, charWidth, 0, 0, 0)`: the error as an `int8_t` and the
face afterwards. -/
def FT_Set_Char_Size (face : FT_Face) (charWidth : Int) : Int × FT_Face :=
  match face.font.setCharSize charWidth with
  | none => (FT_Err_Some, face)
  | some m => (0, { face with size := m })

/-- The step "Set the size" of `GetFaceInfo` on the face of slot `fontId`: the
`int8_t` `ret` and the face afterwards. -/
def GetFaceInfo.setSize (k : FontConfig) (s : UIFontVector) (fontId fontSize : Nat)
    (face : FT_Face) : Int × FT_Face :=
  if IsEmojiFont k s fontId then SetupColorFont k face fontSize
  else FT_Set_Char_Size face ((fontSize : Int) * k.FONT_PIXEL_IN_POINT)

/-- `UIFontVector::GetFaceInfo`: the returned `int8_t`, `faceInfo.key` and the state
afterwards; `faceInfo.face` is the pointer `ftFaces_[fontId]`.  A slot without a face
makes the size request fail. -/
def GetFaceInfo (k : FontConfig) (s : UIFontVector) (fontId fontSize : Nat) :
    Int × Nat × UIFontVector :=
  if fontId ≥ k.FONT_ID_MAX ∨ fontSize = 0 then (k.INVALID_RET_VALUE, 0, s)
  else
    match GetFontInfo k s fontId with
    | none => (k.INVALID_RET_VALUE, 0, s)
    | some fontInfo =>
      if fontInfo.ttfName = none then (k.INVALID_RET_VALUE, 0, s)
      else if !s.freeTypeInited_ then (k.INVALID_RET_VALUE, 0, s)
      else
        let key := GetKey fontId fontSize
        match s.ftFaces_ fontId with
        | none => (k.INVALID_RET_VALUE, key, s)
        | some face =>
          let r := GetFaceInfo.setSize k s fontId fontSize face
          let s1 : UIFontVector := { s with ftFaces_ := setAt s.ftFaces_ fontId (some r.2) }
          if r.1 ≠ 0 then (k.INVALID_RET_VALUE, key, s1) else (k.RET_VALUE_OK, key, s1)

/-- The loop of `GetFontId(uint32_t unicode)` for the tag `ttfId`. -/
def GetFontId.loop (k : FontConfig) (s : UIFontVector) (ttfId : Nat) : Nat → Nat → Nat
  | 0, _ => k.FONT_INVALID_TTF_ID
  | fuel + 1, i =>
    match (s.fontInfo_ i).ttfName with
    | none => GetFontId.loop k s ttfId fuel (i + 1)
    | some _ =>
      if (s.fontInfo_ i).ttfId = ttfId then i else GetFontId.loop k s ttfId fuel (i + 1)

/-- `UIFontVector::GetFontId(uint32_t unicode)`, a `uint16_t`. -/
def GetFontId (k : FontConfig) (s : UIFontVector) (unicode : Nat) : Nat :=
  GetFontId.loop k s (toU8 ((unicode >>> 24) &&& 0x1F)) k.FONT_ID_MAX 0 % 65536

/-- `UIFontVector::IsGlyphFont`. -/
def IsGlyphFont (k : FontConfig) (s : UIFontVector) (unicode : Nat) : Nat :=
  let unicodeFontId := toU8 (GetFontId k s unicode)
  if unicodeFontId = k.FONT_INVALID_TTF_ID then 0 else (s.fontInfo_ unicodeFontId).shaping

/-- `FT_Load_Glyph(face, glyphIndex, flags)`: whether it failed, and the face
afterwards.  A null face is an error. -/
def FT_Load_Glyph (face : Option FT_Face) (glyphIndex : Nat) (flags : FT_Load_Flag) :
    Bool × Option FT_Face :=
  match face with
  | none => (true, none)
  | some f =>
    match f.font.loadGlyph f.size glyphIndex flags with
    | none => (true, some f)
    | some slot => (false, some { f with glyph := slot })

/-- `FT_Load_Char(face, charCode, flags)`: `FT_Load_Glyph` on the glyph index of
`charCode`. -/
def FT_Load_Char (face : Option FT_Face) (charCode : Nat) (flags : FT_Load_Flag) :
    Bool × Option FT_Face :=
  match face with
  | none => (true, none)
  | some f => FT_Load_Glyph (some f) (f.font.getCharIndex charCode) flags

/-- The three FreeType calls of `LoadGlyphIntoFace`, shared by both overloads: the
error flag and the state afterwards, or `none` when the function has already
returned `INVALID_RET_VALUE` because the tag of `unicode` names another font. -/
def LoadGlyphIntoFace.load (k : FontConfig) (s : UIFontVector) (fontId unicode : Nat) :
    Option (Bool × UIFontVector) :=
  if IsGlyphFont k s unicode ≠ 0 then
    if fontId ≠ GetFontId k s unicode then none
    else
      let r := FT_Load_Glyph (s.ftFaces_ fontId) (unicode &&& 0xFFFFFF) FT_Load_Flag.FT_LOAD_RENDER
      some (r.1, { s with ftFaces_ := setAt s.ftFaces_ fontId r.2,
                          ftLoadCalls := s.ftLoadCalls + 1 })
  else
    let r := if IsEmojiFont k s fontId
             then FT_Load_Char (s.ftFaces_ fontId) unicode FT_Load_Flag.FT_LOAD_COLOR
             else FT_Load_Char (s.ftFaces_ fontId) unicode FT_Load_Flag.FT_LOAD_RENDER
    some (r.1, { s with ftFaces_ := setAt s.ftFaces_ fontId r.2,
                        ftLoadCalls := s.ftLoadCalls + 1 })

/-- The test `(error != 0) || (ftFaces_[fontId]->glyph->glyph_index == 0)`. -/
def glyphMissing (error : Bool) (face : Option FT_Face) : Bool :=
  error || (match face with
            | none => true
            | some f => decide (f.glyph.glyph_index = 0))

/-- `UIFontVector::LoadGlyphIntoFace(uint16_t& fontId, uint32_t unicode)`. -/
def LoadGlyphIntoFace (k : FontConfig) (s : UIFontVector) (fontId unicode : Nat) :
    Int × UIFontVector :=
  match LoadGlyphIntoFace.load k s fontId unicode with
  | none => (k.INVALID_RET_VALUE, s)
  | some (error, s1) =>
    if glyphMissing error (s1.ftFaces_ fontId) then (k.INVALID_RET_VALUE, s1)
    else (k.RET_VALUE_OK, s1)

/-- `UIFontVector::SetItaly` on the glyph slot of a face. -/
def SetItaly (face : FT_Face) : FT_Face :=
  if face.glyph.format ≠ FT_Glyph_Format.FT_GLYPH_FORMAT_OUTLINE then face
  else { face with glyph := face.font.outlineTransform face.glyph }

/-- `UIFontVector::SetBold` on a face. -/
def SetBold (face : FT_Face) : FT_Face :=
  if face.glyph.format = FT_Glyph_Format.FT_GLYPH_FORMAT_OUTLINE then
    match face.font.outlineEmbolden face.size face.glyph with
    | none => face
    | some g => { face with glyph := g }
  else if face.glyph.format = FT_Glyph_Format.FT_GLYPH_FORMAT_BITMAP then
    match face.font.bitmapEmbolden face.size face.glyph with
    | none => face
    | some g => { face with glyph := g }
  else face

/-- The style synthesis and final rendering of the four-argument
`LoadGlyphIntoFace`, on the face of the slot: the error flag and the face. -/
def LoadGlyphIntoFace.style (face : FT_Face) (textStyle : TextStyle) : Bool × FT_Face :=
  let f1 :=
    match textStyle with
    | TextStyle.TEXT_STYLE_ITALIC => SetItaly face
    | TextStyle.TEXT_STYLE_BOLD => SetBold face
    | TextStyle.TEXT_STYLE_BOLD_ITALIC => SetBold (SetItaly face)
    | TextStyle.TEXT_STYLE_NORMAL => face
  if f1.glyph.format ≠ FT_Glyph_Format.FT_GLYPH_FORMAT_BITMAP then
    match f1.font.renderGlyph f1.glyph with
    | none => (true, f1)
    | some g => (false, { f1 with glyph := g })
  else (false, f1)

/-- `UIFontVector::LoadGlyphIntoFace(uint16_t& fontId, uint32_t unicode, FT_Face face,
TextStyle textStyle)`, compiled when `ENABLE_VECTOR_FONT` is set. -/
def LoadGlyphIntoFaceStyle (k : FontConfig) (s : UIFontVector) (fontId unicode : Nat)
    (textStyle : TextStyle) : Int × UIFontVector :=
  match LoadGlyphIntoFace.load k s fontId unicode with
  | none => (k.INVALID_RET_VALUE, s)
  | some (error, s1) =>
    if glyphMissing error (s1.ftFaces_ fontId) then (k.INVALID_RET_VALUE, s1)
    else
      match s1.ftFaces_ fontId with
      | none => (k.INVALID_RET_VALUE, s1)
      | some face =>
        let r := LoadGlyphIntoFace.style face textStyle
        let s2 : UIFontVector := { s1 with ftFaces_ := setAt s1.ftFaces_ fontId (some r.2) }
        if glyphMissing r.1 (some r.2) then (k.INVALID_RET_VALUE, s2)
        else (k.RET_VALUE_OK, s2)

/-- The `Metric` that `SetFace` builds from `faceInfo.face->glyph`. -/
def metricOfGlyph (k : FontConfig) (g : FT_GlyphSlot) : Metric :=
  { advance := toU16 (Int.tdiv g.advance_x k.FONT_PIXEL_IN_POINT),
    left := g.bitmap_left, top := g.bitmap_top, cols := g.width, rows := g.rows }

/-- `UIFontVector::SetFace(faceInfo, unicode, textStyle)`; the two-argument overload
is the call with `TEXT_STYLE_NORMAL`.  `fontId` names the face `faceInfo.face` points
to and `key` is `faceInfo.key`. -/
def SetFace (k : FontConfig) (s : UIFontVector) (fontId key unicode : Nat)
    (textStyle : TextStyle) : UIFontVector :=
  match s.ftFaces_ fontId, s.bitmapCache_ with
  | some face, some cache =>
    let f := metricOfGlyph k face.glyph
    let pixSize : Int := if face.glyph.pixel_mode = FT_PIXEL_MODE_BGRA then 4 else 1
    let bitmapSize := toU32 (face.glyph.width * face.glyph.rows * pixSize)
    match cache.GetSpace key unicode (toU32 ((bitmapSize : Int) + k.SIZEOF_METRIC)) textStyle with
    | none => s
    | some c1 =>
      let c2 := (c1.storeMetric f).storePixels face.glyph.buffer bitmapSize
      { s with bitmapCache_ := some c2 }
  | _, _ => s

/-- The text style under which `GetGlyphNode` addresses the cache: `glyphNode.textStyle`
when `ENABLE_VECTOR_FONT` is set, and the style of the overloads without a style
argument otherwise. -/
def GetGlyphNode.style (k : FontConfig) (glyphNode : GlyphNode) : TextStyle :=
  if k.ENABLE_VECTOR_FONT then glyphNode.textStyle else TextStyle.TEXT_STYLE_NORMAL

/-- The overload of `LoadGlyphIntoFace` that `GetGlyphNode` calls on a cache miss. -/
def GetGlyphNode.load (k : FontConfig) (s : UIFontVector) (fontId unicode : Nat)
    (glyphNode : GlyphNode) : Int × UIFontVector :=
  if k.ENABLE_VECTOR_FONT then LoadGlyphIntoFaceStyle k s fontId unicode glyphNode.textStyle
  else LoadGlyphIntoFace k s fontId unicode

/-- `UIFontVector::GetGlyphNode`: the returned `int8_t`, `glyphNode` and the state
afterwards. -/
def GetGlyphNode (k : FontConfig) (s : UIFontVector) (unicode : Nat) (glyphNode : GlyphNode)
    (fontId fontSize : Nat) : Int × GlyphNode × UIFontVector :=
  let fi := GetFaceInfo k s fontId fontSize
  let key := fi.2.1
  let s1 := fi.2.2
  if fi.1 ≠ k.RET_VALUE_OK then (k.INVALID_RET_VALUE, glyphNode, s1)
  else
    match s1.ftFaces_ fontId, s1.bitmapCache_ with
    | some _, some cache =>
      if !s1.freeTypeInited_ then (k.INVALID_RET_VALUE, glyphNode, s1)
      else
        match cache.GetBitmap key unicode (GetGlyphNode.style k glyphNode) with
        | some e =>
          (k.RET_VALUE_OK,
            { glyphNode with left := e.metric.left, top := e.metric.top, cols := e.metric.cols,
                             rows := e.metric.rows, advance := e.metric.advance,
                             fontId := fontId }, s1)
        | none =>
          let ld := GetGlyphNode.load k s1 fontId unicode glyphNode
          if ld.1 ≠ k.RET_VALUE_OK then (k.INVALID_RET_VALUE, glyphNode, ld.2)
          else
            match ld.2.ftFaces_ fontId with
            | none => (k.INVALID_RET_VALUE, glyphNode, ld.2)
            | some face =>
              let g := face.glyph
              (k.RET_VALUE_OK,
                { glyphNode with left := g.bitmap_left, top := g.bitmap_top, cols := g.width,
                                 rows := g.rows,
                                 advance := toU16 (Int.tdiv g.advance_x k.FONT_PIXEL_IN_POINT),
                                 fontId := fontId },
                SetFace k ld.2 fontId key unicode (GetGlyphNode.style k glyphNode))
    | _, _ => (k.INVALID_RET_VALUE, glyphNode, s1)

/-- `UIFontVector::GetWidth`: the returned `int16_t` and the state afterwards.  It uses
the overloads of `GetBitmap`, `LoadGlyphIntoFace` and `SetFace` without a style
argument. -/
def GetWidth (k : FontConfig) (s : UIFontVector) (unicode fontId fontSize : Nat) :
    Int × UIFontVector :=
  if fontId ≥ k.FONT_ID_MAX ∨ fontSize = 0 then (k.INVALID_RET_VALUE, s)
  else
    match s.bitmapCache_ with
    | none => (k.INVALID_RET_VALUE, s)
    | some cache =>
      if !s.freeTypeInited_ then (k.INVALID_RET_VALUE, s)
      else
        match cache.GetBitmap (GetKey fontId fontSize) unicode TextStyle.TEXT_STYLE_NORMAL with
        | some e => (toI16 e.metric.advance, s)
        | none =>
          let fi := GetFaceInfo k s fontId fontSize
          let s1 := fi.2.2
          match s1.ftFaces_ fontId with
          | none => (k.INVALID_RET_VALUE, s1)
          | some _ =>
            if fi.1 ≠ k.RET_VALUE_OK then (k.INVALID_RET_VALUE, s1)
            else
              let ld := LoadGlyphIntoFace k s1 fontId unicode
              if ld.1 ≠ k.RET_VALUE_OK then (k.INVALID_RET_VALUE, ld.2)
              else
                match ld.2.ftFaces_ fontId with
                | none => (k.INVALID_RET_VALUE, ld.2)
                | some face =>
                  (toI16 (toU16 (Int.tdiv face.glyph.advance_x k.FONT_PIXEL_IN_POINT)),
                    SetFace k ld.2 fontId fi.2.1 unicode TextStyle.TEXT_STYLE_NORMAL)

/-- Byte `a` of the output buffer after the call (0 for a null buffer). -/
def TtfResult.byte (r : TtfResult) (a : Nat) : Nat :=
  match r.buffer with
  | some mem => mem a
  | none => 0

/-- Byte `j` (0 is the most significant) of the big-endian form of a 32-bit value. -/
def beByte (v j : Nat) : Nat :=
  if j = 0 then v / 16777216 % 256 else if j = 1 then v / 65536 % 256
  else if j = 2 then v / 256 % 256 else v % 256

/-- The extracted sub-font as the spec describes it, byte by byte: the container
bytes from `ttfOffset` on, copied verbatim, except that the offset field of each of
the `numTables` table records (bytes `20 + 16 i .. 23 + 16 i`) holds, in big-endian,
the container-relative offset found in the container minus `ttfOffset`. -/
def expectedTtfByte (stream : FT_Stream) (ttfOffset numTables a : Nat) : Nat :=
  if 20 ≤ a ∧ (a - 20) / 16 < numTables ∧ (a - 20) % 16 < 4 then
    beByte (toU32 ((FT_PEEK_ULONG stream.base (ttfOffset + 20 + 16 * ((a - 20) / 16)) : Int)
      - ttfOffset)) ((a - 20) % 16)
  else stream.base (ttfOffset + a) % 256

/-! ## Unregistration of a collection and lookup by name -/

/-- The loop `for (uint8_t j = 0; j < count; j++) UnregisterFontInfo(ttfInfo[j].ttfName)`
of `UnregisterTtcFontInfo` over the descriptors still to visit. -/
def UnregisterTtcFontInfo.subFonts (k : FontConfig) : List TtfInfo → UIFontVector → UIFontVector
  | [], s => s
  | d :: rest, s => UnregisterTtcFontInfo.subFonts k rest (UnregisterFontInfo k s d.ttfName).2

/-- The loop `while (i < FONT_ID_MAX)` of `UnregisterTtcFontInfo` over `ttcInfos_`;
`i` is a `uint8_t`, so the recursion on the iterations left is the loop for
`FONT_ID_MAX` up to 255.  The array `ttcInfos_` has `FONT_TTC_MAX` elements: an
iteration with `i` at or above `FONT_TTC_MAX` reads past its end, and the result is
then `none`. -/
def UnregisterTtcFontInfo.loop (k : FontConfig) (ttcName : CStr) (ttfInfo : List TtfInfo) :
    Nat → Nat → UIFontVector → Option (Nat × UIFontVector)
  | 0, _, s => some (toU8 k.FONT_INVALID_TTF_ID, s)
  | fuel + 1, i, s =>
    if i ≥ k.FONT_TTC_MAX then none
    else
      match (s.ttcInfos_ i).ttcName with
      | some name =>
        if strncmp name ttcName k.TTF_NAME_LEN_MAX = 0 then
          let rec1 : TtcInfo := s.ttcInfos_ i
          let rec2 : TtcInfo := { rec1 with stream := FT_Stream_Free rec1.stream }
          let s1 : UIFontVector := { s with ttcInfos_ := setAt s.ttcInfos_ i rec2 }
          some (toU8 i, UnregisterTtcFontInfo.subFonts k ttfInfo s1)
        else UnregisterTtcFontInfo.loop k ttcName ttfInfo fuel (i + 1) s
      | none => UnregisterTtcFontInfo.loop k ttcName ttfInfo fuel (i + 1) s

/-- `UIFontVector::UnregisterTtcFontInfo(ttcName, ttfInfo, count)`: the returned
`uint8_t` and the state afterwards, or `none` when the loop reads past the end of
`ttcInfos_`.  A non-null descriptor array and its `uint8_t` length are the list
`ttfInfo`. -/
def UnregisterTtcFontInfo (k : FontConfig) (s : UIFontVector) (ttcName : Option CStr)
    (ttfInfo : Option (List TtfInfo)) : Option (Nat × UIFontVector) :=
  match ttcName, ttfInfo with
  | some name, some infos => UnregisterTtcFontInfo.loop k name infos k.FONT_ID_MAX 0 s
  | _, _ => some (toU8 k.FONT_INVALID_TTF_ID, s)

/-- The test of the loop of `UnregisterTtcFontInfo` on collection slot `i`. -/
def ttcMatches (k : FontConfig) (s : UIFontVector) (i : Nat) (ttcName : CStr) : Bool :=
  match (s.ttcInfos_ i).ttcName with
  | some name => decide (strncmp name ttcName k.TTF_NAME_LEN_MAX = 0)
  | none => false

/-- The C library `strstr`: the offset of the first occurrence of `needle` in
`haystack`, or `none` for the null pointer. -/
def strstr : CStr → CStr → Option Nat
  | [], needle => if needle.isPrefixOf [] then some 0 else none
  | c :: rest, needle =>
    if needle.isPrefixOf (c :: rest) then some 0
    else (strstr rest needle).map (fun p => p + 1)

/-- The loop of `GetFontId(const char* ttfName, uint8_t fontSize)`. -/
def GetFontIdByName.loop (k : FontConfig) (s : UIFontVector) (ttfName : CStr) : Nat → Nat → Nat
  | 0, _ => k.FONT_ID_MAX % 65536
  | fuel + 1, i =>
    match (s.fontInfo_ i).ttfName with
    | some name =>
      if (strstr name ttfName).isSome then toU8 i
      else GetFontIdByName.loop k s ttfName fuel (i + 1)
    | none => GetFontIdByName.loop k s ttfName fuel (i + 1)

/-- `UIFontVector::GetFontId(const char* ttfName, uint8_t fontSize)`, a `uint16_t`. -/
def GetFontIdByName (k : FontConfig) (s : UIFontVector) (ttfName : Option CStr)
    (_fontSize : Nat) : Nat :=
  match ttfName with
  | some name => GetFontIdByName.loop k s name k.FONT_ID_MAX 0
  | none => k.FONT_ID_MAX % 65536

/-- The registered name of slot `i` contains `query` as a contiguous substring. -/
def nameContains (s : UIFontVector) (i : Nat) (query : CStr) : Prop :=
  match (s.fontInfo_ i).ttfName with
  | some name => query <:+: name
  | none => False

instance nameContains.decidable (s : UIFontVector) (i : Nat) (query : CStr) :
    Decidable (nameContains s i query) := by
  unfold nameContains
  split <;> infer_instance

/-! ## Line metrics -/

/-- One step of `TypedText::GetUTF8Next` along the line: the code point it yields and
whether the last byte it consumed (`text[i - 1]`) is a carriage return or a line
feed.  A line is the list of the steps made while `i < lineLength`; `lineLength` is a
`uint16_t`, so a line has fewer than 65536 steps. -/
structure Letter where
  unicode : Nat
  lineBreak : Bool
  deriving DecidableEq, Repr

/-- A zero-initialised `GlyphNode` (`GlyphNode emojiMaxNode = {}`). -/
def zeroGlyphNode : GlyphNode :=
  { left := 0, top := 0, cols := 0, rows := 0, advance := 0, fontId := 0,
    textStyle := TextStyle.TEXT_STYLE_NORMAL }

/-- `UIFontVector::GetHeight`: the returned `uint16_t` and the state afterwards. -/
def GetHeight (k : FontConfig) (s : UIFontVector) (fontId fontSize : Nat) : Int × UIFontVector :=
  let fi := GetFaceInfo k s fontId fontSize
  if fi.1 ≠ k.RET_VALUE_OK then (toU16 k.INVALID_RET_VALUE, fi.2.2)
  else
    match fi.2.2.ftFaces_ fontId, fi.2.2.bitmapCache_ with
    | some face, some _ =>
      if !fi.2.2.freeTypeInited_ then (0, fi.2.2)
      else (toU16 (Int.tdiv face.size.height k.FONT_PIXEL_IN_POINT), fi.2.2)
    | _, _ => (0, fi.2.2)

/-- The local variables of the loop of `GetOffsetPosY`. -/
structure OffsetVars where
  textNum : Nat
  emojiNum : Nat
  loopNum : Nat
  glyphNode : GlyphNode
  emojiMaxNode : GlyphNode
  deriving DecidableEq, Repr

/-- The loop `while (i < lineLength)` of `GetOffsetPosY` over the steps still to make.
The `int8_t` returned by `GetGlyphNode` is received in a `uint8_t` before it is
compared with `RET_VALUE_OK`; the counters are `uint16_t`. -/
def GetOffsetPosY.loop (k : FontConfig) (fontId fontSize : Nat) :
    List Letter → UIFontVector → OffsetVars → OffsetVars × UIFontVector
  | [], s, v => (v, s)
  | c :: rest, s, v =>
    let r := GetGlyphNode k s c.unicode v.glyphNode fontId fontSize
    if r.1 % 256 = k.RET_VALUE_OK then
      let weight := GetFontWeight k r.2.2 r.2.1.fontId
      let v1 : OffsetVars :=
        if weight ≥ 16 then
          { v with glyphNode := r.2.1,
                   emojiMaxNode := if r.2.1.rows > v.emojiMaxNode.rows then r.2.1
                                   else v.emojiMaxNode,
                   emojiNum := (v.emojiNum + 1) % 65536 }
        else { v with glyphNode := r.2.1, textNum := (v.textNum + 1) % 65536 }
      GetOffsetPosY.loop k fontId fontSize rest r.2.2
        { v1 with loopNum := (v1.loopNum + 1) % 65536 }
    else GetOffsetPosY.loop k fontId fontSize rest r.2.2 { v with glyphNode := r.2.1 }

/-- The part of `GetOffsetPosY` after the loop: the returned `uint16_t` and the value
given to `isEmojiLarge`, from the counters, `emojiMaxNode` and `maxFontSize`
(which is `fontSize`). -/
def GetOffsetPosY.result (v : OffsetVars) (maxFontSize : Nat) : Int × Bool :=
  if v.emojiNum = v.loopNum ∨ v.textNum = v.loopNum then (0, true)
  else
    let isEmojiLarge := decide (v.emojiMaxNode.rows > (maxFontSize : Int))
    if isEmojiLarge then
      (if v.emojiMaxNode.top ≥ (maxFontSize : Int)
        then toU16 (v.emojiMaxNode.top - (maxFontSize : Int)) else 0, isEmojiLarge)
    else
      (if (maxFontSize : Int) ≥ v.emojiMaxNode.rows
        then toU16 ((maxFontSize : Int) - v.emojiMaxNode.rows) else 0, isEmojiLarge)

/-- `UIFontVector::GetOffsetPosY`: the returned `uint16_t`, `isEmojiLarge` and the
state afterwards.  `glyphNode` is the content of the uninitialised local of that
name and `isEmojiLarge` the value of the reference on entry. -/
def GetOffsetPosY (k : FontConfig) (s : UIFontVector) (text : List Letter) (isEmojiLarge : Bool)
    (fontId fontSize : Nat) (glyphNode : GlyphNode) : Int × Bool × UIFontVector :=
  if !s.freeTypeInited_ ∨ s.bitmapCache_.isNone then (toU16 k.INVALID_RET_VALUE, isEmojiLarge, s)
  else
    let r := GetOffsetPosY.loop k fontId fontSize text s
      { textNum := 0, emojiNum := 0, loopNum := 0, glyphNode := glyphNode,
        emojiMaxNode := zeroGlyphNode }
    ((GetOffsetPosY.result r.1 fontSize).1, (GetOffsetPosY.result r.1 fontSize).2, r.2)

/-- The fields of `SizeSpan` that `GetLineMaxHeight` reads or writes. -/
structure SizeSpan where
  isSizeSpan : Bool
  height : Int
  fontId : Nat
  size : Nat
  deriving DecidableEq, Repr

/-- The local variables and reference arguments of the loop of `GetLineMaxHeight`;
`sizeSpans` is `none` for a null pointer. -/
structure LineVars where
  textNum : Nat
  emojiNum : Nat
  loopNum : Nat
  maxHeight : Int
  letterIndex : Nat
  sizeSpans : Option (Nat → SizeSpan)

/-- The size-span step of the loop of `GetLineMaxHeight` for the current letter. -/
def GetLineMaxHeight.span (k : FontConfig) (s : UIFontVector) (v : LineVars) :
    LineVars × UIFontVector :=
  match v.sizeSpans with
  | none => (v, s)
  | some spans =>
    let sp := spans v.letterIndex
    if sp.isSizeSpan then
      if sp.height = 0 then
        let h := GetHeight k s (sp.fontId % 65536) (toU8 sp.size)
        ({ v with sizeSpans := some (setAt spans v.letterIndex { sp with height := h.1 }),
                  maxHeight := if h.1 > v.maxHeight then h.1 else v.maxHeight }, h.2)
      else
        let spannableHeight := toU16 sp.height
        ({ v with maxHeight := if spannableHeight > v.maxHeight then spannableHeight
                               else v.maxHeight }, s)
    else (v, s)

/-- The loop `while (i < lineLength)` of `GetLineMaxHeight` over the steps still to
make.  `IsColourWord` is `TypedText::IsColourWord`, which lies outside this file: its
answer for a code point, font and size is taken as given, and it is taken not to
change this object. -/
def GetLineMaxHeight.loop (k : FontConfig) (IsColourWord : Nat → Nat → Nat → Bool)
    (fontId fontSize : Nat) : List Letter → UIFontVector → LineVars → LineVars × UIFontVector
  | [], s, v => (v, s)
  | c :: rest, s, v =>
    let v1 : LineVars :=
      if IsColourWord c.unicode fontId fontSize then { v with emojiNum := (v.emojiNum + 1) % 65536 }
      else { v with textNum := (v.textNum + 1) % 65536 }
    let v2 : LineVars := { v1 with loopNum := (v1.loopNum + 1) % 65536 }
    let r := GetLineMaxHeight.span k s v2
    let v3 : LineVars := { r.1 with letterIndex := (r.1.letterIndex + 1) % 65536 }
    if c.lineBreak then (v3, r.2)
    else GetLineMaxHeight.loop k IsColourWord fontId fontSize rest r.2 v3

/-- The expression `static_cast<uint16_t>(ftFaces_[i]->size->metrics.height /
FONT_PIXEL_IN_POINT)`; `none` when `ftFaces_[i]` is null, which the source
dereferences. -/
def faceHeight (k : FontConfig) (s : UIFontVector) (i : Nat) : Option Int :=
  (s.ftFaces_ i).map (fun face => toU16 (Int.tdiv face.size.height k.FONT_PIXEL_IN_POINT))

/-- The first loop of `GetMaxSubLineHeight` (all words): `none` when the loop ends
without returning, `some r` when it returns `r`, where `r` is `none` when a null
face is dereferenced. -/
def GetMaxSubLineHeight.firstText (k : FontConfig) (s : UIFontVector) (maxHeight : Int) :
    Nat → Nat → Option (Option Int)
  | 0, _ => none
  | fuel + 1, i =>
    if !IsEmojiFont k s i then
      some ((faceHeight k s i).map (fun height => if height > maxHeight then height else maxHeight))
    else GetMaxSubLineHeight.firstText k s maxHeight fuel (i + 1)

/-- The second loop of `GetMaxSubLineHeight` (all emoji), with the same convention. -/
def GetMaxSubLineHeight.firstEmoji (k : FontConfig) (s : UIFontVector) :
    Nat → Nat → Option (Option Int)
  | 0, _ => none
  | fuel + 1, i =>
    if IsEmojiFont k s i then some (faceHeight k s i)
    else GetMaxSubLineHeight.firstEmoji k s fuel (i + 1)

/-- The third loop of `GetMaxSubLineHeight` (emoji and words): the value of
`maxHeight` when it ends, `none` when a null face is dereferenced. -/
def GetMaxSubLineHeight.allFonts (k : FontConfig) (s : UIFontVector) :
    Nat → Nat → Int → Option Int
  | 0, _, maxHeight => some maxHeight
  | fuel + 1, i, maxHeight =>
    match faceHeight k s i with
    | none => none
    | some tmpHeight =>
      GetMaxSubLineHeight.allFonts k s fuel (i + 1)
        (if tmpHeight > maxHeight then tmpHeight else maxHeight)

/-- `UIFontVector::GetMaxSubLineHeight`: the returned `uint16_t`, or `none` when a
null face is dereferenced.  The loops run `i` from 0 to `currentFontInfoNum_`; `i` is
a `uint8_t`, so the recursions are these loops for `currentFontInfoNum_` up to 255. -/
def GetMaxSubLineHeight (k : FontConfig) (s : UIFontVector) (textNum loopNum : Nat)
    (maxHeight : Int) (emojiNum : Nat) : Option Int :=
  match (if textNum = loopNum
         then GetMaxSubLineHeight.firstText k s maxHeight s.currentFontInfoNum_ 0 else none) with
  | some r => r
  | none =>
    match (if emojiNum = loopNum
           then GetMaxSubLineHeight.firstEmoji k s s.currentFontInfoNum_ 0 else none) with
    | some r => r
    | none =>
      if textNum > 0 ∧ emojiNum > 0 then
        GetMaxSubLineHeight.allFonts k s s.currentFontInfoNum_ 0 maxHeight
      else some maxHeight

/-- What `GetLineMaxHeight` leaves behind: the returned `uint16_t` (`none` when a
null face is dereferenced), `letterIndex`, the size spans and the state. -/
structure LineResult where
  height : Option Int
  letterIndex : Nat
  sizeSpans : Option (Nat → SizeSpan)
  state : UIFontVector

/-- `UIFontVector::GetLineMaxHeight`. -/
def GetLineMaxHeight (k : FontConfig) (IsColourWord : Nat → Nat → Nat → Bool) (s : UIFontVector)
    (text : List Letter) (fontId fontSize letterIndex : Nat)
    (sizeSpans : Option (Nat → SizeSpan)) : LineResult :=
  if !s.freeTypeInited_ then
    { height := some (toU16 k.INVALID_RET_VALUE), letterIndex := letterIndex,
      sizeSpans := sizeSpans, state := s }
  else
    let h := GetHeight k s fontId fontSize
    let r := GetLineMaxHeight.loop k IsColourWord fontId fontSize text h.2
      { textNum := 0, emojiNum := 0, loopNum := 0, maxHeight := h.1,
        letterIndex := letterIndex, sizeSpans := sizeSpans }
    { height := GetMaxSubLineHeight k r.2 r.1.textNum r.1.loopNum r.1.maxHeight r.1.emojiNum,
      letterIndex := r.1.letterIndex, sizeSpans := r.1.sizeSpans, state := r.2 }

/-- `UIFontVector::GetTtfInfoFromTtf`.  The file system is outside the source:
`readFile path` is the content of the regular file that `open(path, O_RDONLY)` opens,
`none` when `open` fails; on an open file `lseek` and `read` succeed, and
`ttfHeader.len` holds the file length as it is.  `ttfBuffer` is `none` for a null
pointer and `len` is the value of `ttfHeader.len` on entry.  A record without a name
does not reach this function from `GetTtfInfo`; for it the call is taken to fail. -/
def GetTtfInfoFromTtf (readFile : CStr → Option (List Nat)) (s : UIFontVector)
    (ttfBuffer : Option (Nat → Nat)) (ttfBufferSize : Nat) (len : Nat)
    (fontInfo : UITextLanguageFontParam) : TtfResult :=
  let fail : TtfResult := { ret := false, buffer := ttfBuffer, len := len }
  match ttfBuffer, fontInfo.ttfName with
  | some buf, some name =>
    if ttfBufferSize = 0 then fail
    else
      match readFile (s.ttfDir_ ++ name) with
      | none => fail
      | some content =>
        if content.length > ttfBufferSize then
          { ret := false, buffer := ttfBuffer, len := content.length }
        else
          { ret := true,
            buffer := some (fun a => if a < content.length then content.getD a 0 % 256 else buf a),
            len := content.length }
  | _, _ => fail

/-- The loop of `GetTtfInfo`: the first slot from `i` on that is occupied and whose
`ttfId` is the requested one; `none` when the loop ends without finding one. -/
def GetTtfInfo.find (s : UIFontVector) (ttfId : Nat) : Nat → Nat → Option Nat
  | 0, _ => none
  | fuel + 1, i =>
    match (s.fontInfo_ i).ttfName with
    | none => GetTtfInfo.find s ttfId fuel (i + 1)
    | some _ =>
      if (s.fontInfo_ i).ttfId = ttfId then some i
      else GetTtfInfo.find s ttfId fuel (i + 1)

/-- The test `fontInfo_[i].size != FONT_ID_MAX` of `GetTtfInfo` at the slot its loop
finds: `some true` when it calls `GetTtfInfoFromTtc`, `some false` when it calls
`GetTtfInfoFromTtf`, `none` when it finds no slot. -/
def GetTtfInfo.collectionPath (k : FontConfig) (s : UIFontVector) (ttfId : Nat) : Option Bool :=
  (GetTtfInfo.find s (toU8 ttfId) k.FONT_ID_MAX 0).map
    (fun i => decide ((s.fontInfo_ i).size ≠ k.FONT_ID_MAX))

/-- `UIFontVector::GetTtfInfo`. -/
def GetTtfInfo (k : FontConfig) (readFile : CStr → Option (List Nat)) (s : UIFontVector)
    (ttfId : Nat) (ttfBuffer : Option (Nat → Nat)) (ttfBufferSize : Nat) (len : Nat) :
    TtfResult :=
  let fail : TtfResult := { ret := false, buffer := ttfBuffer, len := len }
  match ttfBuffer with
  | none => fail
  | some _ =>
    if ttfBufferSize = 0 then fail
    else
      match GetTtfInfo.find s (toU8 ttfId) k.FONT_ID_MAX 0 with
      | none => fail
      | some i =>
        if (s.fontInfo_ i).size ≠ k.FONT_ID_MAX then
          GetTtfInfoFromTtc k s ttfBuffer ttfBufferSize len (s.fontInfo_ i)
        else GetTtfInfoFromTtf readFile s ttfBuffer ttfBufferSize len (s.fontInfo_ i)

/-- The state after `UnregisterFontInfo(name1)` followed by
`RegisterFontInfo(name2, shaping)`: the scenario in which a freed slot is reused. -/
def reuseSlot (k : FontConfig) (ft : FreeType) (s : UIFontVector) (name1 name2 : Option CStr)
    (shaping : Nat) : UIFontVector :=
  (RegisterFontInfo k ft (UnregisterFontInfo k s name1).2 name2 shaping).2

/-! ## Sample objects used in the examples -/

/-- A configuration with the usual values of the constants. -/
def sampleConfig : FontConfig :=
  { FONT_ID_MAX := 255, FONT_TTC_MAX := 32, FONT_INVALID_TTF_ID := 255, TTF_NAME_LEN_MAX := 128,
    BPP_BIT_8 := 8, BPP_BIT_32 := 32, FONT_PIXEL_IN_POINT := 64, INVALID_RET_VALUE := -1,
    RET_VALUE_OK := 0, SIZEOF_METRIC := 20, ENABLE_VECTOR_FONT := true,
    HOST_BIG_ENDIAN := false }

/-- A glyph slot holding a rendered bitmap of `rows` rows for glyph `index`, with an
advance of `rows` pixels. -/
def sampleSlot (index : Nat) (rows : Int) : FT_GlyphSlot :=
  { glyph_index := index, format := FT_Glyph_Format.FT_GLYPH_FORMAT_BITMAP, bitmap_left := 1,
    bitmap_top := rows, width := 8, rows := rows, pixel_mode := 2, buffer := [],
    advance_x := 64 * rows }

/-- A scalable font without colour tables in which every glyph has `rows` rows and
the glyph index of a character is its code. -/
def sampleFont (rows : Int) : FontData :=
  { cbdtLength := 0, available_sizes := [],
    setCharSize := fun w => some { ascender := w, descender := 0, height := w },
    selectSize := fun _ => none,
    getCharIndex := fun c => c,
    loadGlyph := fun _ index _ => some (sampleSlot index rows),
    outlineTransform := fun g => g,
    outlineEmbolden := fun _ g => some g,
    bitmapEmbolden := fun _ g => some g,
    renderGlyph := fun g => some g }

/-- A file system in which the file named `[97]` is a font with glyphs of 10 rows,
every other font file has glyphs of 20 rows, and every collection opens as an empty
stream whose sub-fonts are fonts with glyphs of 30 rows. -/
def sampleFreeType : FreeType :=
  { New_Face := fun path => if path = [97] then some (sampleFont 10) else some (sampleFont 20),
    Stream_New := fun _ => some { size := 0, base := fun _ => 0, freed := false },
    Open_Face := fun _ _ => some (sampleFont 30) }

/-- The catalogue after `RegisterFontInfo([97])` and `RegisterFontInfo([98])` on the
empty catalogue: slot 0 holds `[97]` and slot 1 holds `[98]`. -/
def catalogueAB : UIFontVector :=
  (RegisterFontInfo sampleConfig sampleFreeType
    (RegisterFontInfo sampleConfig sampleFreeType (emptyCatalogue []) (some [97]) 0).2
    (some [98]) 0).2

/-- The catalogue `catalogueAB` after `UnregisterFontInfo([97])`: slot 0 is free and
slot 1 holds `[98]`. -/
def catalogueB : UIFontVector :=
  (UnregisterFontInfo sampleConfig catalogueAB (some [97])).2

/-- A collection stream of 64 bytes that are all zero, so its tag is not `ttcf`. -/
def zeroStream : FT_Stream :=
  { size := 64, base := fun _ => 0, freed := false }

/-- The container of the spec's example: 9000 bytes, the tag `ttcf`, version 1.0, two
declared sub-fonts, the offset table `[100, 5000]`, and zero everywhere else. -/
def notoCjk : FT_Stream :=
  { size := 9000,
    base := fun p =>
      if p = 0 then 0x74 else if p = 1 then 0x74 else if p = 2 then 0x63 else if p = 3 then 0x66
      else if p = 5 then 0x01
      else if p = 11 then 0x02
      else if p = 15 then 100
      else if p = 18 then 0x13 else if p = 19 then 0x88
      else 0,
    freed := false }

/-- A catalogue whose collection slot 0 holds the open stream `stream`. -/
def catalogueWithStream (stream : FT_Stream) : UIFontVector :=
  { emptyCatalogue [] with
    ttcInfos_ := fun i => if i = 0 then { ttcName := some [99], stream := some stream }
                          else { ttcName := none, stream := none } }

/-- The FontRecord of sub-font `ttfIndex` of the collection in slot 0. -/
def subFontParam (ttfIndex : Nat) : UITextLanguageFontParam :=
  { emptyFontParam with ttfName := some [120], ttfIndex := ttfIndex, ttcIndex := 0 }

/-- A container of 64 bytes with the tag `ttcf`, version 1.0, two declared sub-fonts
and the offset table `[20, 42]`.  Sub-font 0 is 22 bytes long and declares one table
(bytes 24..25), so the offset field of its table record would be the container bytes
40..43, of which the last two already belong to sub-font 1 (whose first bytes are
`00 01 00 00`). -/
def truncatedDirectory : FT_Stream :=
  { size := 64,
    base := fun p =>
      if p = 0 then 0x74 else if p = 1 then 0x74 else if p = 2 then 0x63 else if p = 3 then 0x66
      else if p = 5 then 0x01
      else if p = 11 then 0x02
      else if p = 15 then 20
      else if p = 19 then 42
      else if p = 25 then 1
      else if p = 43 then 1
      else 0,
    freed := false }

/-- A container of 128 bytes with the tag `ttcf`, version 1.0, two declared sub-fonts
and the offset table `[20, 60]`.  Sub-font 0 is 40 bytes long and declares one table
(bytes 24..25) whose record holds the container-relative offset 52 (bytes 40..43). -/
def smallCollection : FT_Stream :=
  { size := 128,
    base := fun p =>
      if p = 0 then 0x74 else if p = 1 then 0x74 else if p = 2 then 0x63 else if p = 3 then 0x66
      else if p = 5 then 0x01
      else if p = 11 then 0x02
      else if p = 15 then 20
      else if p = 19 then 60
      else if p = 25 then 1
      else if p = 43 then 52
      else 0,
    freed := false }

/-- Extraction of sub-font 0 of `truncatedDirectory` into a buffer of 32 bytes that
all hold 170. -/
def truncatedResult : TtfResult :=
  GetTtfInfoFromTtc sampleConfig (catalogueWithStream truncatedDirectory) (some (fun _ => 170))
    32 0 (subFontParam 0)

/-- A catalogue with a shaping font (`shaping = 1`) in slot 5 and a plain font in
slot 3, both open. -/
def catalogueTagged : UIFontVector :=
  { emptyCatalogue [] with
    fontInfo_ := fun i =>
      if i = 5 then { emptyFontParam with ttfName := some [97], ttfId := 5, shaping := 1,
                                          fontWeight := 8, ttcIndex := 32 }
      else if i = 3 then { emptyFontParam with ttfName := some [98], ttfId := 3, shaping := 0,
                                               fontWeight := 8, ttcIndex := 32 }
      else emptyFontParam,
    ftFaces_ := fun i =>
      if i = 5 then some (newFace (sampleFont 10))
      else if i = 3 then some (newFace (sampleFont 20))
      else none,
    currentFontInfoNum_ := 6 }

/-- A blank `GlyphNode` with the normal text style. -/
def blankNode : GlyphNode :=
  { left := 0, top := 0, cols := 0, rows := 0, advance := 0, fontId := 0,
    textStyle := TextStyle.TEXT_STYLE_NORMAL }

/-- The catalogue after `RegisterFontInfo([97])` on the empty catalogue, with an empty
cache of 4096 bytes configured: slot 0 holds the font whose glyphs have 10 rows. -/
def catalogueCached : UIFontVector :=
  { (RegisterFontInfo sampleConfig sampleFreeType (emptyCatalogue []) (some [97]) 0).2 with
    bitmapCache_ := some { capacity := 4096, entries := [] } }

/-- The catalogue `catalogueCached` after the glyph of code point 65 was requested
from font 0 at size 16, which put its metrics into the cache. -/
def catalogueGlyphA : UIFontVector :=
  (GetGlyphNode sampleConfig catalogueCached 65 blankNode 0 16).2.2

/-- The catalogue `catalogueGlyphA` after `UnregisterFontInfo([97])` and
`RegisterFontInfo([98])`: slot 0 now holds the font whose glyphs have 20 rows. -/
def catalogueReused : UIFontVector :=
  (RegisterFontInfo sampleConfig sampleFreeType
    (UnregisterFontInfo sampleConfig catalogueGlyphA (some [97])).2 (some [98]) 0).2

/-- The catalogue `catalogueTagged` with the shaping flag of the font in slot 5
cleared: fonts without shaping in slots 3 and 5. -/
def cataloguePlain : UIFontVector :=
  { catalogueTagged with
    fontInfo_ := fun i =>
      if i = 5 then { catalogueTagged.fontInfo_ 5 with shaping := 0 }
      else catalogueTagged.fontInfo_ i }

/-- A file system in which no font file can be opened. -/
def brokenFreeType : FreeType :=
  { New_Face := fun _ => none, Stream_New := fun _ => none, Open_Face := fun _ _ => none }

/-- A container of 128 bytes with the tag `ttcf`, version 1.0 and a declared sub-font
count of zero (bytes 8..11), followed by the words 32 (bytes 12..15) and 64 (bytes
16..19) and the byte 7 at position 32. -/
def emptyCollection : FT_Stream :=
  { size := 128,
    base := fun p =>
      if p = 0 then 0x74 else if p = 1 then 0x74 else if p = 2 then 0x63 else if p = 3 then 0x66
      else if p = 5 then 0x01
      else if p = 15 then 32
      else if p = 19 then 64
      else if p = 32 then 7
      else 0,
    freed := false }

/-- A container of 64 bytes with the tag `ttcf`, version 1.0, two declared sub-fonts
and the offset table `[32, 16]`: the offset of sub-font 1 is below the offset of
sub-font 0.  Byte 32 holds 7. -/
def reversedOffsets : FT_Stream :=
  { size := 64,
    base := fun p =>
      if p = 0 then 0x74 else if p = 1 then 0x74 else if p = 2 then 0x63 else if p = 3 then 0x66
      else if p = 5 then 0x01
      else if p = 11 then 0x02
      else if p = 15 then 32
      else if p = 19 then 16
      else if p = 32 then 7
      else 0,
    freed := false }

/-- The catalogue after `RegisterFontInfo([120])` and then
`RegisterTtcFontInfo([99], [([120], 0)])` on the empty catalogue: slot 0 holds the
font file `[120]`, collection slot 0 holds the container `[99]`, and its sub-font
named `[120]` is in slot 1. -/
def catalogueSameName : UIFontVector :=
  (RegisterTtcFontInfo sampleConfig sampleFreeType
    (RegisterFontInfo sampleConfig sampleFreeType (emptyCatalogue []) (some [120]) 0).2
    (some [99]) [{ ttfName := some [120], shaping := 0 }]).2

/-- The catalogue after `RegisterTtcFontInfo([99], [([120], 0), ([121], 0)])` on the
empty catalogue: the sub-fonts are in slots 0 and 1. -/
def catalogueCollection : UIFontVector :=
  (RegisterTtcFontInfo sampleConfig sampleFreeType (emptyCatalogue []) (some [99])
    [{ ttfName := some [120], shaping := 0 }, { ttfName := some [121], shaping := 0 }]).2

/-- The catalogue `catalogueB` (slot 0 unregistered, `[98]` in slot 1) with an empty
cache configured. -/
def catalogueHole : UIFontVector :=
  { catalogueB with bitmapCache_ := some { capacity := 4096, entries := [] } }

/-- The catalogue after `RegisterFontInfo([97])` on the empty catalogue: the font file
`[97]` is in slot 0. -/
def catalogueFile : UIFontVector :=
  (RegisterFontInfo sampleConfig sampleFreeType (emptyCatalogue []) (some [97]) 0).2

/-- A file system in which the file `[97]` holds six bytes and no other file can be
opened. -/
def sampleFiles : CStr → Option (List Nat) :=
  fun path => if path = [97] then some [0, 1, 0, 0, 0, 0] else none

/-- A container of 128 bytes with the tag `ttcf`, the value 1 in bytes 4..7 (where
the version is stored), two declared sub-fonts (bytes 8..11) and the offset table
`[20, 60]`. -/
def versionOne : FT_Stream :=
  { size := 128,
    base := fun p =>
      if p = 0 then 0x74 else if p = 1 then 0x74 else if p = 2 then 0x63 else if p = 3 then 0x66
      else if p = 7 then 0x01
      else if p = 11 then 0x02
      else if p = 15 then 20
      else if p = 19 then 60
      else 0,
    freed := false }

/-- A catalogue whose 255 slots are all occupied, as after 255 calls of
`RegisterFontInfo` with different names: slot `i` holds the name `[i + 1]`. -/
def fullCatalogue : UIFontVector :=
  { emptyCatalogue [] with
    fontInfo_ := fun i =>
      if i < 255 then { emptyFontParam with ttfName := some [i + 1], ttfId := i, fontWeight := 8,
                                            ttcIndex := 32 }
      else emptyFontParam,
    ftFaces_ := fun i => if i < 255 then some (newFace (sampleFont 20)) else none,
    currentFontInfoNum_ := 255 }

/-- A container of 64 bytes with the tag `ttcf`, version 1.0, two declared sub-fonts
and the offset table `[20, 42]`.  Sub-font 0 is 22 bytes long and declares two tables
(bytes 24..25). -/
def twoTables : FT_Stream :=
  { size := 64,
    base := fun p =>
      if p = 0 then 0x74 else if p = 1 then 0x74 else if p = 2 then 0x63 else if p = 3 then 0x66
      else if p = 5 then 0x01
      else if p = 11 then 0x02
      else if p = 15 then 20
      else if p = 19 then 42
      else if p = 25 then 2
      else 0,
    freed := false }

/-- The two descriptors with which `catalogueCollection` was registered. -/
def collectionFonts : List TtfInfo :=
  [{ ttfName := some [120], shaping := 0 }, { ttfName := some [121], shaping := 0 }]

/-- The catalogue `catalogueCollection` after
`UnregisterTtcFontInfo([99], collectionFonts)`. -/
def catalogueUnregistered : UIFontVector :=
  match UnregisterTtcFontInfo sampleConfig catalogueCollection (some [99])
      (some collectionFonts) with
  | some r => r.2
  | none => catalogueCollection

/-- The catalogue after `RegisterFontInfo([97], 1)` and `RegisterFontInfo([98], 0)` on
the empty catalogue: a shaping font in slot 0, whose id is 0, and a plain font in
slot 1. -/
def catalogueShapingFirst : UIFontVector :=
  (RegisterFontInfo sampleConfig sampleFreeType
    (RegisterFontInfo sampleConfig sampleFreeType (emptyCatalogue []) (some [97]) 1).2
    (some [98]) 0).2

/-- A file system that holds no font file and in which every collection opens as the
stream `smallCollection`, whose sub-fonts 0 and 1 open as fonts with glyphs of 30
rows. -/
def collectionFreeType : FreeType :=
  { New_Face := fun _ => none,
    Stream_New := fun _ => some smallCollection,
    Open_Face := fun _ j => if j < 2 then some (sampleFont 30) else none }

/-- The catalogue after `RegisterTtcFontInfo([99], collectionFonts)` with
`collectionFreeType` on the empty catalogue: collection slot 0 holds the open stream
`smallCollection`, and the sub-fonts `[120]` and `[121]` are in slots 0 and 1. -/
def catalogueSmall : UIFontVector :=
  (RegisterTtcFontInfo sampleConfig collectionFreeType (emptyCatalogue []) (some [99])
    collectionFonts).2

/-- A file system in which every collection opens as the stream `smallCollection`,
whose sub-font 0 cannot be opened and whose other sub-fonts open as fonts with glyphs
of 30 rows. -/
def failingFreeType : FreeType :=
  { New_Face := fun _ => none,
    Stream_New := fun _ => some smallCollection,
    Open_Face := fun _ j => if j = 0 then none else some (sampleFont 30) }

/-! ## Properties of the catalogue -/

theorem strncmp_self (a : CStr) (n : Nat) : strncmp a a n = 0 := by
  induction a generalizing n with
  | nil => cases n <;> simp [strncmp]
  | cons x xs ih =>
    cases n with
    | zero => simp [strncmp]
    | succ m => simp [strncmp, ih]

theorem setAt_same {α : Type} (f : Nat → α) (i : Nat) (v : α) : setAt f i v i = v := by
  simp [setAt]

theorem setAt_other {α : Type} (f : Nat → α) (i j : Nat) (v : α) (h : j ≠ i) :
    setAt f i v j = f j := by
  simp [setAt, h]

/-- The loop of `RegisterFontInfo` started at slot `j` leaves the records below `j`
as they were. -/
theorem RegisterFontInfo.loop_below (k : FontConfig) (ft : FreeType) (name : CStr)
    (shaping : Nat) (fuel : Nat) :
    ∀ (j : Nat) (s : UIFontVector) (i : Nat), i < j →
      (RegisterFontInfo.loop k ft name shaping fuel j s).2.fontInfo_ i = s.fontInfo_ i := by
  induction fuel with
  | zero => intro j s i _; simp [RegisterFontInfo.loop]
  | succ fuel ih =>
    intro j s i hij
    unfold RegisterFontInfo.loop
    split
    · split
      · rfl
      · exact ih (j + 1) s i (by omega)
    · split
      · rfl
      · simp only []
        exact setAt_other _ _ _ _ (by omega)

/-- Running the loop of `RegisterFontInfo` again on the state it produced gives the
same result and the same state, when the face of the name can be opened. -/
theorem RegisterFontInfo.loop_again (k : FontConfig) (ft : FreeType) (name : CStr)
    (shaping : Nat) (dir : CStr) (hopen : (ft.New_Face (dir ++ name)).isSome = true)
    (fuel : Nat) :
    ∀ (j : Nat) (s : UIFontVector), s.ttfDir_ = dir →
      RegisterFontInfo.loop k ft name shaping fuel j
          (RegisterFontInfo.loop k ft name shaping fuel j s).2
        = RegisterFontInfo.loop k ft name shaping fuel j s := by
  induction fuel with
  | zero => intro j s _; simp [RegisterFontInfo.loop]
  | succ fuel ih =>
    intro j s hdir
    have hbelow := RegisterFontInfo.loop_below k ft name shaping fuel (j + 1) s j (by omega)
    have hrec := ih (j + 1) s hdir
    cases hname : (s.fontInfo_ j).ttfName with
    | some nm =>
      by_cases hm : strncmp nm name k.TTF_NAME_LEN_MAX = 0
      · have h1 : RegisterFontInfo.loop k ft name shaping (fuel + 1) j s = (toU8 j, s) := by
          simp [RegisterFontInfo.loop, hname, hm]
        rw [h1]; exact h1
      · have h1 : RegisterFontInfo.loop k ft name shaping (fuel + 1) j s
            = RegisterFontInfo.loop k ft name shaping fuel (j + 1) s := by
          simp [RegisterFontInfo.loop, hname, hm]
        rw [h1]
        have h2 : ((RegisterFontInfo.loop k ft name shaping fuel (j + 1) s).2.fontInfo_ j).ttfName
            = some nm := by rw [hbelow, hname]
        rw [RegisterFontInfo.loop]
        simp only [h2, hm, if_false]
        exact hrec
    | none =>
      cases hface : ft.New_Face (dir ++ name) with
      | none => rw [hface] at hopen; simp at hopen
      | some font =>
        simp [RegisterFontInfo.loop, hname, hdir, hface, setAt, strncmp_self]

theorem RegisterFontInfo.loop_inited (k : FontConfig) (ft : FreeType) (name : CStr)
    (shaping : Nat) (fuel : Nat) :
    ∀ (j : Nat) (s : UIFontVector),
      (RegisterFontInfo.loop k ft name shaping fuel j s).2.freeTypeInited_ = s.freeTypeInited_ ∧
      (RegisterFontInfo.loop k ft name shaping fuel j s).2.ttfDir_ = s.ttfDir_ ∧
      (RegisterFontInfo.loop k ft name shaping fuel j s).2.bitmapCache_ = s.bitmapCache_ ∧
      (RegisterFontInfo.loop k ft name shaping fuel j s).2.ttcInfos_ = s.ttcInfos_ := by
  induction fuel with
  | zero => intro j s; simp [RegisterFontInfo.loop]
  | succ fuel ih =>
    intro j s
    unfold RegisterFontInfo.loop
    split
    · split
      · simp
      · exact ih (j + 1) s
    · split <;> simp

/-- C1: with the engine initialised and a name whose face can be opened, a second
`RegisterFontInfo(name, shaping)` right after the first returns the same id as the
first and leaves every FontRecord as the first call left it. -/
theorem RegisterFontInfo_idempotent (k : FontConfig) (ft : FreeType) (s : UIFontVector)
    (name : CStr) (shaping : Nat)
    (hinit : s.freeTypeInited_ = true)
    (hopen : (ft.New_Face (s.ttfDir_ ++ name)).isSome = true) :
    (RegisterFontInfo k ft (RegisterFontInfo k ft s (some name) shaping).2 (some name) shaping).1
        = (RegisterFontInfo k ft s (some name) shaping).1 ∧
    ∀ i : Nat,
      (RegisterFontInfo k ft (RegisterFontInfo k ft s (some name) shaping).2
          (some name) shaping).2.fontInfo_ i
        = (RegisterFontInfo k ft s (some name) shaping).2.fontInfo_ i := by
  have h1 : RegisterFontInfo k ft s (some name) shaping
      = RegisterFontInfo.loop k ft name shaping k.FONT_ID_MAX 0 s := by
    simp [RegisterFontInfo, hinit]
  have hin := (RegisterFontInfo.loop_inited k ft name shaping k.FONT_ID_MAX 0 s).1
  have h2 : RegisterFontInfo k ft (RegisterFontInfo.loop k ft name shaping k.FONT_ID_MAX 0 s).2
        (some name) shaping
      = RegisterFontInfo.loop k ft name shaping k.FONT_ID_MAX 0 s := by
    simp only [RegisterFontInfo, hin, hinit]
    exact RegisterFontInfo.loop_again k ft name shaping s.ttfDir_ hopen k.FONT_ID_MAX 0 s rfl
  rw [h1, h2]
  exact ⟨rfl, fun _ => rfl⟩

theorem RegisterFontInfo_idempotent_witness :
    (emptyCatalogue []).freeTypeInited_ = true ∧
    (sampleFreeType.New_Face ((emptyCatalogue []).ttfDir_ ++ [97])).isSome = true ∧
    (RegisterFontInfo sampleConfig sampleFreeType
        (RegisterFontInfo sampleConfig sampleFreeType (emptyCatalogue []) (some [97]) 0).2
        (some [97]) 0).1
      = (RegisterFontInfo sampleConfig sampleFreeType (emptyCatalogue []) (some [97]) 0).1 :=
  ⟨rfl, rfl,
    (RegisterFontInfo_idempotent sampleConfig sampleFreeType (emptyCatalogue []) [97] 0
      rfl rfl).1⟩

/-- C2: the run `RegisterFontInfo(a)`, `RegisterFontInfo(b)`, `UnregisterFontInfo(a)`,
`RegisterFontInfo(b)` from the empty catalogue (`a = [97]`, `b = [98]`): before the
last call `b` is registered in slot 1 and slot 0 is free; the last call reaches the
free slot 0 before the record of `b`, returns 0 instead of 1 and leaves the name `b`
in both slots. -/
theorem RegisterFontInfo_second_record :
    (catalogueB.fontInfo_ 0).ttfName = none ∧
    (catalogueB.fontInfo_ 1).ttfName = some [98] ∧
    (RegisterFontInfo sampleConfig sampleFreeType catalogueB (some [98]) 0).1 = 0 ∧
    ((RegisterFontInfo sampleConfig sampleFreeType catalogueB (some [98]) 0).2.fontInfo_ 0).ttfName
      = some [98] ∧
    ((RegisterFontInfo sampleConfig sampleFreeType catalogueB (some [98]) 0).2.fontInfo_ 1).ttfName
      = some [98] := by
  decide

/-- What the loop of `UnregisterFontInfo` does from slot `i0` on: it stops at the
first matching slot and clears it, or finds none and changes nothing. -/
theorem UnregisterFontInfo.loop_spec (k : FontConfig) (name : CStr) (fuel : Nat) :
    ∀ (i0 : Nat) (s : UIFontVector),
      (∃ i, i0 ≤ i ∧ i < i0 + fuel ∧ slotMatches k s i name = true ∧
        (∀ j, i0 ≤ j → j < i → slotMatches k s j name = false) ∧
        UnregisterFontInfo.loop k name fuel i0 s
          = (toU8 i, { s with fontInfo_ := setAt s.fontInfo_ i { s.fontInfo_ i with ttfName := none },
                              ftFaces_ := setAt s.ftFaces_ i none,
                              ttcInfos_ := FT_Done_Face s.ttcInfos_ (s.ftFaces_ i) })) ∨
      ((∀ j, i0 ≤ j → j < i0 + fuel → slotMatches k s j name = false) ∧
        UnregisterFontInfo.loop k name fuel i0 s = (toU8 k.FONT_INVALID_TTF_ID, s)) := by
  induction fuel with
  | zero =>
    intro i0 s
    right
    exact ⟨fun j h1 h2 => by omega, by simp [UnregisterFontInfo.loop]⟩
  | succ fuel ih =>
    intro i0 s
    cases hm : slotMatches k s i0 name with
    | true =>
      left
      refine ⟨i0, le_refl _, by omega, hm, fun j h1 h2 => by omega, ?_⟩
      unfold slotMatches at hm
      cases hname : (s.fontInfo_ i0).ttfName with
      | none => simp [hname] at hm
      | some nm =>
        simp only [hname, decide_eq_true_eq] at hm
        simp [UnregisterFontInfo.loop, hname, hm]
    | false =>
      have hstep : UnregisterFontInfo.loop k name (fuel + 1) i0 s
          = UnregisterFontInfo.loop k name fuel (i0 + 1) s := by
        unfold slotMatches at hm
        cases hname : (s.fontInfo_ i0).ttfName with
        | none => simp [UnregisterFontInfo.loop, hname]
        | some nm =>
          simp only [hname, decide_eq_false_iff_not] at hm
          simp [UnregisterFontInfo.loop, hname, hm]
      rw [hstep]
      rcases ih (i0 + 1) s with ⟨i, h1, h2, h3, h4, h5⟩ | ⟨h1, h2⟩
      · left
        refine ⟨i, by omega, by omega, h3, fun j hj1 hj2 => ?_, h5⟩
        by_cases hj : j = i0
        · rw [hj]; exact hm
        · exact h4 j (by omega) hj2
      · right
        refine ⟨fun j hj1 hj2 => ?_, h2⟩
        by_cases hj : j = i0
        · rw [hj]; exact hm
        · exact h1 j (by omega) (by omega)

/-- Closing a stream that is closed already changes nothing. -/
theorem FT_Stream_Free_idem (stream : Option FT_Stream) :
    FT_Stream_Free (FT_Stream_Free stream) = FT_Stream_Free stream := by
  cases stream <;> rfl

/-- What `FT_Done_Face` does to the collection table: every record keeps its name, and
its stream is either untouched or closed. -/
theorem FT_Done_Face_effect (ttcInfos : Nat → TtcInfo) (face : Option FT_Face) (c : Nat) :
    (FT_Done_Face ttcInfos face c).ttcName = (ttcInfos c).ttcName ∧
    ((FT_Done_Face ttcInfos face c).stream = (ttcInfos c).stream ∨
      (FT_Done_Face ttcInfos face c).stream = FT_Stream_Free (ttcInfos c).stream) := by
  cases face with
  | none => exact ⟨rfl, Or.inl rfl⟩
  | some f =>
    cases hf : f.stream with
    | none => simp [FT_Done_Face, hf]
    | some c0 =>
      by_cases hc : c = c0
      · subst hc
        simp [FT_Done_Face, hf, setAt]
      · simp [FT_Done_Face, hf, setAt, hc]

/-- What `UnregisterFontInfo(name)` changes: either it finds the lowest slot `i` whose
name matches, returns `i`, clears the name and the face handle of slot `i`, leaves every
other FontRecord unchanged and leaves the collection table as `FT_Done_Face` on the
face of slot `i` leaves it (the stream that this face was opened from is closed); or the
name is null or matches no occupied slot, and it returns `FONT_INVALID_TTF_ID` and
changes nothing. -/
theorem UnregisterFontInfo_frame (k : FontConfig) (s : UIFontVector) (ttfName : Option CStr)
    (hmax : k.FONT_ID_MAX ≤ 256) :
    (∃ name i, ttfName = some name ∧ i < k.FONT_ID_MAX ∧ slotMatches k s i name = true ∧
      (∀ j, j < i → slotMatches k s j name = false) ∧
      (UnregisterFontInfo k s ttfName).1 = i ∧
      ((UnregisterFontInfo k s ttfName).2.fontInfo_ i).ttfName = none ∧
      (UnregisterFontInfo k s ttfName).2.ftFaces_ i = none ∧
      (∀ j, j ≠ i → (UnregisterFontInfo k s ttfName).2.fontInfo_ j = s.fontInfo_ j) ∧
      (UnregisterFontInfo k s ttfName).2.ttcInfos_ = FT_Done_Face s.ttcInfos_ (s.ftFaces_ i)) ∨
    ((ttfName = none ∨
        ∃ name, ttfName = some name ∧ ∀ j, j < k.FONT_ID_MAX → slotMatches k s j name = false) ∧
      (UnregisterFontInfo k s ttfName).1 = toU8 k.FONT_INVALID_TTF_ID ∧
      (UnregisterFontInfo k s ttfName).2 = s) := by
  cases ttfName with
  | none => right; exact ⟨Or.inl rfl, rfl, rfl⟩
  | some name =>
    rcases UnregisterFontInfo.loop_spec k name k.FONT_ID_MAX 0 s with
      ⟨i, _, h2, h3, h4, h5⟩ | ⟨h1, h2⟩
    · left
      have hi : i < k.FONT_ID_MAX := by omega
      refine ⟨name, i, rfl, hi, h3, fun j hj => h4 j (Nat.zero_le _) hj, ?_, ?_, ?_, ?_, ?_⟩
      · simp only [UnregisterFontInfo, h5, toU8]; omega
      · simp [UnregisterFontInfo, h5, setAt]
      · simp [UnregisterFontInfo, h5, setAt]
      · intro j hj; simp [UnregisterFontInfo, h5, setAt, hj]
      · simp [UnregisterFontInfo, h5]
    · right
      refine ⟨Or.inr ⟨name, rfl, fun j hj => h1 j (Nat.zero_le _) (by omega)⟩, ?_, ?_⟩
      · simp [UnregisterFontInfo, h2]
      · simp [UnregisterFontInfo, h2]

/-- C10: in `catalogueSmall` the sub-fonts `[120]` and `[121]` of the container `[99]`
are in slots 0 and 1, the stream of collection slot 0 is open and holds 128 bytes, and
`GetTtfInfoFromTtc` extracts the 40 bytes of sub-font `[120]` from it.
`UnregisterFontInfo([121])` returns 1 and clears slot 1; sub-font `[120]` stays
registered with its face and collection slot 0 keeps the name `[99]`, but the stream of
slot 0 is closed by the release of the face of slot 1, and `GetTtfInfoFromTtc` for
sub-font `[120]` now fails. -/
theorem UnregisterFontInfo_closes_stream :
    (catalogueSmall.fontInfo_ 0).ttfName = some [120] ∧
    (catalogueSmall.fontInfo_ 1).ttfName = some [121] ∧
    (catalogueSmall.fontInfo_ 0).ttcIndex = 0 ∧
    (catalogueSmall.fontInfo_ 1).ttcIndex = 0 ∧
    (catalogueSmall.ttcInfos_ 0).ttcName = some [99] ∧
    (catalogueSmall.ttcInfos_ 0).stream.map (fun st => (st.size, st.freed)) = some (128, false) ∧
    (GetTtfInfoFromTtc sampleConfig catalogueSmall (some (fun _ => 170)) 128 0
      (catalogueSmall.fontInfo_ 0)).ret = true ∧
    (GetTtfInfoFromTtc sampleConfig catalogueSmall (some (fun _ => 170)) 128 0
      (catalogueSmall.fontInfo_ 0)).len = 40 ∧
    (UnregisterFontInfo sampleConfig catalogueSmall (some [121])).1 = 1 ∧
    ((UnregisterFontInfo sampleConfig catalogueSmall (some [121])).2.fontInfo_ 1).ttfName = none ∧
    ((UnregisterFontInfo sampleConfig catalogueSmall (some [121])).2.fontInfo_ 0).ttfName
      = some [120] ∧
    ((UnregisterFontInfo sampleConfig catalogueSmall (some [121])).2.ftFaces_ 0).isSome = true ∧
    ((UnregisterFontInfo sampleConfig catalogueSmall (some [121])).2.ttcInfos_ 0).ttcName
      = some [99] ∧
    ((UnregisterFontInfo sampleConfig catalogueSmall (some [121])).2.ttcInfos_ 0).stream.map
      (fun st => (st.size, st.freed)) = some (0, true) ∧
    (GetTtfInfoFromTtc sampleConfig (UnregisterFontInfo sampleConfig catalogueSmall (some [121])).2
      (some (fun _ => 170)) 128 0
      ((UnregisterFontInfo sampleConfig catalogueSmall (some [121])).2.fontInfo_ 0)).ret
      = false := by
  decide

/-- C9: `RegisterTtcFontInfo` with two descriptors `[120]` and `[121]` on the
catalogue whose slot 0 is free and whose slot 1 holds `[98]`: the first sub-font goes
to slot 0 and the second is written to slot 1, which was occupied before the call and
now holds `[121]`. -/
theorem RegisterTtcFontInfo_overwrites_record :
    (catalogueB.fontInfo_ 0).ttfName = none ∧
    (catalogueB.fontInfo_ 1).ttfName = some [98] ∧
    (RegisterTtcFontInfo sampleConfig sampleFreeType catalogueB (some [99])
        [{ ttfName := some [120], shaping := 0 }, { ttfName := some [121], shaping := 0 }]).1 = 0 ∧
    ((RegisterTtcFontInfo sampleConfig sampleFreeType catalogueB (some [99])
        [{ ttfName := some [120], shaping := 0 },
         { ttfName := some [121], shaping := 0 }]).2.fontInfo_ 0).ttfName = some [120] ∧
    ((RegisterTtcFontInfo sampleConfig sampleFreeType catalogueB (some [99])
        [{ ttfName := some [120], shaping := 0 },
         { ttfName := some [121], shaping := 0 }]).2.fontInfo_ 1).ttfName = some [121] := by
  decide

/-! ## Properties of the collection reader -/

/-- C3: when the first four bytes of the container stream are not the big-endian tag
`ttcf`, `GetTtfInfoFromTtc` returns false and leaves the output buffer and
`ttfHeader.len` as they were, for every sub-font index, buffer and capacity. -/
theorem GetTtfInfoFromTtc_bad_tag (k : FontConfig) (s : UIFontVector)
    (ttfBuffer : Option (Nat → Nat)) (ttfBufferSize len : Nat)
    (fontInfo : UITextLanguageFontParam)
    (htag : ∀ stream, (s.ttcInfos_ fontInfo.ttcIndex).stream = some stream →
      FT_PEEK_ULONG stream.base 0 ≠ TTAG_ttcf) :
    (GetTtfInfoFromTtc k s ttfBuffer ttfBufferSize len fontInfo).ret = false ∧
    (GetTtfInfoFromTtc k s ttfBuffer ttfBufferSize len fontInfo).buffer = ttfBuffer ∧
    (GetTtfInfoFromTtc k s ttfBuffer ttfBufferSize len fontInfo).len = len := by
  unfold GetTtfInfoFromTtc
  cases ttfBuffer with
  | none => exact ⟨rfl, rfl, rfl⟩
  | some buf =>
    simp only []
    split
    · exact ⟨rfl, rfl, rfl⟩
    · cases hs : (s.ttcInfos_ fontInfo.ttcIndex).stream with
      | none => exact ⟨rfl, rfl, rfl⟩
      | some stream =>
        have ht := htag stream hs
        simp only []
        cases FT_Stream_Seek stream 0 with
        | none => exact ⟨rfl, rfl, rfl⟩
        | some pos0 =>
          by_cases h12 : 12 ≤ stream.size
          · simp [readTtcHeader, h12, ht]
          · simp [readTtcHeader, h12]

theorem GetTtfInfoFromTtc_bad_tag_witness :
    (∀ stream, ((catalogueWithStream zeroStream).ttcInfos_ (subFontParam 0).ttcIndex).stream
        = some stream → FT_PEEK_ULONG stream.base 0 ≠ TTAG_ttcf) ∧
    (GetTtfInfoFromTtc sampleConfig (catalogueWithStream zeroStream) (some (fun _ => 7)) 64 5
        (subFontParam 0)).ret = false ∧
    (GetTtfInfoFromTtc sampleConfig (catalogueWithStream zeroStream) (some (fun _ => 7)) 64 5
        (subFontParam 0)).buffer = some (fun _ => 7) ∧
    (GetTtfInfoFromTtc sampleConfig (catalogueWithStream zeroStream) (some (fun _ => 7)) 64 5
        (subFontParam 0)).len = 5 :=
  have h : ∀ stream, ((catalogueWithStream zeroStream).ttcInfos_ (subFontParam 0).ttcIndex).stream
      = some stream → FT_PEEK_ULONG stream.base 0 ≠ TTAG_ttcf := by
    intro stream hs
    have hz : stream = zeroStream := by
      simp [catalogueWithStream, subFontParam, emptyFontParam] at hs
      exact hs.symm
    rw [hz]
    decide
  ⟨h, GetTtfInfoFromTtc_bad_tag sampleConfig (catalogueWithStream zeroStream) (some (fun _ => 7))
    64 5 (subFontParam 0) h⟩

/-- C4: on the spec's example container (two sub-fonts at offsets `[100, 5000]`,
length 9000) sub-font 0 is extracted into a buffer of 9000 bytes with length 4900,
but sub-font 1 is rejected whatever the buffer and its capacity, and `ttfHeader.len`
is not set to 4000: the value compared with `ttfIndex + 1` is the version field
`0x00010000` read from bytes 4..7, not the declared count 2 of bytes 8..11, so the
last sub-font is not recognised as last and its length is derived from the four bytes
that follow the offset table. -/
theorem GetTtfInfoFromTtc_last_subfont_rejected (buf : Nat → Nat) (cap len0 : Nat) :
    (readTtcHeader notoCjk).map (fun h => h.1.numFonts) = some 65536 ∧
    FT_PEEK_ULONG notoCjk.base 8 = 2 ∧
    (GetTtfInfoFromTtc sampleConfig (catalogueWithStream notoCjk) (some (fun _ => 0)) 9000 0
        (subFontParam 0)).ret = true ∧
    (GetTtfInfoFromTtc sampleConfig (catalogueWithStream notoCjk) (some (fun _ => 0)) 9000 0
        (subFontParam 0)).len = 4900 ∧
    (GetTtfInfoFromTtc sampleConfig (catalogueWithStream notoCjk) (some buf) cap len0
        (subFontParam 1)).ret = false ∧
    (GetTtfInfoFromTtc sampleConfig (catalogueWithStream notoCjk) (some buf) cap len0
        (subFontParam 1)).len = len0 := by
  refine ⟨by decide, by decide, by decide, by decide, ?_⟩
  have hs : ((catalogueWithStream notoCjk).ttcInfos_ (subFontParam 1).ttcIndex).stream
      = some notoCjk := rfl
  have h0 : FT_Stream_Seek notoCjk 0 = some 0 := by decide
  have hh : readTtcHeader notoCjk
      = some ({ ttcTag := TTAG_ttcf, numFonts := 65536 }, 12) := by rfl
  have hsk : FT_Stream_Skip notoCjk 12 4 = some 16 := by decide
  have hr1 : FT_Stream_ReadULong notoCjk 16 = some (5000, 20) := by decide
  have hr2 : FT_Stream_ReadULong notoCjk 20 = some (0, 24) := by decide
  have hidx : toU8 (subFontParam 1).ttfIndex = 1 := by decide
  have hlen : toU32 (-5000) = 4294962296 := by decide
  have hsk2 : FT_Stream_Seek notoCjk 5000 = some 5000 := by decide
  have hrd : (FT_Stream_Read notoCjk 5000 buf 4294962296).1 = true := by
    simp [FT_Stream_Read, notoCjk]
  unfold GetTtfInfoFromTtc
  simp only [hs, h0, hh, hidx]
  by_cases hc : cap = 0 ∨ (subFontParam 1).ttcIndex ≥ sampleConfig.FONT_TTC_MAX
  · simp [hc]
  · simp only [hc, if_false]
    simp only [ne_eq, not_true_eq_false, if_false]
    norm_num [hsk, hr1, hr2]
    rw [hlen, hsk2]
    simp only [hrd, if_true]
    split <;> exact ⟨rfl, rfl⟩

theorem toU32_lt (n : Int) : toU32 n < 4294967296 := by
  unfold toU32; omega

/-- The two stores of one pass of the table-record loop leave the big-endian form of
the stored value at `p .. p + 3`, whatever the byte order of the target. -/
theorem store_peek_store (be : Bool) (buf : Nat → Nat) (p W a : Nat) :
    storeU32 be (storeU32 be buf p W) p (FT_PEEK_ULONG (storeU32 be buf p W) p) a
      = if p ≤ a ∧ a < p + 4 then beByte W (a - p) else buf a := by
  have e0 : storeU32 be buf p W p = (if be then W / 16777216 % 256 else W % 256) := by
    simp [storeU32]
  have e1 : storeU32 be buf p W (p + 1) = (if be then W / 65536 % 256 else W / 256 % 256) := by
    simp [storeU32]
  have e2 : storeU32 be buf p W (p + 2) = (if be then W / 256 % 256 else W / 65536 % 256) := by
    simp [storeU32]
  have e3 : storeU32 be buf p W (p + 3) = (if be then W % 256 else W / 16777216 % 256) := by
    simp [storeU32]
  unfold FT_PEEK_ULONG beByte
  rw [e0, e1, e2, e3]
  have hb0 : W % 256 < 256 := by omega
  have hb1 : W / 256 % 256 < 256 := by omega
  have hb2 : W / 65536 % 256 < 256 := by omega
  have hb3 : W / 16777216 % 256 < 256 := by omega
  generalize W % 256 = b0 at *
  generalize W / 256 % 256 = b1 at *
  generalize W / 65536 % 256 = b2 at *
  generalize W / 16777216 % 256 = b3 at *
  by_cases h0 : a = p
  · subst h0
    cases be <;> simp [storeU32] <;> omega
  · by_cases h1 : a = p + 1
    · subst h1
      cases be <;> simp [storeU32] <;> omega
    · by_cases h2 : a = p + 2
      · subst h2
        cases be <;> simp [storeU32] <;> omega
      · by_cases h3 : a = p + 3
        · subst h3
          cases be <;> simp [storeU32] <;> omega
        · have hn : ¬ (p ≤ a ∧ a < p + 4) := by omega
          simp [storeU32, h0, h1, h2, h3, hn]

/-- The table-record loop leaves every byte outside the offset fields untouched. -/
theorem GetTtfInfoFromTtc.patch_other (be : Bool) (off : Nat) (n : Nat) :
    ∀ (p : Nat) (buf : Nat → Nat) (a : Nat),
      (∀ i, i < n → a < p + 16 * i ∨ p + 16 * i + 4 ≤ a) →
      GetTtfInfoFromTtc.patch be off n p buf a = buf a := by
  induction n with
  | zero => intro p buf a _; rfl
  | succ n ih =>
    intro p buf a h
    rw [GetTtfInfoFromTtc.patch]
    rw [ih (p + 16) _ a (fun i hi => by have := h (i + 1) (by omega); omega)]
    rw [store_peek_store]
    have h0 := h 0 (by omega)
    have hn : ¬ (p ≤ a ∧ a < p + 4) := by omega
    simp [hn]

/-- The table-record loop leaves in the offset field of record `i` the big-endian
form of the field's former value minus `ttfOffset`. -/
theorem GetTtfInfoFromTtc.patch_field (be : Bool) (off : Nat) (n : Nat) :
    ∀ (p : Nat) (buf : Nat → Nat) (i j : Nat), i < n → j < 4 →
      GetTtfInfoFromTtc.patch be off n p buf (p + 16 * i + j)
        = beByte (toU32 ((FT_PEEK_ULONG buf (p + 16 * i) : Int) - off)) j := by
  induction n with
  | zero => intro p buf i j hi; omega
  | succ n ih =>
    intro p buf i j hi hj
    rw [GetTtfInfoFromTtc.patch]
    cases i with
    | zero =>
      rw [GetTtfInfoFromTtc.patch_other be off n (p + 16) _ (p + 16 * 0 + j)
        (fun i _ => by omega)]
      rw [store_peek_store]
      have hy : p ≤ p + 16 * 0 + j ∧ p + 16 * 0 + j < p + 4 := by omega
      have hz : p + 16 * 0 + j - p = j := by omega
      simp only [hy, and_self, if_true, hz]
      rfl
    | succ i =>
      have hidx : p + 16 * (i + 1) + j = (p + 16) + 16 * i + j := by omega
      rw [hidx, ih (p + 16) _ i j (by omega) hj]
      have hpk : ∀ (m : Nat → Nat), (∀ a, p + 16 ≤ a → m a = buf a) →
          FT_PEEK_ULONG m (p + 16 + 16 * i) = FT_PEEK_ULONG buf (p + 16 * (i + 1)) := by
        intro m hm
        have hq : p + 16 * (i + 1) = p + 16 + 16 * i := by omega
        unfold FT_PEEK_ULONG
        rw [hq, hm _ (by omega), hm _ (by omega), hm _ (by omega), hm _ (by omega)]
      rw [hpk]
      intro a ha
      rw [store_peek_store]
      have hn : ¬ (p ≤ a ∧ a < p + 4) := by omega
      simp [hn]

theorem FT_Stream_Seek_some (stream : FT_Stream) (pos q : Nat)
    (h : FT_Stream_Seek stream pos = some q) : q = pos := by
  unfold FT_Stream_Seek at h
  split at h
  · simp at h
  · simp at h; exact h.symm

theorem FT_Stream_ReadULong_some (stream : FT_Stream) (pos v q : Nat)
    (h : FT_Stream_ReadULong stream pos = some (v, q)) :
    v = FT_PEEK_ULONG stream.base pos := by
  unfold FT_Stream_ReadULong at h
  split at h
  · simp at h; exact h.1.symm
  · simp at h

theorem FT_Stream_ReadUShort_some (stream : FT_Stream) (pos v q : Nat)
    (h : FT_Stream_ReadUShort stream pos = some (v, q)) :
    v = FT_PEEK_USHORT stream.base pos := by
  unfold FT_Stream_ReadUShort at h
  split at h
  · simp at h; exact h.1.symm
  · simp at h

/-- A read that does not fail has copied exactly `count` bytes. -/
theorem FT_Stream_Read_ok (stream : FT_Stream) (pos : Nat) (buf : Nat → Nat) (count : Nat)
    (h : (FT_Stream_Read stream pos buf count).1 = false) (a : Nat) :
    (FT_Stream_Read stream pos buf count).2 a
      = if a < count then stream.base (pos + a) % 256 else buf a := by
  unfold FT_Stream_Read at h ⊢
  split at h
  · simp at h
  · rename_i hpos
    simp only [decide_eq_false_iff_not, not_lt] at h
    have hmin : min count (stream.size - pos) = count := by omega
    simp only [hpos, if_false, hmin]

theorem GetTtfInfoFromTtc.success_shape (k : FontConfig) (s : UIFontVector) (buf : Nat → Nat)
    (cap len0 : Nat) (fontInfo : UITextLanguageFontParam) (stream : FT_Stream)
    (hs : (s.ttcInfos_ fontInfo.ttcIndex).stream = some stream) (r : TtfResult)
    (hr : GetTtfInfoFromTtc k s (some buf) cap len0 fontInfo = r) (hret : r.ret = true) :
    ∃ ttfLength,
      (FT_Stream_Read stream (FT_PEEK_ULONG stream.base (12 + 4 * toU8 fontInfo.ttfIndex))
        buf ttfLength).1 = false ∧
      r = { ret := true,
            buffer := some (GetTtfInfoFromTtc.patch k.HOST_BIG_ENDIAN
              (FT_PEEK_ULONG stream.base (12 + 4 * toU8 fontInfo.ttfIndex))
              (FT_PEEK_USHORT stream.base
                (toU32 ((FT_PEEK_ULONG stream.base (12 + 4 * toU8 fontInfo.ttfIndex) : Int) + 4)))
              20
              (FT_Stream_Read stream (FT_PEEK_ULONG stream.base (12 + 4 * toU8 fontInfo.ttfIndex))
                buf ttfLength).2),
            len := ttfLength } := by
  unfold GetTtfInfoFromTtc at hr
  simp only [hs] at hr
  repeat' (split at hr)
  all_goals try (subst hr; simp at hret; done)
  rename_i hcap _ p0 hseek0 _ header pos hhdr htag hidx _ pos1 hskip _ off pos2 hoff _ len hlen
    hle _ pos3 hseek3 hrd _ nt ntpos hnt
  have hpos : pos = 12 := by
    unfold readTtcHeader at hhdr
    split at hhdr
    · simp at hhdr; exact hhdr.2.symm
    · simp at hhdr
  have hpos1 : pos1 = 12 + 4 * toU8 fontInfo.ttfIndex := by
    rw [← hpos]; exact FT_Stream_Seek_some stream _ _ hskip
  have hoffv : off = FT_PEEK_ULONG stream.base (12 + 4 * toU8 fontInfo.ttfIndex) := by
    rw [← hpos1]; exact FT_Stream_ReadULong_some stream _ _ _ hoff
  have hpos3 : pos3 = off := FT_Stream_Seek_some stream _ _ hseek3
  have hntv : nt = FT_PEEK_USHORT stream.base (toU32 ((off : Int) + 4)) := by
    rcases Option.bind_eq_some.mp hnt with ⟨q, hq1, hq2⟩
    have hq : q = toU32 ((off : Int) + 4) := FT_Stream_Seek_some stream _ _ hq1
    rw [← hq]; exact FT_Stream_ReadUShort_some stream _ _ _ hq2
  subst hpos3
  subst hntv
  subst hoffv
  refine ⟨len, ?_, hr.symm⟩
  simpa using hrd

/-- C5, as amended: whenever `GetTtfInfoFromTtc` succeeds for the sub-font at container
offset `off` with derived length `len`, and every offset field of the `numTables`
table records lies inside the first `len` bytes, each of the first `len` bytes of the
output buffer is the container byte at `off + a` copied verbatim, except that the
offset field of each table record `i < numTables` (bytes `20 + 16 i .. 23 + 16 i`)
holds, in big-endian, the container-relative offset minus `off` modulo `2 ^ 32`, on
either byte order of the target. -/
theorem GetTtfInfoFromTtc_copies_and_patches (k : FontConfig) (s : UIFontVector)
    (buf : Nat → Nat) (cap len0 : Nat) (fontInfo : UITextLanguageFontParam) (stream : FT_Stream)
    (hs : (s.ttcInfos_ fontInfo.ttcIndex).stream = some stream)
    (hret : (GetTtfInfoFromTtc k s (some buf) cap len0 fontInfo).ret = true)
    (hdir : ∀ i, i < FT_PEEK_USHORT stream.base
          (toU32 ((FT_PEEK_ULONG stream.base (12 + 4 * toU8 fontInfo.ttfIndex) : Int) + 4)) →
        20 + 16 * i + 4 ≤ (GetTtfInfoFromTtc k s (some buf) cap len0 fontInfo).len) :
    ∀ a, a < (GetTtfInfoFromTtc k s (some buf) cap len0 fontInfo).len →
      (GetTtfInfoFromTtc k s (some buf) cap len0 fontInfo).byte a
        = expectedTtfByte stream (FT_PEEK_ULONG stream.base (12 + 4 * toU8 fontInfo.ttfIndex))
            (FT_PEEK_USHORT stream.base
              (toU32 ((FT_PEEK_ULONG stream.base (12 + 4 * toU8 fontInfo.ttfIndex) : Int) + 4)))
            a := by
  obtain ⟨len, hrd, hr⟩ := GetTtfInfoFromTtc.success_shape k s buf cap len0 fontInfo stream hs
    _ rfl hret
  rw [hr] at hdir ⊢
  simp only [TtfResult.byte] at hdir ⊢
  intro a ha
  generalize FT_PEEK_ULONG stream.base (12 + 4 * toU8 fontInfo.ttfIndex) = off at *
  generalize FT_PEEK_USHORT stream.base (toU32 ((off : Int) + 4)) = nt at *
  have hcopy := FT_Stream_Read_ok stream off buf len hrd
  unfold expectedTtfByte
  by_cases hf : 20 ≤ a ∧ (a - 20) / 16 < nt ∧ (a - 20) % 16 < 4
  · rw [if_pos hf]
    have hin := hdir ((a - 20) / 16) hf.2.1
    have ha' : a = 20 + 16 * ((a - 20) / 16) + (a - 20) % 16 := by omega
    generalize (a - 20) / 16 = i at *
    generalize (a - 20) % 16 = j at *
    subst ha'
    rw [GetTtfInfoFromTtc.patch_field k.HOST_BIG_ENDIAN off nt 20 _ i j hf.2.1 hf.2.2]
    have hpk : FT_PEEK_ULONG (FT_Stream_Read stream off buf len).2 (20 + 16 * i)
        = FT_PEEK_ULONG stream.base (off + 20 + 16 * i) := by
      unfold FT_PEEK_ULONG
      rw [hcopy, hcopy, hcopy, hcopy]
      have e0 : off + (20 + 16 * i) = off + 20 + 16 * i := by omega
      have e1 : off + (20 + 16 * i + 1) = off + 20 + 16 * i + 1 := by omega
      have e2 : off + (20 + 16 * i + 2) = off + 20 + 16 * i + 2 := by omega
      have e3 : off + (20 + 16 * i + 3) = off + 20 + 16 * i + 3 := by omega
      have c0 : 20 + 16 * i < len := by omega
      have c1 : 20 + 16 * i + 1 < len := by omega
      have c2 : 20 + 16 * i + 2 < len := by omega
      have c3 : 20 + 16 * i + 3 < len := by omega
      simp only [c0, c1, c2, c3, if_true, e0, e1, e2, e3, Nat.mod_mod]
    rw [hpk]
  · rw [if_neg hf]
    rw [GetTtfInfoFromTtc.patch_other k.HOST_BIG_ENDIAN off nt 20 _ a
      (fun i hi => by omega)]
    rw [hcopy, if_pos ha]

theorem GetTtfInfoFromTtc_copies_and_patches_witness :
    (GetTtfInfoFromTtc sampleConfig (catalogueWithStream smallCollection) (some (fun _ => 170))
        64 0 (subFontParam 0)).ret = true ∧
    (GetTtfInfoFromTtc sampleConfig (catalogueWithStream smallCollection) (some (fun _ => 170))
        64 0 (subFontParam 0)).len = 40 ∧
    ∀ a, a < (GetTtfInfoFromTtc sampleConfig (catalogueWithStream smallCollection)
          (some (fun _ => 170)) 64 0 (subFontParam 0)).len →
      (GetTtfInfoFromTtc sampleConfig (catalogueWithStream smallCollection) (some (fun _ => 170))
          64 0 (subFontParam 0)).byte a
        = expectedTtfByte smallCollection
            (FT_PEEK_ULONG smallCollection.base (12 + 4 * toU8 (subFontParam 0).ttfIndex))
            (FT_PEEK_USHORT smallCollection.base
              (toU32 ((FT_PEEK_ULONG smallCollection.base
                (12 + 4 * toU8 (subFontParam 0).ttfIndex) : Int) + 4)))
            a :=
  ⟨by decide, by decide,
    GetTtfInfoFromTtc_copies_and_patches sampleConfig (catalogueWithStream smallCollection)
      (fun _ => 170) 64 0 (subFontParam 0) smallCollection rfl (by decide)
      (by
        have hn : FT_PEEK_USHORT smallCollection.base
            (toU32 ((FT_PEEK_ULONG smallCollection.base
              (12 + 4 * toU8 (subFontParam 0).ttfIndex) : Int) + 4)) = 1 := by decide
        have hl : (GetTtfInfoFromTtc sampleConfig (catalogueWithStream smallCollection)
            (some (fun _ => 170)) 64 0 (subFontParam 0)).len = 40 := by decide
        rw [hn, hl]
        intro i hi
        omega)⟩

/-- C5, counterexample: sub-font 0 of `truncatedDirectory` (offset 20, length 22, one
table record) is extracted successfully into a buffer of 32 bytes holding 170, yet
byte 20 of the output, inside the first 22 bytes, is 0 while the spec's extracted
stream has 255 there: the loop patches the field from the buffer bytes 20..23, of
which the last two were never copied. -/
theorem GetTtfInfoFromTtc_patch_past_copy :
    truncatedResult.ret = true ∧
    truncatedResult.len = 22 ∧
    FT_PEEK_ULONG truncatedDirectory.base (12 + 4 * toU8 (subFontParam 0).ttfIndex) = 20 ∧
    FT_PEEK_USHORT truncatedDirectory.base (toU32 ((20 : Int) + 4)) = 1 ∧
    truncatedResult.byte 20 = 0 ∧
    expectedTtfByte truncatedDirectory 20 1 20 = 255 := by
  decide

/-! ## Properties of glyph resolution -/

/-- When the occupied slots from `i0` up to `t` carry their own index as `ttfId`, the
search of `GetFontId(unicode)` for the tag `t` stops at slot `t`. -/
theorem GetFontId.loop_eq (k : FontConfig) (s : UIFontVector) (t : Nat)
    (hocc : (s.fontInfo_ t).ttfName ≠ none) (hid : (s.fontInfo_ t).ttfId = t) (fuel : Nat) :
    ∀ i0, i0 ≤ t → t < i0 + fuel →
      (∀ i, i0 ≤ i → i < t → (s.fontInfo_ i).ttfName ≠ none → (s.fontInfo_ i).ttfId = i) →
      GetFontId.loop k s t fuel i0 = t := by
  induction fuel with
  | zero => intro i0 h1 h2; omega
  | succ fuel ih =>
    intro i0 h1 h2 hids
    unfold GetFontId.loop
    by_cases hi : i0 = t
    · subst hi
      cases hn : (s.fontInfo_ i0).ttfName with
      | none => exact absurd hn hocc
      | some nm => simp [hid]
    · have hlt : i0 < t := by omega
      cases hn : (s.fontInfo_ i0).ttfName with
      | none => exact ih (i0 + 1) (by omega) (by omega) (fun i a b => hids i (by omega) b)
      | some nm =>
        have hidi := hids i0 (le_refl _) hlt (by rw [hn]; simp)
        have hne : ¬ (s.fontInfo_ i0).ttfId = t := by omega
        simp only [hne, if_false]
        exact ih (i0 + 1) (by omega) (by omega) (fun i a b => hids i (by omega) b)

/-- C6, as amended: let `u` be a code point that the code treats as tagged
(`IsGlyphFont(u)` is non-zero, that is, the font selected by bits 24-28 has a non-zero
shaping flag) and whose bits 24-28 are the id `t` of a registered font, in a catalogue
whose occupied slots carry their slot index as id.  With requested font `t`,
`LoadGlyphIntoFace` passes the recovered value `u & 0xFFFFFF` to `FT_Load_Glyph` on the
face of font `t`; with any other requested font it returns `INVALID_RET_VALUE` and
leaves the state, its faces and the count of load calls included, untouched (both
overloads). -/
theorem LoadGlyphIntoFace_tagged (k : FontConfig) (s : UIFontVector) (u t : Nat)
    (hids : ∀ i, i < k.FONT_ID_MAX → (s.fontInfo_ i).ttfName ≠ none → (s.fontInfo_ i).ttfId = i)
    (ht : t = (u >>> 24) &&& 0x1F)
    (hreg : t < k.FONT_ID_MAX ∧ (s.fontInfo_ t).ttfName ≠ none)
    (htag : IsGlyphFont k s u ≠ 0) :
    (LoadGlyphIntoFace k s t u).2
        = { s with ftFaces_ := setAt s.ftFaces_ t
                     (FT_Load_Glyph (s.ftFaces_ t) (u &&& 0xFFFFFF) FT_Load_Flag.FT_LOAD_RENDER).2,
                   ftLoadCalls := s.ftLoadCalls + 1 } ∧
    (LoadGlyphIntoFace k s t u).1
        = (if glyphMissing
              (FT_Load_Glyph (s.ftFaces_ t) (u &&& 0xFFFFFF) FT_Load_Flag.FT_LOAD_RENDER).1
              (FT_Load_Glyph (s.ftFaces_ t) (u &&& 0xFFFFFF) FT_Load_Flag.FT_LOAD_RENDER).2
           then k.INVALID_RET_VALUE else k.RET_VALUE_OK) ∧
    ∀ f, f ≠ t →
      LoadGlyphIntoFace k s f u = (k.INVALID_RET_VALUE, s) ∧
      ∀ textStyle, LoadGlyphIntoFaceStyle k s f u textStyle = (k.INVALID_RET_VALUE, s) := by
  have ht32 : t ≤ 31 := by rw [ht]; exact Nat.and_le_right
  have hfont : GetFontId k s u = t := by
    unfold GetFontId
    rw [← ht]
    have h8 : toU8 t = t := by unfold toU8; omega
    rw [h8, GetFontId.loop_eq k s t hreg.2 (hids t hreg.1 hreg.2) k.FONT_ID_MAX 0 (Nat.zero_le _)
      (by omega) (fun i _ hi hn => hids i (by omega) hn)]
    omega
  have hload : LoadGlyphIntoFace.load k s t u
      = some ((FT_Load_Glyph (s.ftFaces_ t) (u &&& 0xFFFFFF) FT_Load_Flag.FT_LOAD_RENDER).1,
          { s with ftFaces_ := setAt s.ftFaces_ t
                     (FT_Load_Glyph (s.ftFaces_ t) (u &&& 0xFFFFFF) FT_Load_Flag.FT_LOAD_RENDER).2,
                   ftLoadCalls := s.ftLoadCalls + 1 }) := by
    unfold LoadGlyphIntoFace.load
    rw [if_pos htag, hfont]
    simp
  have hnone : ∀ f, f ≠ t → LoadGlyphIntoFace.load k s f u = none := by
    intro f hf
    unfold LoadGlyphIntoFace.load
    rw [if_pos htag, hfont, if_pos hf]
  refine ⟨?_, ?_, ?_⟩
  · unfold LoadGlyphIntoFace
    rw [hload]
    simp only []
    split <;> rfl
  · unfold LoadGlyphIntoFace
    rw [hload]
    simp only [setAt_same]
    split <;> rfl
  · intro f hf
    refine ⟨?_, fun textStyle => ?_⟩
    · unfold LoadGlyphIntoFace
      rw [hnone f hf]
    · unfold LoadGlyphIntoFaceStyle
      rw [hnone f hf]

theorem LoadGlyphIntoFace_tagged_witness :
    IsGlyphFont sampleConfig catalogueTagged 0x05000041 ≠ 0 ∧
    (0x05000041 >>> 24) &&& 0x1F = 5 ∧
    0x05000041 &&& 0xFFFFFF = 0x41 ∧
    (LoadGlyphIntoFace sampleConfig catalogueTagged 5 0x05000041).1 = sampleConfig.RET_VALUE_OK ∧
    ((LoadGlyphIntoFace sampleConfig catalogueTagged 5 0x05000041).2.ftFaces_ 5).map
        (fun face => face.glyph.glyph_index) = some 0x41 ∧
    LoadGlyphIntoFace sampleConfig catalogueTagged 3 0x05000041
      = (sampleConfig.INVALID_RET_VALUE, catalogueTagged) :=
  have hids : ∀ i, i < sampleConfig.FONT_ID_MAX → (catalogueTagged.fontInfo_ i).ttfName ≠ none →
      (catalogueTagged.fontInfo_ i).ttfId = i := by
    intro i _ hn
    by_cases h5 : i = 5
    · subst h5; rfl
    · by_cases h3 : i = 3
      · subst h3; rfl
      · exfalso
        apply hn
        simp [catalogueTagged, emptyCatalogue, emptyFontParam, h5, h3]
  ⟨by decide, by decide, by decide, by decide, by decide,
    ((LoadGlyphIntoFace_tagged sampleConfig catalogueTagged 0x05000041 5 hids (by decide)
      (by decide) (by decide)).2.2 3 (by decide)).1⟩

/-- C6, counterexample: in `cataloguePlain` font 5 is registered with shaping flag 0 and
bits 24-28 of `0x05000041` are 5.  `IsGlyphFont` is 0, so `LoadGlyphIntoFace` takes the
untagged path: with requested font 5 it loads the unmasked value `0x05000041` instead
of `0x41`, and with requested font 3 it does not return `INVALID_RET_VALUE` but loads
a glyph from font 3 and returns `RET_VALUE_OK`. -/
theorem LoadGlyphIntoFace_plain_font_tag :
    (0x05000041 >>> 24) &&& 0x1F = 5 ∧
    (cataloguePlain.fontInfo_ 5).ttfName = some [97] ∧
    (cataloguePlain.fontInfo_ 5).ttfId = 5 ∧
    IsGlyphFont sampleConfig cataloguePlain 0x05000041 = 0 ∧
    ((LoadGlyphIntoFace sampleConfig cataloguePlain 5 0x05000041).2.ftFaces_ 5).map
        (fun face => face.glyph.glyph_index) = some 0x05000041 ∧
    (LoadGlyphIntoFace sampleConfig cataloguePlain 3 0x05000041).1 = sampleConfig.RET_VALUE_OK ∧
    (LoadGlyphIntoFace sampleConfig cataloguePlain 3 0x05000041).2.ftLoadCalls
      = cataloguePlain.ftLoadCalls + 1 := by
  decide

/-- The outcome of the size request depends on the font resource only, and the
request keeps the resource of the face. -/
theorem GetFaceInfo.setSize_font (k : FontConfig) (s s' : UIFontVector) (f size : Nat)
    (face face' : FT_Face) (hinfo : s'.fontInfo_ f = s.fontInfo_ f)
    (hfont : face'.font = face.font) :
    (GetFaceInfo.setSize k s' f size face').1 = (GetFaceInfo.setSize k s f size face).1 ∧
    (GetFaceInfo.setSize k s f size face).2.font = face.font := by
  have hemoji : IsEmojiFont k s' f = IsEmojiFont k s f := by
    unfold IsEmojiFont; rw [hinfo]
  unfold GetFaceInfo.setSize
  rw [hemoji]
  cases IsEmojiFont k s f with
  | true =>
    simp only [if_true]
    unfold SetupColorFont
    rw [hfont]
    cases SetupColorFont.bestMatch face.font.available_sizes size with
    | none => exact ⟨rfl, rfl⟩
    | some b =>
      simp only []
      cases face.font.selectSize b with
      | none => exact ⟨rfl, rfl⟩
      | some m => exact ⟨rfl, rfl⟩
  | false =>
    simp only [Bool.false_eq_true, if_false]
    unfold FT_Set_Char_Size
    rw [hfont]
    cases face.font.setCharSize ((size : Int) * k.FONT_PIXEL_IN_POINT) with
    | none => exact ⟨rfl, rfl⟩
    | some m => exact ⟨rfl, rfl⟩

/-- The facts that make `GetFaceInfo` succeed. -/
theorem GetFaceInfo_of_ok (k : FontConfig) (s : UIFontVector) (f size : Nat) (face : FT_Face)
    (hf : f < k.FONT_ID_MAX) (hsz : size ≠ 0) (hname : (s.fontInfo_ f).ttfName ≠ none)
    (hin : s.freeTypeInited_ = true) (hfc : s.ftFaces_ f = some face)
    (hset : (GetFaceInfo.setSize k s f size face).1 = 0) :
    GetFaceInfo k s f size
      = (k.RET_VALUE_OK, GetKey f size,
          { s with ftFaces_ := setAt s.ftFaces_ f (some (GetFaceInfo.setSize k s f size face).2) }) := by
  unfold GetFaceInfo GetFontInfo
  have h1 : ¬ (f ≥ k.FONT_ID_MAX ∨ size = 0) := by omega
  simp [h1, hf, hname, hin, hfc, hset]

/-- What a successful `GetFaceInfo` has checked and done. -/
theorem GetFaceInfo_ok (k : FontConfig) (s : UIFontVector) (f size : Nat)
    (hk : k.INVALID_RET_VALUE ≠ k.RET_VALUE_OK)
    (h : (GetFaceInfo k s f size).1 = k.RET_VALUE_OK) :
    ∃ face, f < k.FONT_ID_MAX ∧ size ≠ 0 ∧ (s.fontInfo_ f).ttfName ≠ none ∧
      s.freeTypeInited_ = true ∧ s.ftFaces_ f = some face ∧
      (GetFaceInfo.setSize k s f size face).1 = 0 ∧
      GetFaceInfo k s f size
        = (k.RET_VALUE_OK, GetKey f size,
            { s with ftFaces_ := setAt s.ftFaces_ f (some (GetFaceInfo.setSize k s f size face).2) }) := by
  have facts : ∃ face, f < k.FONT_ID_MAX ∧ size ≠ 0 ∧ (s.fontInfo_ f).ttfName ≠ none ∧
      s.freeTypeInited_ = true ∧ s.ftFaces_ f = some face ∧
      (GetFaceInfo.setSize k s f size face).1 = 0 := by
    unfold GetFaceInfo GetFontInfo at h
    by_cases h1 : f ≥ k.FONT_ID_MAX ∨ size = 0
    · rw [if_pos h1] at h; exact absurd h hk
    · rw [if_neg h1] at h
      have hf : f < k.FONT_ID_MAX := by omega
      have hsz : size ≠ 0 := by omega
      simp only [hf, if_true] at h
      by_cases h2 : (s.fontInfo_ f).ttfName = none
      · rw [if_pos h2] at h; exact absurd h hk
      · rw [if_neg h2] at h
        cases hin : s.freeTypeInited_ with
        | false => rw [hin] at h; exact absurd h hk
        | true =>
          rw [hin] at h
          simp only [Bool.not_true, Bool.false_eq_true, if_false] at h
          cases hfc : s.ftFaces_ f with
          | none => rw [hfc] at h; exact absurd h hk
          | some face =>
            rw [hfc] at h
            simp only [] at h
            by_cases h3 : (GetFaceInfo.setSize k s f size face).1 ≠ 0
            · rw [if_pos h3] at h; exact absurd h hk
            · have h3' : (GetFaceInfo.setSize k s f size face).1 = 0 := by simpa using h3
              exact ⟨face, hf, hsz, h2, rfl, rfl, h3'⟩
  obtain ⟨face, hf, hsz, h2, hin, hfc, h3⟩ := facts
  exact ⟨face, hf, hsz, h2, hin, hfc, h3, GetFaceInfo_of_ok k s f size face hf hsz h2 hin hfc h3⟩

theorem FT_Load_Glyph_font (face : Option FT_Face) (i : Nat) (fl : FT_Load_Flag) (face' : FT_Face)
    (h : (FT_Load_Glyph face i fl).2 = some face') :
    ∃ fc, face = some fc ∧ face'.font = fc.font := by
  unfold FT_Load_Glyph at h
  cases face with
  | none => simp at h
  | some fc =>
    simp only [] at h
    cases hl : fc.font.loadGlyph fc.size i fl with
    | none => rw [hl] at h; simp at h; exact ⟨fc, rfl, by rw [← h]⟩
    | some slot => rw [hl] at h; simp at h; exact ⟨fc, rfl, by rw [← h]⟩

theorem FT_Load_Char_font (face : Option FT_Face) (c : Nat) (fl : FT_Load_Flag) (face' : FT_Face)
    (h : (FT_Load_Char face c fl).2 = some face') :
    ∃ fc, face = some fc ∧ face'.font = fc.font := by
  unfold FT_Load_Char at h
  cases face with
  | none => simp at h
  | some fc => exact FT_Load_Glyph_font (some fc) _ fl face' h

/-- The FreeType calls of `LoadGlyphIntoFace` touch the face of slot `f` and the
ghost counter only, and the face keeps its resource. -/
theorem LoadGlyphIntoFace.load_frame (k : FontConfig) (s : UIFontVector) (f u : Nat)
    (r : Bool × UIFontVector) (h : LoadGlyphIntoFace.load k s f u = some r) :
    r.2.fontInfo_ = s.fontInfo_ ∧ r.2.freeTypeInited_ = s.freeTypeInited_ ∧
    r.2.bitmapCache_ = s.bitmapCache_ ∧
    ∀ face', r.2.ftFaces_ f = some face' → ∃ face, s.ftFaces_ f = some face ∧ face'.font = face.font := by
  unfold LoadGlyphIntoFace.load at h
  split at h
  · split at h
    · simp at h
    · simp only [Option.some.injEq] at h
      subst h
      refine ⟨rfl, rfl, rfl, fun face' hf => ?_⟩
      simp only [setAt_same] at hf
      exact FT_Load_Glyph_font _ _ _ _ hf
  · simp only [Option.some.injEq] at h
    subst h
    refine ⟨rfl, rfl, rfl, fun face' hf => ?_⟩
    simp only [setAt_same] at hf
    split at hf
    · exact FT_Load_Char_font _ _ _ _ hf
    · exact FT_Load_Char_font _ _ _ _ hf

theorem SetItaly_font (face : FT_Face) : (SetItaly face).font = face.font := by
  unfold SetItaly; split <;> rfl

theorem SetBold_font (face : FT_Face) : (SetBold face).font = face.font := by
  unfold SetBold
  split
  · split <;> rfl
  · split
    · split <;> rfl
    · rfl

theorem LoadGlyphIntoFace.style_font (face : FT_Face) (textStyle : TextStyle) :
    (LoadGlyphIntoFace.style face textStyle).2.font = face.font := by
  unfold LoadGlyphIntoFace.style
  cases textStyle <;> simp only [] <;> split <;> (try split) <;>
    simp [SetItaly_font, SetBold_font]

/-- Either overload of `LoadGlyphIntoFace` leaves the FontRecords, the cache and the
resource of the face of slot `f` as they were. -/
theorem LoadGlyphIntoFace_frame (k : FontConfig) (s : UIFontVector) (f u : Nat)
    (textStyle : TextStyle) (ld : Int × UIFontVector)
    (h : ld = LoadGlyphIntoFace k s f u ∨ ld = LoadGlyphIntoFaceStyle k s f u textStyle) :
    ld.2.fontInfo_ = s.fontInfo_ ∧ ld.2.freeTypeInited_ = s.freeTypeInited_ ∧
    ld.2.bitmapCache_ = s.bitmapCache_ ∧
    ∀ face', ld.2.ftFaces_ f = some face' → ∃ face, s.ftFaces_ f = some face ∧ face'.font = face.font := by
  cases hl : LoadGlyphIntoFace.load k s f u with
  | none =>
    have e : ld = (k.INVALID_RET_VALUE, s) := by
      rcases h with h | h
      · rw [h]; unfold LoadGlyphIntoFace; rw [hl]
      · rw [h]; unfold LoadGlyphIntoFaceStyle; rw [hl]
    rw [e]
    exact ⟨rfl, rfl, rfl, fun face' hf => ⟨face', hf, rfl⟩⟩
  | some r =>
    obtain ⟨h1, h2, h3, h4⟩ := LoadGlyphIntoFace.load_frame k s f u r hl
    rcases h with h | h
    · have e : ld.2 = r.2 := by
        rw [h]; unfold LoadGlyphIntoFace; rw [hl]
        simp only []
        split <;> rfl
      rw [e]
      exact ⟨h1, h2, h3, h4⟩
    · rw [h]
      unfold LoadGlyphIntoFaceStyle
      rw [hl]
      simp only []
      split
      · exact ⟨h1, h2, h3, h4⟩
      · cases hfc : r.2.ftFaces_ f with
        | none => exact ⟨h1, h2, h3, fun face' hf => by rw [hfc] at hf; simp at hf⟩
        | some fc =>
          simp only []
          obtain ⟨face, hface, hfont⟩ := h4 fc hfc
          have hst := LoadGlyphIntoFace.style_font fc textStyle
          split
          · refine ⟨h1, h2, h3, fun face' hf => ?_⟩
            simp only [setAt_same, Option.some.injEq] at hf
            exact ⟨face, hface, by rw [← hf, hst, hfont]⟩
          · refine ⟨h1, h2, h3, fun face' hf => ?_⟩
            simp only [setAt_same, Option.some.injEq] at hf
            exact ⟨face, hface, by rw [← hf, hst, hfont]⟩

/-- `SetFace` changes nothing but the cache. -/
theorem SetFace_frame (k : FontConfig) (s : UIFontVector) (f key u : Nat) (st : TextStyle) :
    (SetFace k s f key u st).fontInfo_ = s.fontInfo_ ∧
    (SetFace k s f key u st).freeTypeInited_ = s.freeTypeInited_ ∧
    (SetFace k s f key u st).ftFaces_ = s.ftFaces_ ∧
    (SetFace k s f key u st).ftLoadCalls = s.ftLoadCalls := by
  unfold SetFace
  split
  · simp only []
    split <;> exact ⟨rfl, rfl, rfl, rfl⟩
  · exact ⟨rfl, rfl, rfl, rfl⟩

/-- An entry found right after `GetSpace` and the two writes of `SetFace` under the
address just reserved holds the `Metric` that was written. -/
theorem UIFontCache.lookup_after_store (c c1 : UIFontCache) (key u sz : Nat) (st : TextStyle)
    (m : Metric) (buf : List Nat) (bs : Nat) (e : CacheEntry)
    (hsp : c.GetSpace key u sz st = some c1)
    (he : ((c1.storeMetric m).storePixels buf bs).GetBitmap key u st = some e) :
    e.metric = m := by
  unfold UIFontCache.GetSpace at hsp
  split at hsp
  · simp only [Option.some.injEq] at hsp
    subst hsp
    unfold UIFontCache.GetBitmap at he
    simp only [UIFontCache.storeMetric, UIFontCache.storePixels] at he
    by_cases hbs : bs = 0
    · simp [hbs, List.find?] at he
      rw [← he]
    · simp [hbs, List.find?] at he
      rw [← he]
  · simp at hsp

/-- After `SetFace` on a cache that had no entry for the address, an entry found
under that address holds the `Metric` of the glyph slot. -/
theorem SetFace_lookup (k : FontConfig) (s : UIFontVector) (f key u : Nat) (st : TextStyle)
    (face : FT_Face) (c c' : UIFontCache) (e : CacheEntry)
    (hfc : s.ftFaces_ f = some face) (hc : s.bitmapCache_ = some c)
    (hmiss : c.GetBitmap key u st = none)
    (hc' : (SetFace k s f key u st).bitmapCache_ = some c')
    (he : c'.GetBitmap key u st = some e) :
    e.metric = metricOfGlyph k face.glyph := by
  unfold SetFace at hc'
  rw [hfc, hc] at hc'
  simp only [] at hc'
  cases hsp : c.GetSpace key u (toU32 ((toU32 (face.glyph.width * face.glyph.rows *
      (if face.glyph.pixel_mode = FT_PIXEL_MODE_BGRA then 4 else 1)) : Int) + k.SIZEOF_METRIC)) st with
  | none =>
    rw [hsp] at hc'
    simp only [] at hc'
    rw [hc] at hc'
    simp only [Option.some.injEq] at hc'
    rw [← hc', hmiss] at he
    simp at he
  | some c1 =>
    rw [hsp] at hc'
    simp only [Option.some.injEq] at hc'
    rw [← hc'] at he
    exact UIFontCache.lookup_after_store c c1 key u _ st _ _ _ e hsp he

/-- A cache hit: when `GetFaceInfo` succeeds and the cache holds an entry for the
address, `GetGlyphNode` returns the entry's `Metric` and only the size of the face
has been set. -/
theorem GetGlyphNode_hit (k : FontConfig) (s : UIFontVector) (u : Nat) (node : GlyphNode)
    (f size : Nat) (face : FT_Face) (c : UIFontCache) (e : CacheEntry)
    (hf : f < k.FONT_ID_MAX) (hsz : size ≠ 0) (hname : (s.fontInfo_ f).ttfName ≠ none)
    (hin : s.freeTypeInited_ = true) (hfc : s.ftFaces_ f = some face)
    (hset : (GetFaceInfo.setSize k s f size face).1 = 0)
    (hc : s.bitmapCache_ = some c)
    (he : c.GetBitmap (GetKey f size) u (GetGlyphNode.style k node) = some e) :
    GetGlyphNode k s u node f size
      = (k.RET_VALUE_OK,
          { node with left := e.metric.left, top := e.metric.top, cols := e.metric.cols,
                      rows := e.metric.rows, advance := e.metric.advance, fontId := f },
          { s with ftFaces_ := setAt s.ftFaces_ f
                     (some (GetFaceInfo.setSize k s f size face).2) }) := by
  unfold GetGlyphNode
  rw [GetFaceInfo_of_ok k s f size face hf hsz hname hin hfc hset]
  simp only [ne_eq, not_true_eq_false, if_false, setAt_same, hc, hin, Bool.not_true,
    Bool.false_eq_true, he]

/-- The two ways in which `GetGlyphNode` succeeds: a cache hit, or a miss followed by
a successful `LoadGlyphIntoFace` and `SetFace`. -/
theorem GetGlyphNode_ok_cases (k : FontConfig) (s : UIFontVector) (u : Nat) (node : GlyphNode)
    (f size : Nat) (hk : k.INVALID_RET_VALUE ≠ k.RET_VALUE_OK)
    (h1 : (GetGlyphNode k s u node f size).1 = k.RET_VALUE_OK) :
    ∃ c, (GetFaceInfo k s f size).1 = k.RET_VALUE_OK ∧ s.bitmapCache_ = some c ∧
      ((∃ e, c.GetBitmap (GetKey f size) u (GetGlyphNode.style k node) = some e ∧
          GetGlyphNode k s u node f size
            = (k.RET_VALUE_OK,
                { node with left := e.metric.left, top := e.metric.top, cols := e.metric.cols,
                            rows := e.metric.rows, advance := e.metric.advance, fontId := f },
                (GetFaceInfo k s f size).2.2)) ∨
       (c.GetBitmap (GetKey f size) u (GetGlyphNode.style k node) = none ∧
          ∃ face2,
            (GetGlyphNode.load k (GetFaceInfo k s f size).2.2 f u node).1 = k.RET_VALUE_OK ∧
            (GetGlyphNode.load k (GetFaceInfo k s f size).2.2 f u node).2.ftFaces_ f = some face2 ∧
            GetGlyphNode k s u node f size
              = (k.RET_VALUE_OK,
                  { node with left := face2.glyph.bitmap_left, top := face2.glyph.bitmap_top,
                              cols := face2.glyph.width, rows := face2.glyph.rows,
                              advance := toU16 (Int.tdiv face2.glyph.advance_x k.FONT_PIXEL_IN_POINT),
                              fontId := f },
                  SetFace k (GetGlyphNode.load k (GetFaceInfo k s f size).2.2 f u node).2 f
                    (GetKey f size) u (GetGlyphNode.style k node)))) := by
  have hfi : (GetFaceInfo k s f size).1 = k.RET_VALUE_OK := by
    by_contra hne
    unfold GetGlyphNode at h1
    simp only [ne_eq, hne, not_false_eq_true, if_true] at h1
    exact hk h1
  obtain ⟨face, hf, hsz, hname, hin, hfc, hset, heq⟩ := GetFaceInfo_ok k s f size hk hfi
  unfold GetGlyphNode at h1 ⊢
  rw [heq] at h1 ⊢
  simp only [ne_eq, not_true_eq_false, if_false, setAt_same, hin, Bool.not_true,
    Bool.false_eq_true] at h1 ⊢
  cases hc : s.bitmapCache_ with
  | none => rw [hc] at h1; exact absurd h1 hk
  | some c =>
    rw [hc] at h1
    simp only [] at h1 ⊢
    refine ⟨c, trivial, rfl, ?_⟩
    cases hlk : c.GetBitmap (GetKey f size) u (GetGlyphNode.style k node) with
    | some e =>
      left
      exact ⟨e, rfl, rfl⟩
    | none =>
      right
      rw [hlk] at h1
      simp only [] at h1
      refine ⟨rfl, ?_⟩
      split at h1
      · exact absurd h1 hk
      · rename_i hld
        have hld' := not_not.mp hld
        split at h1
        · exact absurd h1 hk
        · rename_i face2 hface2
          refine ⟨face2, hld', hface2, ?_⟩
          simp only [hld', not_true_eq_false, if_false, hface2]

/-- A second `GetGlyphNode` on a state in which `GetFaceInfo` succeeded before and
whose cache holds an entry for the address is a hit. -/
theorem GetGlyphNode_hit_again (k : FontConfig) (s S : UIFontVector) (u : Nat)
    (node2 : GlyphNode) (f size : Nat) (face faceS : FT_Face) (c : UIFontCache) (e : CacheEntry)
    (hf : f < k.FONT_ID_MAX) (hsz : size ≠ 0) (hname : (s.fontInfo_ f).ttfName ≠ none)
    (hset : (GetFaceInfo.setSize k s f size face).1 = 0)
    (hinfo : S.fontInfo_ = s.fontInfo_) (hin : S.freeTypeInited_ = true)
    (hfc : S.ftFaces_ f = some faceS) (hfont : faceS.font = face.font)
    (hc : S.bitmapCache_ = some c)
    (he : c.GetBitmap (GetKey f size) u (GetGlyphNode.style k node2) = some e) :
    GetGlyphNode k S u node2 f size
      = (k.RET_VALUE_OK,
          { node2 with left := e.metric.left, top := e.metric.top, cols := e.metric.cols,
                       rows := e.metric.rows, advance := e.metric.advance, fontId := f },
          { S with ftFaces_ := setAt S.ftFaces_ f
                     (some (GetFaceInfo.setSize k S f size faceS).2) }) := by
  have hset' : (GetFaceInfo.setSize k S f size faceS).1 = 0 := by
    rw [(GetFaceInfo.setSize_font k s S f size face faceS (by rw [hinfo]) hfont).1]
    exact hset
  exact GetGlyphNode_hit k S u node2 f size faceS c e hf hsz (by rw [hinfo]; exact hname) hin hfc
    hset' hc he

/-- C7: if a first `GetGlyphNode(unicode, glyphNode, fontId, fontSize)` succeeds and
afterwards the cache holds the entry for its address (the insertion succeeded), then
the same call repeated on the resulting state, with the same text style, is a cache
hit: it succeeds, returns the same `left`, `top`, `cols`, `rows`, `advance` and
`fontId`, makes no call to `FT_Load_Glyph` or `FT_Load_Char` and leaves the cache as
it is. -/
theorem GetGlyphNode_second_call_hits (k : FontConfig) (s : UIFontVector) (u : Nat)
    (node node2 : GlyphNode) (f size : Nat)
    (hk : k.INVALID_RET_VALUE ≠ k.RET_VALUE_OK)
    (h1 : (GetGlyphNode k s u node f size).1 = k.RET_VALUE_OK)
    (hins : ∃ c, (GetGlyphNode k s u node f size).2.2.bitmapCache_ = some c ∧
      (c.GetBitmap (GetKey f size) u (GetGlyphNode.style k node)).isSome = true)
    (hstyle : node2.textStyle = node.textStyle) :
    (GetGlyphNode k (GetGlyphNode k s u node f size).2.2 u node2 f size).1 = k.RET_VALUE_OK ∧
    (GetGlyphNode k (GetGlyphNode k s u node f size).2.2 u node2 f size).2.1.left
      = (GetGlyphNode k s u node f size).2.1.left ∧
    (GetGlyphNode k (GetGlyphNode k s u node f size).2.2 u node2 f size).2.1.top
      = (GetGlyphNode k s u node f size).2.1.top ∧
    (GetGlyphNode k (GetGlyphNode k s u node f size).2.2 u node2 f size).2.1.cols
      = (GetGlyphNode k s u node f size).2.1.cols ∧
    (GetGlyphNode k (GetGlyphNode k s u node f size).2.2 u node2 f size).2.1.rows
      = (GetGlyphNode k s u node f size).2.1.rows ∧
    (GetGlyphNode k (GetGlyphNode k s u node f size).2.2 u node2 f size).2.1.advance
      = (GetGlyphNode k s u node f size).2.1.advance ∧
    (GetGlyphNode k (GetGlyphNode k s u node f size).2.2 u node2 f size).2.1.fontId
      = (GetGlyphNode k s u node f size).2.1.fontId ∧
    (GetGlyphNode k (GetGlyphNode k s u node f size).2.2 u node2 f size).2.2.ftLoadCalls
      = (GetGlyphNode k s u node f size).2.2.ftLoadCalls ∧
    (GetGlyphNode k (GetGlyphNode k s u node f size).2.2 u node2 f size).2.2.bitmapCache_
      = (GetGlyphNode k s u node f size).2.2.bitmapCache_ := by
  obtain ⟨c, hfi, hc, hcase⟩ := GetGlyphNode_ok_cases k s u node f size hk h1
  obtain ⟨face, hf, hsz, hname, hin, hfc, hset, heq⟩ := GetFaceInfo_ok k s f size hk hfi
  have hst : GetGlyphNode.style k node2 = GetGlyphNode.style k node := by
    unfold GetGlyphNode.style; rw [hstyle]
  obtain ⟨hsf1, hsf2⟩ := GetFaceInfo.setSize_font k s s f size face face rfl rfl
  obtain ⟨s1, hs1⟩ : ∃ s1, s1 = (GetFaceInfo k s f size).2.2 := ⟨_, rfl⟩
  have hs1info : s1.fontInfo_ = s.fontInfo_ := by rw [hs1, heq]
  have hs1in : s1.freeTypeInited_ = true := by rw [hs1, heq]; exact hin
  have hs1c : s1.bitmapCache_ = some c := by rw [hs1, heq]; exact hc
  have hs1f : s1.ftFaces_ f = some (GetFaceInfo.setSize k s f size face).2 := by
    rw [hs1, heq]; simp [setAt]
  rw [← hs1] at hcase
  rcases hcase with ⟨e, he, hr1⟩ | ⟨hmiss, face2, hld1, hld2, hr1⟩
  · rw [hr1]
    simp only []
    rw [GetGlyphNode_hit_again k s s1 u node2 f size face _ c e hf hsz hname hset hs1info hs1in
      hs1f hsf2 hs1c (by rw [hst]; exact he)]
    exact ⟨rfl, rfl, rfl, rfl, rfl, rfl, rfl, rfl, rfl⟩
  · obtain ⟨g1, g2, g3, g4⟩ := LoadGlyphIntoFace_frame k s1 f u node.textStyle
      (GetGlyphNode.load k s1 f u node) (by
        unfold GetGlyphNode.load
        cases k.ENABLE_VECTOR_FONT
        · left; rfl
        · right; rfl)
    obtain ⟨fc1, hfc1, hfont2⟩ := g4 face2 hld2
    rw [hs1f] at hfc1
    simp only [Option.some.injEq] at hfc1
    obtain ⟨q1, q2, q3, q4⟩ := SetFace_frame k (GetGlyphNode.load k s1 f u node).2 f
      (GetKey f size) u (GetGlyphNode.style k node)
    rw [hr1] at hins ⊢
    simp only [] at hins ⊢
    obtain ⟨c', hc', hsome⟩ := hins
    obtain ⟨e', he'⟩ := Option.isSome_iff_exists.mp hsome
    have hmetric := SetFace_lookup k (GetGlyphNode.load k s1 f u node).2 f (GetKey f size) u
      (GetGlyphNode.style k node) face2 c c' e' hld2 (by rw [g3]; exact hs1c) hmiss hc' he'
    rw [GetGlyphNode_hit_again k s _ u node2 f size face face2 c' e' hf hsz hname hset
      (by rw [q1, g1]; exact hs1info) (by rw [q2, g2]; exact hs1in) (by rw [q3]; exact hld2)
      (by rw [hfont2, ← hfc1]; exact hsf2) hc' (by rw [hst]; exact he')]
    rw [hmetric]
    exact ⟨rfl, rfl, rfl, rfl, rfl, rfl, rfl, q4 ▸ rfl, rfl⟩

theorem GetGlyphNode_second_call_hits_witness :
    (GetGlyphNode sampleConfig catalogueCached 65 blankNode 0 16).1 = sampleConfig.RET_VALUE_OK ∧
    (GetGlyphNode sampleConfig catalogueCached 65 blankNode 0 16).2.1.rows = 10 ∧
    (GetGlyphNode sampleConfig catalogueCached 65 blankNode 0 16).2.2.ftLoadCalls = 1 ∧
    (GetGlyphNode sampleConfig (GetGlyphNode sampleConfig catalogueCached 65 blankNode 0 16).2.2
        65 blankNode 0 16).1 = sampleConfig.RET_VALUE_OK ∧
    (GetGlyphNode sampleConfig (GetGlyphNode sampleConfig catalogueCached 65 blankNode 0 16).2.2
        65 blankNode 0 16).2.1.rows
      = (GetGlyphNode sampleConfig catalogueCached 65 blankNode 0 16).2.1.rows ∧
    (GetGlyphNode sampleConfig (GetGlyphNode sampleConfig catalogueCached 65 blankNode 0 16).2.2
        65 blankNode 0 16).2.2.ftLoadCalls
      = (GetGlyphNode sampleConfig catalogueCached 65 blankNode 0 16).2.2.ftLoadCalls :=
  have h := GetGlyphNode_second_call_hits sampleConfig catalogueCached 65 blankNode blankNode 0 16
    (by decide) (by decide) ⟨_, rfl, by decide⟩ rfl
  ⟨by decide, by decide, by decide, h.1, h.2.2.2.2.1, h.2.2.2.2.2.2.2.1⟩

theorem UnregisterFontInfo_cache (k : FontConfig) (s : UIFontVector) (name : Option CStr) :
    (UnregisterFontInfo k s name).2.bitmapCache_ = s.bitmapCache_ := by
  cases name with
  | none => rfl
  | some nm =>
    unfold UnregisterFontInfo
    rcases UnregisterFontInfo.loop_spec k nm k.FONT_ID_MAX 0 s with ⟨i, _, _, _, _, h5⟩ | ⟨_, h2⟩
    · simp only [h5]
    · simp only [h2]

theorem RegisterFontInfo_cache (k : FontConfig) (ft : FreeType) (s : UIFontVector)
    (name : Option CStr) (shaping : Nat) :
    (RegisterFontInfo k ft s name shaping).2.bitmapCache_ = s.bitmapCache_ := by
  cases name with
  | none => rfl
  | some nm =>
    unfold RegisterFontInfo
    simp only []
    split
    · rfl
    · exact (RegisterFontInfo.loop_inited k ft nm shaping k.FONT_ID_MAX 0 s).2.2.1

/-- C8, as amended: `UnregisterFontInfo` followed by `RegisterFontInfo` leaves the
glyph cache exactly as it was before the unregistration.  A successful `GetGlyphNode`
on the resulting state therefore returns the metrics of the entry that the old cache
holds for the requested key, code point and style whenever there is one (and then
loads no glyph, and `GetWidth` returns the advance of the entry it finds), and only
when the old cache holds none does it return the metrics of the glyph loaded from
the face now registered in the slot. -/
theorem GetGlyphNode_after_slot_reuse (k : FontConfig) (ft : FreeType) (s : UIFontVector)
    (name1 name2 : Option CStr) (shaping u : Nat) (node : GlyphNode) (f size : Nat)
    (hk : k.INVALID_RET_VALUE ≠ k.RET_VALUE_OK)
    (hok : (GetGlyphNode k (reuseSlot k ft s name1 name2 shaping) u node f size).1
      = k.RET_VALUE_OK) :
    (reuseSlot k ft s name1 name2 shaping).bitmapCache_ = s.bitmapCache_ ∧
    ∃ c, s.bitmapCache_ = some c ∧
      (∀ e, c.GetBitmap (GetKey f size) u TextStyle.TEXT_STYLE_NORMAL = some e →
        GetWidth k (reuseSlot k ft s name1 name2 shaping) u f size
          = (toI16 e.metric.advance, reuseSlot k ft s name1 name2 shaping)) ∧
      ((∃ e, c.GetBitmap (GetKey f size) u (GetGlyphNode.style k node) = some e ∧
          (GetGlyphNode k (reuseSlot k ft s name1 name2 shaping) u node f size).2.1.left
            = e.metric.left ∧
          (GetGlyphNode k (reuseSlot k ft s name1 name2 shaping) u node f size).2.1.top
            = e.metric.top ∧
          (GetGlyphNode k (reuseSlot k ft s name1 name2 shaping) u node f size).2.1.cols
            = e.metric.cols ∧
          (GetGlyphNode k (reuseSlot k ft s name1 name2 shaping) u node f size).2.1.rows
            = e.metric.rows ∧
          (GetGlyphNode k (reuseSlot k ft s name1 name2 shaping) u node f size).2.1.advance
            = e.metric.advance ∧
          (GetGlyphNode k (reuseSlot k ft s name1 name2 shaping) u node f size).2.2.ftLoadCalls
            = (reuseSlot k ft s name1 name2 shaping).ftLoadCalls) ∨
       (c.GetBitmap (GetKey f size) u (GetGlyphNode.style k node) = none ∧
          ∃ face2,
            (GetGlyphNode.load k (GetFaceInfo k (reuseSlot k ft s name1 name2 shaping) f size).2.2
              f u node).2.ftFaces_ f = some face2 ∧
            (GetGlyphNode k (reuseSlot k ft s name1 name2 shaping) u node f size).2.1.left
              = face2.glyph.bitmap_left ∧
            (GetGlyphNode k (reuseSlot k ft s name1 name2 shaping) u node f size).2.1.top
              = face2.glyph.bitmap_top ∧
            (GetGlyphNode k (reuseSlot k ft s name1 name2 shaping) u node f size).2.1.cols
              = face2.glyph.width ∧
            (GetGlyphNode k (reuseSlot k ft s name1 name2 shaping) u node f size).2.1.rows
              = face2.glyph.rows ∧
            (GetGlyphNode k (reuseSlot k ft s name1 name2 shaping) u node f size).2.1.advance
              = toU16 (Int.tdiv face2.glyph.advance_x k.FONT_PIXEL_IN_POINT))) := by
  have hcache : (reuseSlot k ft s name1 name2 shaping).bitmapCache_ = s.bitmapCache_ := by
    unfold reuseSlot
    rw [RegisterFontInfo_cache, UnregisterFontInfo_cache]
  generalize reuseSlot k ft s name1 name2 shaping = S at *
  obtain ⟨c, hfi, hc, hcase⟩ := GetGlyphNode_ok_cases k S u node f size hk hok
  obtain ⟨face, hf, hsz, hname, hin, hfc, hset, heq⟩ := GetFaceInfo_ok k S f size hk hfi
  refine ⟨hcache, c, by rw [← hcache]; exact hc, ?_, ?_⟩
  · intro e he
    unfold GetWidth
    have h1 : ¬ (f ≥ k.FONT_ID_MAX ∨ size = 0) := by omega
    simp [h1, hc, hin, he]
  · rcases hcase with ⟨e, he, hr1⟩ | ⟨hmiss, face2, _, hld2, hr1⟩
    · left
      refine ⟨e, he, ?_⟩
      rw [hr1, heq]
      exact ⟨rfl, rfl, rfl, rfl, rfl, rfl⟩
    · right
      refine ⟨hmiss, face2, hld2, ?_⟩
      rw [hr1]
      exact ⟨rfl, rfl, rfl, rfl, rfl⟩

theorem GetGlyphNode_after_slot_reuse_witness :
    sampleConfig.INVALID_RET_VALUE ≠ sampleConfig.RET_VALUE_OK ∧
    (GetGlyphNode sampleConfig
        (reuseSlot sampleConfig sampleFreeType catalogueGlyphA (some [97]) (some [98]) 0)
        65 blankNode 0 16).1 = sampleConfig.RET_VALUE_OK ∧
    (reuseSlot sampleConfig sampleFreeType catalogueGlyphA (some [97]) (some [98]) 0).bitmapCache_
      = catalogueGlyphA.bitmapCache_ :=
  ⟨by decide, by decide,
    (GetGlyphNode_after_slot_reuse sampleConfig sampleFreeType catalogueGlyphA (some [97])
      (some [98]) 0 65 blankNode 0 16 (by decide) (by decide)).1⟩

/-- C8, counterexample: font `[97]` (glyphs of 10 rows) is registered in slot 0 and the
glyph of code point 65 at size 16 is cached; the font is unregistered and font `[98]`
(glyphs of 20 rows) is registered, reusing slot 0.  `GetGlyphNode` and `GetWidth` for
slot 0, size 16 and code point 65 then return the 10 rows and the advance 10 cached
before the unregistration, and load nothing, although the glyph of the face now in
slot 0 has 20 rows. -/
theorem GetGlyphNode_serves_stale_entry :
    (UnregisterFontInfo sampleConfig catalogueGlyphA (some [97])).1 = 0 ∧
    (RegisterFontInfo sampleConfig sampleFreeType
      (UnregisterFontInfo sampleConfig catalogueGlyphA (some [97])).2 (some [98]) 0).1 = 0 ∧
    (catalogueReused.fontInfo_ 0).ttfName = some [98] ∧
    (GetGlyphNode sampleConfig catalogueReused 65 blankNode 0 16).1 = sampleConfig.RET_VALUE_OK ∧
    (GetGlyphNode sampleConfig catalogueReused 65 blankNode 0 16).2.1.rows = 10 ∧
    (GetGlyphNode sampleConfig catalogueReused 65 blankNode 0 16).2.2.ftLoadCalls
      = catalogueReused.ftLoadCalls ∧
    (GetWidth sampleConfig catalogueReused 65 0 16).1 = 10 ∧
    ((LoadGlyphIntoFace sampleConfig catalogueReused 0 65).2.ftFaces_ 0).map
      (fun face => face.glyph.rows) = some 20 := by
  decide

/-! ## Failure of registration -/

/-- The loop of `RegisterFontInfo` from slot `j0` fails and changes nothing when the
next `m` slots are occupied by other names and then either the table ends or a free
slot follows for which the face cannot be opened. -/
theorem RegisterFontInfo.loop_fails (k : FontConfig) (ft : FreeType) (name : CStr)
    (shaping : Nat) (fuel : Nat) :
    ∀ (j0 : Nat) (s : UIFontVector) (m : Nat),
      (∀ i, j0 ≤ i → i < j0 + m →
        (s.fontInfo_ i).ttfName ≠ none ∧ slotMatches k s i name = false) →
      (m = fuel ∨ (m < fuel ∧ (s.fontInfo_ (j0 + m)).ttfName = none ∧
        ft.New_Face (s.ttfDir_ ++ name) = none)) →
      RegisterFontInfo.loop k ft name shaping fuel j0 s = (toU8 k.FONT_INVALID_TTF_ID, s) := by
  induction fuel with
  | zero => intro j0 s m _ _; simp [RegisterFontInfo.loop]
  | succ fuel ih =>
    intro j0 s m hocc hend
    cases m with
    | zero =>
      rcases hend with h | ⟨_, hfree, hface⟩
      · omega
      · simp only [Nat.add_zero] at hfree
        simp [RegisterFontInfo.loop, hfree, hface]
    | succ m =>
      have h0 := hocc j0 (le_refl _) (by omega)
      have hstep : RegisterFontInfo.loop k ft name shaping (fuel + 1) j0 s
          = RegisterFontInfo.loop k ft name shaping fuel (j0 + 1) s := by
        have hm := h0.2
        unfold slotMatches at hm
        cases hname : (s.fontInfo_ j0).ttfName with
        | none => exact absurd hname h0.1
        | some nm =>
          simp only [hname, decide_eq_false_iff_not] at hm
          simp [RegisterFontInfo.loop, hname, hm]
      rw [hstep]
      apply ih (j0 + 1) s m
      · intro i h1 h2; exact hocc i (by omega) (by omega)
      · rcases hend with h | ⟨h1, h2, h3⟩
        · left; omega
        · right
          refine ⟨by omega, ?_, h3⟩
          have : j0 + 1 + m = j0 + (m + 1) := by omega
          rw [this]; exact h2

/-- C12: `RegisterFontInfo(name, shaping)` returns `FONT_INVALID_TTF_ID` and leaves the
whole object, hence every FontRecord, unchanged when (a) `name` is null or the engine
is not initialised, (b) all `FONT_ID_MAX` slots are occupied and none holds `name`, or
(c) the first free slot comes before any slot holding `name` and the face of `name`
cannot be opened. -/
theorem RegisterFontInfo_fails (k : FontConfig) (ft : FreeType) (s : UIFontVector)
    (ttfName : Option CStr) (shaping : Nat)
    (h : ttfName = none ∨ s.freeTypeInited_ = false ∨
      ∃ name, ttfName = some name ∧
        ((∀ i, i < k.FONT_ID_MAX →
            (s.fontInfo_ i).ttfName ≠ none ∧ slotMatches k s i name = false) ∨
         (∃ j, j < k.FONT_ID_MAX ∧ (s.fontInfo_ j).ttfName = none ∧
            ft.New_Face (s.ttfDir_ ++ name) = none ∧
            ∀ i, i < j → (s.fontInfo_ i).ttfName ≠ none ∧ slotMatches k s i name = false))) :
    (RegisterFontInfo k ft s ttfName shaping).1 = toU8 k.FONT_INVALID_TTF_ID ∧
    (RegisterFontInfo k ft s ttfName shaping).2 = s := by
  cases ttfName with
  | none => exact ⟨rfl, rfl⟩
  | some nm =>
    cases hinit : s.freeTypeInited_ with
    | false => simp [RegisterFontInfo, hinit]
    | true =>
      rcases h with h | h | ⟨name, hname, h⟩
      · cases h
      · rw [hinit] at h; cases h
      · cases hname
        have hloop : RegisterFontInfo.loop k ft nm shaping k.FONT_ID_MAX 0 s
            = (toU8 k.FONT_INVALID_TTF_ID, s) := by
          rcases h with hfull | ⟨j, hj, hfree, hface, hbefore⟩
          · exact RegisterFontInfo.loop_fails k ft nm shaping k.FONT_ID_MAX 0 s k.FONT_ID_MAX
              (fun i _ h2 => hfull i (by omega)) (Or.inl rfl)
          · exact RegisterFontInfo.loop_fails k ft nm shaping k.FONT_ID_MAX 0 s j
              (fun i _ h2 => hbefore i (by omega))
              (Or.inr ⟨hj, by simpa using hfree, hface⟩)
        simp [RegisterFontInfo, hinit, hloop]

theorem RegisterFontInfo_fails_witness :
    (RegisterFontInfo sampleConfig brokenFreeType catalogueB (some [97]) 0).1
        = toU8 sampleConfig.FONT_INVALID_TTF_ID ∧
    (RegisterFontInfo sampleConfig brokenFreeType catalogueB (some [97]) 0).2 = catalogueB :=
  RegisterFontInfo_fails sampleConfig brokenFreeType catalogueB (some [97]) 0
    (Or.inr (Or.inr ⟨[97], rfl, Or.inr ⟨0, by decide, by decide, rfl,
      fun i hi => absurd hi (Nat.not_lt_zero i)⟩⟩))

/-! ## Lookup by name -/

/-- The function `strstr` finds an occurrence exactly when the needle is a contiguous
sublist of the haystack. -/
theorem strstr_isSome (haystack needle : CStr) :
    (strstr haystack needle).isSome = true ↔ needle <:+: haystack := by
  induction haystack with
  | nil =>
    unfold strstr
    by_cases h : needle.isPrefixOf [] = true
    · have hp : needle <+: [] := List.isPrefixOf_iff_prefix.mp h
      simp only [h, if_true, Option.isSome_some, true_iff]
      exact hp.isInfix
    · have hn : ¬ needle <:+: [] := by
        intro hin
        have : needle = [] := List.infix_nil.mp hin
        subst this
        exact h (by simp)
      simp only [h]
      simp [hn]
  | cons c rest ih =>
    unfold strstr
    by_cases h : needle.isPrefixOf (c :: rest) = true
    · have hp : needle <+: c :: rest := List.isPrefixOf_iff_prefix.mp h
      simp only [h, if_true, Option.isSome_some, true_iff]
      exact hp.isInfix
    · have hnp : ¬ needle <+: c :: rest := fun hp => h (List.isPrefixOf_iff_prefix.mpr hp)
      simp only [h]
      rw [List.infix_cons_iff]
      simp only [Bool.false_eq_true, if_false, Option.isSome_map']
      rw [ih]
      constructor
      · intro hin; exact Or.inr hin
      · intro hor
        rcases hor with hp | hin
        · exact absurd hp hnp
        · exact hin

/-- What the loop of `GetFontId(name, size)` does from slot `i0` on. -/
theorem GetFontIdByName.loop_first (k : FontConfig) (s : UIFontVector) (name : CStr)
    (fuel : Nat) :
    ∀ i0 : Nat,
      (∃ i, i0 ≤ i ∧ i < i0 + fuel ∧ nameContains s i name ∧
        (∀ j, i0 ≤ j → j < i → ¬ nameContains s j name) ∧
        GetFontIdByName.loop k s name fuel i0 = toU8 i) ∨
      ((∀ j, i0 ≤ j → j < i0 + fuel → ¬ nameContains s j name) ∧
        GetFontIdByName.loop k s name fuel i0 = k.FONT_ID_MAX % 65536) := by
  induction fuel with
  | zero =>
    intro i0
    right
    exact ⟨fun j h1 h2 => by omega, by simp [GetFontIdByName.loop]⟩
  | succ fuel ih =>
    intro i0
    by_cases hc : nameContains s i0 name
    · left
      refine ⟨i0, le_refl _, by omega, hc, fun j h1 h2 => by omega, ?_⟩
      unfold nameContains at hc
      cases hname : (s.fontInfo_ i0).ttfName with
      | none => simp [hname] at hc
      | some nm =>
        simp only [hname] at hc
        have hs := (strstr_isSome nm name).mpr hc
        simp [GetFontIdByName.loop, hname, hs]
    · have hstep : GetFontIdByName.loop k s name (fuel + 1) i0
          = GetFontIdByName.loop k s name fuel (i0 + 1) := by
        unfold nameContains at hc
        cases hname : (s.fontInfo_ i0).ttfName with
        | none => simp [GetFontIdByName.loop, hname]
        | some nm =>
          simp only [hname] at hc
          have hs : ¬ (strstr nm name).isSome = true := fun h => hc ((strstr_isSome nm name).mp h)
          simp only [GetFontIdByName.loop, hname]
          simp [hs]
      rw [hstep]
      rcases ih (i0 + 1) with ⟨i, h1, h2, h3, h4, h5⟩ | ⟨h1, h2⟩
      · left
        refine ⟨i, by omega, by omega, h3, fun j hj1 hj2 => ?_, h5⟩
        by_cases hj : j = i0
        · rw [hj]; exact hc
        · exact h4 j (by omega) hj2
      · right
        refine ⟨fun j hj1 hj2 => ?_, h2⟩
        by_cases hj : j = i0
        · rw [hj]; exact hc
        · exact h1 j (by omega) (by omega)

/-- C13: `GetFontId(name, size)` returns the smallest slot index below `FONT_ID_MAX`
whose registered name contains the query as a substring, and returns `FONT_ID_MAX`
when the query is null or no registered name contains it (slot indices fit the
`uint8_t` they are returned through: `FONT_ID_MAX` is at most 256). -/
theorem GetFontIdByName_first_match (k : FontConfig) (s : UIFontVector)
    (ttfName : Option CStr) (fontSize : Nat) (hmax : k.FONT_ID_MAX ≤ 256) :
    (∃ name i, ttfName = some name ∧ i < k.FONT_ID_MAX ∧ nameContains s i name ∧
      (∀ j, j < i → ¬ nameContains s j name) ∧
      GetFontIdByName k s ttfName fontSize = i) ∨
    ((ttfName = none ∨
        ∃ name, ttfName = some name ∧ ∀ j, j < k.FONT_ID_MAX → ¬ nameContains s j name) ∧
      GetFontIdByName k s ttfName fontSize = k.FONT_ID_MAX) := by
  cases ttfName with
  | none =>
    right
    refine ⟨Or.inl rfl, ?_⟩
    simp only [GetFontIdByName]
    omega
  | some name =>
    rcases GetFontIdByName.loop_first k s name k.FONT_ID_MAX 0 with
      ⟨i, _, h2, h3, h4, h5⟩ | ⟨h1, h2⟩
    · left
      refine ⟨name, i, rfl, by omega, h3, fun j hj => h4 j (Nat.zero_le _) hj, ?_⟩
      simp only [GetFontIdByName, h5, toU8]
      omega
    · right
      refine ⟨Or.inr ⟨name, rfl, fun j hj => h1 j (Nat.zero_le _) (by omega)⟩, ?_⟩
      simp only [GetFontIdByName, h2]
      omega

theorem GetFontIdByName_first_match_witness :
    sampleConfig.FONT_ID_MAX ≤ 256 ∧
    nameContains catalogueAB 1 [98] ∧
    ((∃ name i, some [98] = some name ∧ i < sampleConfig.FONT_ID_MAX ∧
      nameContains catalogueAB i name ∧
      (∀ j, j < i → ¬ nameContains catalogueAB j name) ∧
      GetFontIdByName sampleConfig catalogueAB (some [98]) 16 = i) ∨
    (((some [98] : Option CStr) = none ∨
        ∃ name, some [98] = some name ∧
          ∀ j, j < sampleConfig.FONT_ID_MAX → ¬ nameContains catalogueAB j name) ∧
      GetFontIdByName sampleConfig catalogueAB (some [98]) 16 = sampleConfig.FONT_ID_MAX)) :=
  ⟨by decide, by decide,
    GetFontIdByName_first_match sampleConfig catalogueAB (some [98]) 16 (by decide)⟩

/-! ## Selection of the embedded size -/

/-- Invariant of the scan of `SetupColorFont`: if `bestMatch` is the first index below
`i` at minimal distance `diff`, then the result of the scan is the first index of the
whole list at minimal distance. -/
theorem SetupColorFont.scan_min (fontSize : Int) (all : List Int) :
    ∀ (rest : List Int) (i best : Nat) (diff : Int),
      all.drop i = rest → i ≤ all.length → best < i →
      diff = |fontSize - all.getD best 0| →
      (∀ j, j < i → diff ≤ |fontSize - all.getD j 0|) →
      (∀ j, j < best → diff < |fontSize - all.getD j 0|) →
      (SetupColorFont.scan fontSize rest i best diff).1 < all.length ∧
      (∀ j, j < all.length →
        |fontSize - all.getD (SetupColorFont.scan fontSize rest i best diff).1 0|
          ≤ |fontSize - all.getD j 0|) ∧
      (∀ j, j < (SetupColorFont.scan fontSize rest i best diff).1 →
        |fontSize - all.getD (SetupColorFont.scan fontSize rest i best diff).1 0|
          < |fontSize - all.getD j 0|) := by
  intro rest
  induction rest with
  | nil =>
    intro i best diff hdrop hi hbest hdiff hmin hfirst
    have hlen : all.length ≤ i := List.drop_eq_nil_iff.mp hdrop
    simp only [SetupColorFont.scan]
    refine ⟨by omega, fun j hj => ?_, fun j hj => ?_⟩
    · rw [← hdiff]; exact hmin j (by omega)
    · rw [← hdiff]; exact hfirst j hj
  | cons w rest ih =>
    intro i best diff hdrop hi hbest hdiff hmin hfirst
    have hlen : (all.drop i).length = all.length - i := List.length_drop i all
    rw [hdrop] at hlen
    simp only [List.length_cons] at hlen
    have hi2 : i < all.length := by omega
    have hw : all.getD i 0 = w := by
      have h1 := List.getElem?_drop all i 0
      rw [hdrop] at h1
      simp only [Nat.add_zero] at h1
      rw [List.getD_eq_getElem?_getD, ← h1]
      simp
    have hdrop2 : all.drop (i + 1) = rest := by
      have h1 := List.drop_drop 1 i all
      rw [hdrop] at h1
      simpa using h1.symm
    unfold SetupColorFont.scan
    by_cases hlt : |fontSize - w| < diff
    · simp only [hlt, if_true]
      apply ih (i + 1) i |fontSize - w| hdrop2 (by omega) (by omega) (by rw [hw])
      · intro j hj
        by_cases hji : j = i
        · rw [hji, hw]
        · exact le_of_lt (lt_of_lt_of_le hlt (hmin j (by omega)))
      · intro j hj
        exact lt_of_lt_of_le hlt (hmin j hj)
    · simp only [hlt, if_false]
      apply ih (i + 1) best diff hdrop2 (by omega) (by omega) hdiff
      · intro j hj
        by_cases hji : j = i
        · rw [hji, hw]; exact not_lt.mp hlt
        · exact hmin j (by omega)
      · exact hfirst

/-- C14: for a face without embedded fixed sizes `SetupColorFont` returns
`INVALID_RET_VALUE` and leaves the face as it is; otherwise the index `b` it passes
to `FT_Select_Size` minimises `|fontSize - width[i]|` over all embedded sizes and is
the smallest index attaining the minimum, and the call returns what the selection of
size `b` gives. -/
theorem SetupColorFont_closest_size (k : FontConfig) (face : FT_Face) (fontSize : Nat) :
    (face.font.available_sizes = [] ∧
      SetupColorFont k face fontSize = (k.INVALID_RET_VALUE, face)) ∨
    (∃ b, b < face.font.available_sizes.length ∧
      SetupColorFont.bestMatch face.font.available_sizes fontSize = some b ∧
      (∀ i, i < face.font.available_sizes.length →
        |(fontSize : Int) - face.font.available_sizes.getD b 0|
          ≤ |(fontSize : Int) - face.font.available_sizes.getD i 0|) ∧
      (∀ i, i < b →
        |(fontSize : Int) - face.font.available_sizes.getD b 0|
          < |(fontSize : Int) - face.font.available_sizes.getD i 0|) ∧
      SetupColorFont k face fontSize =
        (match face.font.selectSize b with
         | none => (FT_Err_Some, face)
         | some m => (0, { face with size := m }))) := by
  cases hs : face.font.available_sizes with
  | nil =>
    left
    refine ⟨rfl, ?_⟩
    simp [SetupColorFont, SetupColorFont.bestMatch, hs]
  | cons w0 rest =>
    right
    have hscan := SetupColorFont.scan_min (fontSize : Int) (w0 :: rest) rest 1 0
      |(fontSize : Int) - w0| (by simp) (by simp) (by omega) (by simp)
      (fun j hj => by
        have : j = 0 := by omega
        subst this
        simp)
      (fun j hj => by omega)
    refine ⟨(SetupColorFont.scan fontSize rest 1 0 |(fontSize : Int) - w0|).1,
      hscan.1, rfl, hscan.2.1, hscan.2.2, ?_⟩
    simp only [SetupColorFont, SetupColorFont.bestMatch, hs]

/-! ## The cache key -/

/-- The value of `GetKey` for a font id and a size that fit 8 bits. -/
theorem GetKey_eq (fontId size : Nat) (hid : fontId < 256) (hsz : size < 256) :
    GetKey fontId size = 2 ^ 24 * fontId + size := by
  unfold GetKey
  rw [Nat.shiftLeft_eq]
  omega

/-- C15: for a font id below `FONT_ID_MAX` (which is at most 256, so that ids fit the
8 bits above bit 24) and an 8-bit pixel size, `GetKey(fontId, size)` is the 32-bit
value `(fontId << 24) | size`; its top 8 bits give back the font id and its low 24
bits the size, so two such pairs with the same key are the same pair. -/
theorem GetKey_packs (k : FontConfig) (fontId size : Nat) (hmax : k.FONT_ID_MAX ≤ 256)
    (hid : fontId < k.FONT_ID_MAX) (hsz : size < 256) :
    GetKey fontId size = (fontId <<< 24) ||| size ∧
    GetKey fontId size < 2 ^ 32 ∧
    GetKey fontId size >>> 24 = fontId ∧
    GetKey fontId size &&& (2 ^ 24 - 1) = size ∧
    ∀ fontId2 size2 : Nat, fontId2 < k.FONT_ID_MAX → size2 < 256 →
      GetKey fontId2 size2 = GetKey fontId size → fontId2 = fontId ∧ size2 = size := by
  have hid2 : fontId < 256 := by omega
  have hk := GetKey_eq fontId size hid2 hsz
  have hlt : size < 2 ^ 24 := by omega
  refine ⟨?_, ?_, ?_, ?_, ?_⟩
  · rw [hk, Nat.shiftLeft_eq, Nat.mul_comm fontId (2 ^ 24)]
    exact Nat.mul_add_lt_is_or hlt fontId
  · rw [hk]; omega
  · rw [hk, Nat.shiftRight_eq_div_pow]; omega
  · rw [hk, Nat.and_pow_two_sub_one_eq_mod]; omega
  · intro fontId2 size2 h1 h2 heq
    rw [hk, GetKey_eq fontId2 size2 (by omega) h2] at heq
    omega

theorem GetKey_packs_witness :
    sampleConfig.FONT_ID_MAX ≤ 256 ∧ 5 < sampleConfig.FONT_ID_MAX ∧ (16 : Nat) < 256 ∧
    GetKey 5 16 = (5 <<< 24) ||| 16 ∧ GetKey 5 16 >>> 24 = 5 ∧
    GetKey 5 16 &&& (2 ^ 24 - 1) = 16 :=
  ⟨by decide, by decide, by decide,
    (GetKey_packs sampleConfig 5 16 (by decide) (by decide) (by decide)).1,
    (GetKey_packs sampleConfig 5 16 (by decide) (by decide) (by decide)).2.2.1,
    (GetKey_packs sampleConfig 5 16 (by decide) (by decide) (by decide)).2.2.2.1⟩

/-! ## The sub-font index and the derived length -/

/-- C16: the spec's example container declares two sub-fonts (bytes 8..11), yet the
request for index 2 returns true and sets `ttfHeader.len` to 0; the container
`emptyCollection` declares zero sub-fonts, yet the request for index 0 returns true,
sets `ttfHeader.len` to 32 and writes byte 32 of the container to the start of the
output buffer. -/
theorem GetTtfInfoFromTtc_index_past_count :
    FT_PEEK_ULONG notoCjk.base 8 = 2 ∧
    (GetTtfInfoFromTtc sampleConfig (catalogueWithStream notoCjk) (some (fun _ => 170))
      9000 77 (subFontParam 2)).ret = true ∧
    (GetTtfInfoFromTtc sampleConfig (catalogueWithStream notoCjk) (some (fun _ => 170))
      9000 77 (subFontParam 2)).len = 0 ∧
    FT_PEEK_ULONG emptyCollection.base 8 = 0 ∧
    (GetTtfInfoFromTtc sampleConfig (catalogueWithStream emptyCollection) (some (fun _ => 170))
      64 77 (subFontParam 0)).ret = true ∧
    (GetTtfInfoFromTtc sampleConfig (catalogueWithStream emptyCollection) (some (fun _ => 170))
      64 77 (subFontParam 0)).len = 32 ∧
    (GetTtfInfoFromTtc sampleConfig (catalogueWithStream emptyCollection) (some (fun _ => 170))
      64 77 (subFontParam 0)).buffer.map (fun b => b 0) = some 7 := by
  decide

/-- C17, counterexample: in `reversedOffsets` the derived length of sub-font 0 is
`16 - 32`, which is negative; with a capacity of `2^32 - 1` bytes the call returns
false after it has written container bytes to the output buffer (byte 0 was 170 and
is now 7). -/
theorem GetTtfInfoFromTtc_negative_length_copies :
    GetTtfInfoFromTtc.derived reversedOffsets 0 = some (32, -16) ∧
    (GetTtfInfoFromTtc sampleConfig (catalogueWithStream reversedOffsets) (some (fun _ => 170))
      4294967295 77 (subFontParam 0)).ret = false ∧
    (GetTtfInfoFromTtc sampleConfig (catalogueWithStream reversedOffsets) (some (fun _ => 170))
      4294967295 77 (subFontParam 0)).buffer.map (fun b => b 0) = some 7 := by
  decide

/-- C17, as amended: when `GetTtfInfoFromTtc` derives the length `L` for a sub-font at
offset `off`, and `L` converted to `uint32_t` exceeds the buffer capacity (every
length above the capacity, and every negative length `-d` with capacity below
`2^32 - d`) or `off` is not below the container length, the call returns false and
leaves the output buffer and `ttfHeader.len` as they were. -/
theorem GetTtfInfoFromTtc_fails_closed (k : FontConfig) (s : UIFontVector) (buf : Nat → Nat)
    (cap len : Nat) (fontInfo : UITextLanguageFontParam) (stream : FT_Stream) (off : Nat)
    (L : Int)
    (hstream : (s.ttcInfos_ fontInfo.ttcIndex).stream = some stream)
    (hd : GetTtfInfoFromTtc.derived stream (toU8 fontInfo.ttfIndex) = some (off, L))
    (hbad : toU32 L > cap ∨ off ≥ stream.size) :
    (GetTtfInfoFromTtc k s (some buf) cap len fontInfo).ret = false ∧
    (GetTtfInfoFromTtc k s (some buf) cap len fontInfo).buffer = some buf ∧
    (GetTtfInfoFromTtc k s (some buf) cap len fontInfo).len = len := by
  unfold GetTtfInfoFromTtc.derived at hd
  unfold GetTtfInfoFromTtc
  simp only [hstream]
  by_cases hc : cap = 0 ∨ fontInfo.ttcIndex ≥ k.FONT_TTC_MAX
  · simp [hc]
  simp only [hc, if_false]
  have hseek0 : FT_Stream_Seek stream 0 = some 0 := by simp [FT_Stream_Seek]
  simp only [hseek0]
  cases hh : readTtcHeader stream with
  | none => simp
  | some hp =>
    obtain ⟨header, pos⟩ := hp
    rw [hh] at hd
    simp only at hd ⊢
    by_cases htag : header.ttcTag ≠ TTAG_ttcf
    · simp [htag]
    simp only [htag, if_false] at hd ⊢
    by_cases hidx : ((toU8 fontInfo.ttfIndex : Nat) : Int) ≥ header.numFonts
    · simp [hidx]
    simp only [hidx, if_false] at hd ⊢
    cases hskip : FT_Stream_Skip stream pos (4 * toU8 fontInfo.ttfIndex) with
    | none => simp
    | some pos1 =>
      rw [hskip] at hd
      simp only at hd ⊢
      cases hrd : FT_Stream_ReadULong stream pos1 with
      | none => simp
      | some op =>
        obtain ⟨ttfOffset, pos2⟩ := op
        rw [hrd] at hd
        simp only at hd ⊢
        have key : ∀ ttfLength : Nat, (ttfLength > cap ∨ ttfOffset ≥ stream.size) →
            ((if ttfLength > cap then
                ({ ret := false, buffer := some buf, len := len } : TtfResult)
              else
                match FT_Stream_Seek stream ttfOffset with
                | none => { ret := false, buffer := some buf, len := len }
                | some pos3 =>
                  if (FT_Stream_Read stream pos3 buf ttfLength).1 = true then
                    { ret := false, buffer := some (FT_Stream_Read stream pos3 buf ttfLength).2,
                      len := len }
                  else
                    match (FT_Stream_Seek stream (toU32 ((ttfOffset : Int) + 4))).bind
                        (FT_Stream_ReadUShort stream) with
                    | none =>
                      { ret := false, buffer := some (FT_Stream_Read stream pos3 buf ttfLength).2,
                        len := ttfLength }
                    | some (numTables, _) =>
                      { ret := true,
                        buffer := some (GetTtfInfoFromTtc.patch k.HOST_BIG_ENDIAN
                          ttfOffset numTables 20 (FT_Stream_Read stream pos3 buf ttfLength).2),
                        len := ttfLength })
              = ({ ret := false, buffer := some buf, len := len } : TtfResult)) := by
          intro ttfLength hb
          by_cases hgt : ttfLength > cap
          · simp [hgt]
          · have hoff : ttfOffset ≥ stream.size := by
              rcases hb with h | h
              · exact absurd h hgt
              · exact h
            simp only [hgt, if_false]
            unfold FT_Stream_Seek
            by_cases hbeyond : ttfOffset > stream.size
            · simp [hbeyond]
            · simp only [hbeyond, if_false]
              have hr : FT_Stream_Read stream ttfOffset buf ttfLength = (true, buf) := by
                simp [FT_Stream_Read, hoff]
              simp [hr]
        by_cases hlast : ((toU8 fontInfo.ttfIndex : Nat) : Int) + 1 = header.numFonts
        · simp only [hlast, if_true] at hd ⊢
          simp only [Option.some.injEq, Prod.mk.injEq] at hd
          obtain ⟨h1, h2⟩ := hd
          subst h1
          subst h2
          rw [key _ hbad]
          exact ⟨rfl, rfl, rfl⟩
        · simp only [hlast, if_false] at hd ⊢
          cases hnext : FT_Stream_ReadULong stream pos2 with
          | none => rw [hnext] at hd; cases hd
          | some np =>
            obtain ⟨nextTtfOffset, pos4⟩ := np
            rw [hnext] at hd
            simp only [Option.some.injEq, Prod.mk.injEq] at hd
            obtain ⟨h1, h2⟩ := hd
            subst h1
            subst h2
            simp only
            rw [key _ hbad]
            exact ⟨rfl, rfl, rfl⟩

theorem GetTtfInfoFromTtc_fails_closed_witness :
    (GetTtfInfoFromTtc sampleConfig (catalogueWithStream reversedOffsets) (some (fun _ => 170))
      1000 77 (subFontParam 0)).ret = false ∧
    (GetTtfInfoFromTtc sampleConfig (catalogueWithStream reversedOffsets) (some (fun _ => 170))
      1000 77 (subFontParam 0)).buffer = some (fun _ => 170) ∧
    (GetTtfInfoFromTtc sampleConfig (catalogueWithStream reversedOffsets) (some (fun _ => 170))
      1000 77 (subFontParam 0)).len = 77 :=
  GetTtfInfoFromTtc_fails_closed sampleConfig (catalogueWithStream reversedOffsets)
    (fun _ => 170) 1000 77 (subFontParam 0) reversedOffsets 32 (-16) rfl (by decide)
    (Or.inl (by decide))

/-! ## Unregistration of a collection -/

/-- C11, counterexample: in `catalogueSameName` the container `[99]` is registered
and its sub-font `[120]` is in slot 1; `UnregisterTtcFontInfo([99], [([120], 0)])`
returns the container's index 0 and closes its stream, but the record it clears is the
font file of slot 0, and the sub-font of the container is still registered in slot 1. -/
theorem UnregisterTtcFontInfo_leaves_subfont :
    ttcMatches sampleConfig catalogueSameName 0 [99] = true ∧
    (catalogueSameName.fontInfo_ 1).ttfName = some [120] ∧
    (catalogueSameName.fontInfo_ 1).ttcIndex = 0 ∧
    (UnregisterTtcFontInfo sampleConfig catalogueSameName (some [99])
      (some [{ ttfName := some [120], shaping := 0 }])).map (fun r => r.1) = some 0 ∧
    (UnregisterTtcFontInfo sampleConfig catalogueSameName (some [99])
      (some [{ ttfName := some [120], shaping := 0 }])).map
        (fun r => (r.2.ttcInfos_ 0).stream.map (fun st => st.freed)) = some (some true) ∧
    (UnregisterTtcFontInfo sampleConfig catalogueSameName (some [99])
      (some [{ ttfName := some [120], shaping := 0 }])).map
        (fun r => (r.2.fontInfo_ 0).ttfName) = some none ∧
    (UnregisterTtcFontInfo sampleConfig catalogueSameName (some [99])
      (some [{ ttfName := some [120], shaping := 0 }])).map
        (fun r => (r.2.fontInfo_ 1).ttfName) = some (some [120]) ∧
    (UnregisterTtcFontInfo sampleConfig catalogueSameName (some [99])
      (some [{ ttfName := some [120], shaping := 0 }])).map
        (fun r => slotMatches sampleConfig r.2 1 [120]) = some true := by
  decide

/-- What `UnregisterFontInfo(name)` does to the tests of the other loops: every
collection record keeps its name and its stream is untouched or closed, no slot starts
to match any name, and when at most one slot matched `name` none does afterwards. -/
theorem UnregisterFontInfo_effect (k : FontConfig) (s : UIFontVector) (name : CStr) :
    (∀ c, ((UnregisterFontInfo k s (some name)).2.ttcInfos_ c).ttcName = (s.ttcInfos_ c).ttcName ∧
      (((UnregisterFontInfo k s (some name)).2.ttcInfos_ c).stream = (s.ttcInfos_ c).stream ∨
        ((UnregisterFontInfo k s (some name)).2.ttcInfos_ c).stream
          = FT_Stream_Free (s.ttcInfos_ c).stream)) ∧
    (∀ j x, slotMatches k (UnregisterFontInfo k s (some name)).2 j x = true →
      slotMatches k s j x = true) ∧
    ((∀ i j, i < k.FONT_ID_MAX → j < k.FONT_ID_MAX → slotMatches k s i name = true →
        slotMatches k s j name = true → i = j) →
      ∀ j, j < k.FONT_ID_MAX → slotMatches k (UnregisterFontInfo k s (some name)).2 j name = false) := by
  rcases UnregisterFontInfo.loop_spec k name k.FONT_ID_MAX 0 s with
    ⟨i, _, h2, h3, _, h5⟩ | ⟨h1, h2⟩
  · have hr : (UnregisterFontInfo k s (some name)).2
        = { s with fontInfo_ := setAt s.fontInfo_ i { s.fontInfo_ i with ttfName := none },
                   ftFaces_ := setAt s.ftFaces_ i none,
                   ttcInfos_ := FT_Done_Face s.ttcInfos_ (s.ftFaces_ i) } := by
      simp only [UnregisterFontInfo, h5]
    rw [hr]
    refine ⟨fun c => FT_Done_Face_effect s.ttcInfos_ (s.ftFaces_ i) c, ?_, ?_⟩
    · intro j x hm
      by_cases hj : j = i
      · subst hj
        simp [slotMatches, setAt] at hm
      · simpa [slotMatches, setAt, hj] using hm
    · intro huniq j hj
      by_cases hji : j = i
      · subst hji
        simp [slotMatches, setAt]
      · cases hm : slotMatches k s j name with
        | false => simpa [slotMatches, setAt, hji] using hm
        | true => exact absurd (huniq j i hj (by omega) hm h3) hji
  · have hr : (UnregisterFontInfo k s (some name)).2 = s := by
      simp only [UnregisterFontInfo, h2]
    rw [hr]
    exact ⟨fun _ => ⟨rfl, Or.inl rfl⟩, fun _ _ h => h, fun _ j hj => h1 j (Nat.zero_le _) (by omega)⟩

/-- The same for `UnregisterFontInfo` with a null name, which changes nothing. -/
theorem UnregisterFontInfo_null (k : FontConfig) (s : UIFontVector) :
    (UnregisterFontInfo k s none).2 = s := rfl

/-- What the descriptor loop of `UnregisterTtcFontInfo` does when every descriptor
name matches at most one slot: every collection record keeps its name and its stream
is untouched or closed, and no slot matches a descriptor name afterwards. -/
theorem UnregisterTtcFontInfo.subFonts_clears (k : FontConfig) :
    ∀ (infos : List TtfInfo) (s : UIFontVector),
      (∀ d, d ∈ infos → ∀ name, d.ttfName = some name →
        ∀ i j, i < k.FONT_ID_MAX → j < k.FONT_ID_MAX → slotMatches k s i name = true →
          slotMatches k s j name = true → i = j) →
      (∀ c, ((UnregisterTtcFontInfo.subFonts k infos s).ttcInfos_ c).ttcName
            = (s.ttcInfos_ c).ttcName ∧
        (((UnregisterTtcFontInfo.subFonts k infos s).ttcInfos_ c).stream = (s.ttcInfos_ c).stream ∨
          ((UnregisterTtcFontInfo.subFonts k infos s).ttcInfos_ c).stream
            = FT_Stream_Free (s.ttcInfos_ c).stream)) ∧
      (∀ j x, slotMatches k (UnregisterTtcFontInfo.subFonts k infos s) j x = true →
        slotMatches k s j x = true) ∧
      (∀ d, d ∈ infos → ∀ name, d.ttfName = some name → ∀ j, j < k.FONT_ID_MAX →
        slotMatches k (UnregisterTtcFontInfo.subFonts k infos s) j name = false) := by
  intro infos
  induction infos with
  | nil =>
    intro s _
    exact ⟨fun _ => ⟨rfl, Or.inl rfl⟩, fun _ _ h => h, fun d hd => by cases hd⟩
  | cons d rest ih =>
    intro s huniq
    simp only [UnregisterTtcFontInfo.subFonts]
    have hstep : (∀ c, ((UnregisterFontInfo k s d.ttfName).2.ttcInfos_ c).ttcName
            = (s.ttcInfos_ c).ttcName ∧
          (((UnregisterFontInfo k s d.ttfName).2.ttcInfos_ c).stream = (s.ttcInfos_ c).stream ∨
            ((UnregisterFontInfo k s d.ttfName).2.ttcInfos_ c).stream
              = FT_Stream_Free (s.ttcInfos_ c).stream)) ∧
        (∀ j x, slotMatches k (UnregisterFontInfo k s d.ttfName).2 j x = true →
          slotMatches k s j x = true) ∧
        (∀ name, d.ttfName = some name → ∀ j, j < k.FONT_ID_MAX →
          slotMatches k (UnregisterFontInfo k s d.ttfName).2 j name = false) := by
      cases hn : d.ttfName with
      | none => exact ⟨fun _ => ⟨rfl, Or.inl rfl⟩, fun _ _ h => h, fun name h => by cases h⟩
      | some nm =>
        have he := UnregisterFontInfo_effect k s nm
        refine ⟨he.1, he.2.1, fun name hname j hj => ?_⟩
        cases hname
        exact he.2.2 (huniq d (List.mem_cons_self d rest) nm hn) j hj
    have hrest := ih (UnregisterFontInfo k s d.ttfName).2 (fun d2 hd2 name hname i j hi hj hmi hmj =>
      huniq d2 (List.mem_cons_of_mem d hd2) name hname i j hi hj
        (hstep.2.1 i name hmi) (hstep.2.1 j name hmj))
    refine ⟨fun c => ⟨by rw [(hrest.1 c).1, (hstep.1 c).1], ?_⟩,
      fun j x hm => hstep.2.1 j x (hrest.2.1 j x hm), ?_⟩
    · rcases (hrest.1 c).2 with h1 | h1 <;> rcases (hstep.1 c).2 with h2 | h2
      · left; rw [h1, h2]
      · right; rw [h1, h2]
      · right; rw [h1, h2]
      · right; rw [h1, h2, FT_Stream_Free_idem]
    · intro d2 hd2 name hname j hj
      rcases List.mem_cons.mp hd2 with h | h
      · subst h
        cases hm : slotMatches k (UnregisterTtcFontInfo.subFonts k rest
            (UnregisterFontInfo k s d2.ttfName).2) j name with
        | false => rfl
        | true =>
          have h1 := hrest.2.1 j name hm
          rw [hstep.2.2 name hname j hj] at h1
          cases h1
      · exact hrest.2.2 d2 h name hname j hj

/-- What the loop of `UnregisterTtcFontInfo` does from collection slot `i0` on, when
the first record that holds the name is inside the array `ttcInfos_`. -/
theorem UnregisterTtcFontInfo.loop_finds (k : FontConfig) (name : CStr) (infos : List TtfInfo)
    (fuel : Nat) :
    ∀ (i0 i : Nat) (s : UIFontVector), i0 ≤ i → i < i0 + fuel → i < k.FONT_TTC_MAX →
      ttcMatches k s i name = true → (∀ j, i0 ≤ j → j < i → ttcMatches k s j name = false) →
      UnregisterTtcFontInfo.loop k name infos fuel i0 s
        = some (toU8 i, UnregisterTtcFontInfo.subFonts k infos
            { s with ttcInfos_ := (setAt s.ttcInfos_ i
                ⟨(s.ttcInfos_ i).ttcName, FT_Stream_Free (s.ttcInfos_ i).stream⟩) }) := by
  induction fuel with
  | zero => intro i0 i s h1 h2; omega
  | succ fuel ih =>
    intro i0 i s h1 h2 httc hm hlow
    by_cases hi : i = i0
    · subst hi
      have hin : ¬ i ≥ k.FONT_TTC_MAX := by omega
      unfold ttcMatches at hm
      cases hname : (s.ttcInfos_ i).ttcName with
      | none => simp [hname] at hm
      | some nm =>
        simp only [hname, decide_eq_true_eq] at hm
        simp [UnregisterTtcFontInfo.loop, hname, hm, hin]
    · have hin : ¬ i0 ≥ k.FONT_TTC_MAX := by omega
      have hm0 := hlow i0 (le_refl _) (by omega)
      have hstep : UnregisterTtcFontInfo.loop k name infos (fuel + 1) i0 s
          = UnregisterTtcFontInfo.loop k name infos fuel (i0 + 1) s := by
        unfold ttcMatches at hm0
        cases hname : (s.ttcInfos_ i0).ttcName with
        | none => simp [UnregisterTtcFontInfo.loop, hname, hin]
        | some nm =>
          simp only [hname, decide_eq_false_iff_not] at hm0
          simp [UnregisterTtcFontInfo.loop, hname, hm0, hin]
      rw [hstep]
      exact ih (i0 + 1) i s (by omega) (by omega) httc hm (fun j hj1 hj2 => hlow j (by omega) hj2)

/-- C11, as amended: let `FONT_TTC_MAX ≤ FONT_ID_MAX ≤ 255`, let the container name be
held by a record of `ttcInfos_`, `i` being the lowest such slot, and let every
descriptor name match at most one occupied FontRecord slot.  Then
`UnregisterTtcFontInfo` returns `i`, the stream of slot `i` is closed, and afterwards
no FontRecord slot holds any of the descriptor names.  With a null argument it
returns `FONT_INVALID_TTF_ID` and changes nothing. -/
theorem UnregisterTtcFontInfo_unique_names (k : FontConfig) (s : UIFontVector)
    (ttcName : Option CStr) (ttfInfo : Option (List TtfInfo))
    (httc : k.FONT_TTC_MAX ≤ k.FONT_ID_MAX) (hmax : k.FONT_ID_MAX ≤ 255)
    (huniq : ∀ infos, ttfInfo = some infos → ∀ d, d ∈ infos → ∀ name, d.ttfName = some name →
      ∀ i j, i < k.FONT_ID_MAX → j < k.FONT_ID_MAX → slotMatches k s i name = true →
        slotMatches k s j name = true → i = j) :
    (∀ name infos i, ttcName = some name → ttfInfo = some infos → i < k.FONT_TTC_MAX →
      ttcMatches k s i name = true → (∀ j, j < i → ttcMatches k s j name = false) →
      ∃ s1, UnregisterTtcFontInfo k s ttcName ttfInfo = some (i, s1) ∧
        (s1.ttcInfos_ i).stream = FT_Stream_Free (s.ttcInfos_ i).stream ∧
        (∀ d, d ∈ infos → ∀ nm, d.ttfName = some nm → ∀ j, j < k.FONT_ID_MAX →
          slotMatches k s1 j nm = false)) ∧
    ((ttcName = none ∨ ttfInfo = none) →
      UnregisterTtcFontInfo k s ttcName ttfInfo = some (toU8 k.FONT_INVALID_TTF_ID, s)) := by
  refine ⟨?_, ?_⟩
  · intro name infos i hname hinfos hi hm hlow
    subst hname
    subst hinfos
    have h5 := UnregisterTtcFontInfo.loop_finds k name infos k.FONT_ID_MAX 0 i s
      (Nat.zero_le _) (by omega) hi hm (fun j _ hj => hlow j hj)
    have hsub := UnregisterTtcFontInfo.subFonts_clears k infos
      { s with ttcInfos_ := (setAt s.ttcInfos_ i
          ⟨(s.ttcInfos_ i).ttcName, FT_Stream_Free (s.ttcInfos_ i).stream⟩) }
      (fun d hd nm hnm a b ha hb hma hmb => huniq infos rfl d hd nm hnm a b ha hb hma hmb)
    have hu8 : toU8 i = i := by
      unfold toU8
      omega
    refine ⟨_, ?_, ?_, hsub.2.2⟩
    · simp only [UnregisterTtcFontInfo, h5, hu8]
    · rcases (hsub.1 i).2 with h | h
      · rw [h]; simp [setAt]
      · rw [h]; simp [setAt, FT_Stream_Free_idem]
  · intro h
    rcases h with h | h
    · subst h; rfl
    · subst h
      cases ttcName <;> rfl

set_option maxRecDepth 100000 in
theorem UnregisterTtcFontInfo_unique_names_witness :
    sampleConfig.FONT_TTC_MAX ≤ sampleConfig.FONT_ID_MAX ∧ sampleConfig.FONT_ID_MAX ≤ 255 ∧
    slotMatches sampleConfig catalogueCollection 0 [120] = true ∧
    slotMatches sampleConfig catalogueCollection 1 [121] = true ∧
    (0 < sampleConfig.FONT_TTC_MAX ∧ ttcMatches sampleConfig catalogueCollection 0 [99] = true) ∧
    (∃ s1, UnregisterTtcFontInfo sampleConfig catalogueCollection (some [99])
        (some collectionFonts) = some (0, s1) ∧
      (s1.ttcInfos_ 0).stream = FT_Stream_Free (catalogueCollection.ttcInfos_ 0).stream ∧
      (∀ d, d ∈ collectionFonts → ∀ nm, d.ttfName = some nm → ∀ j,
        j < sampleConfig.FONT_ID_MAX → slotMatches sampleConfig s1 j nm = false)) := by
  have h120 : ∀ i, i < 255 → slotMatches sampleConfig catalogueCollection i [120] = true →
      i = 0 := by decide
  have h121 : ∀ i, i < 255 → slotMatches sampleConfig catalogueCollection i [121] = true →
      i = 1 := by decide
  refine ⟨by decide, by decide, by decide, by decide, ⟨by decide, by decide⟩,
    (UnregisterTtcFontInfo_unique_names sampleConfig catalogueCollection (some [99])
      (some collectionFonts) (by decide) (by decide) ?_).1 [99] collectionFonts 0 rfl rfl
      (by decide) (by decide) (fun j hj => absurd hj (Nat.not_lt_zero j))⟩
  intro infos hinfos d hd name hname i j hi hj hmi hmj
  cases hinfos
  simp only [collectionFonts, List.mem_cons, List.mem_singleton, List.not_mem_nil, or_false] at hd
  rcases hd with rfl | rfl
  · cases hname
    exact (h120 i hi hmi).trans (h120 j hj hmj).symm
  · cases hname
    exact (h121 i hi hmi).trans (h121 j hj hmj).symm

/-- The loop of `UnregisterTtcFontInfo` reads past the end of `ttcInfos_` when no
record from slot `i0` on holds the name and the loop bound lies above `FONT_TTC_MAX`. -/
theorem UnregisterTtcFontInfo.loop_past_end (k : FontConfig) (name : CStr) (infos : List TtfInfo)
    (fuel : Nat) :
    ∀ (i0 : Nat) (s : UIFontVector), i0 ≤ k.FONT_TTC_MAX → k.FONT_TTC_MAX < i0 + fuel →
      (∀ j, i0 ≤ j → j < k.FONT_TTC_MAX → ttcMatches k s j name = false) →
      UnregisterTtcFontInfo.loop k name infos fuel i0 s = none := by
  induction fuel with
  | zero => intro i0 s h1 h2; omega
  | succ fuel ih =>
    intro i0 s h1 h2 hno
    by_cases hin : i0 ≥ k.FONT_TTC_MAX
    · simp [UnregisterTtcFontInfo.loop, hin]
    · have hm0 := hno i0 (le_refl _) (by omega)
      have hstep : UnregisterTtcFontInfo.loop k name infos (fuel + 1) i0 s
          = UnregisterTtcFontInfo.loop k name infos fuel (i0 + 1) s := by
        unfold ttcMatches at hm0
        cases hname : (s.ttcInfos_ i0).ttcName with
        | none => simp [UnregisterTtcFontInfo.loop, hname, hin]
        | some nm =>
          simp only [hname, decide_eq_false_iff_not] at hm0
          simp [UnregisterTtcFontInfo.loop, hname, hm0, hin]
      rw [hstep]
      exact ih (i0 + 1) s (by omega) (by omega) (fun j hj1 hj2 => hno j (by omega) hj2)

/-- With `FONT_TTC_MAX < FONT_ID_MAX`, `UnregisterTtcFontInfo` on a container name that
no record of `ttcInfos_` holds reads `ttcInfos_[FONT_TTC_MAX]`, one place past the end
of the array. -/
theorem UnregisterTtcFontInfo_reads_past_end (k : FontConfig) (s : UIFontVector) (name : CStr)
    (infos : List TtfInfo) (httc : k.FONT_TTC_MAX < k.FONT_ID_MAX)
    (hno : ∀ j, j < k.FONT_TTC_MAX → ttcMatches k s j name = false) :
    UnregisterTtcFontInfo k s (some name) (some infos) = none :=
  UnregisterTtcFontInfo.loop_past_end k name infos k.FONT_ID_MAX 0 s (Nat.zero_le _)
    (by omega) (fun j _ hj => hno j hj)

/-- A failed `FT_Open_Face` closes the stream of the collection: with `failingFreeType`
sub-font 0 of the container `[99]` cannot be opened, the stream is closed, sub-font 1
cannot be opened from the closed stream either, and `RegisterTtcFontInfo` returns the
collection slot 0 with no sub-font registered. -/
theorem RegisterTtcFontInfo_failed_open :
    (RegisterTtcFontInfo sampleConfig failingFreeType (emptyCatalogue []) (some [99])
      collectionFonts).1 = 0 ∧
    ((RegisterTtcFontInfo sampleConfig failingFreeType (emptyCatalogue []) (some [99])
      collectionFonts).2.ttcInfos_ 0).ttcName = some [99] ∧
    ((RegisterTtcFontInfo sampleConfig failingFreeType (emptyCatalogue []) (some [99])
      collectionFonts).2.ttcInfos_ 0).stream.map (fun st => (st.size, st.freed))
      = some (0, true) ∧
    ((RegisterTtcFontInfo sampleConfig failingFreeType (emptyCatalogue []) (some [99])
      collectionFonts).2.fontInfo_ 0).ttfName = none ∧
    ((RegisterTtcFontInfo sampleConfig failingFreeType (emptyCatalogue []) (some [99])
      collectionFonts).2.ftFaces_ 0).isSome = false := by
  decide

/-! ## Line metrics -/

/-- A slot without a face: after `RegisterFontInfo([97])`, `RegisterFontInfo([98])`
and `UnregisterFontInfo([97])`, slot 0 is a non-emoji slot below
`currentFontInfoNum_` whose face handle is null, and `GetLineMaxHeight` on a
one-letter plain-text run for font 1 dereferences it. -/
theorem GetLineMaxHeight_null_face :
    catalogueHole.currentFontInfoNum_ = 2 ∧
    IsEmojiFont sampleConfig catalogueHole 0 = false ∧
    (catalogueHole.ftFaces_ 0).isSome = false ∧
    (GetLineMaxHeight sampleConfig (fun _ _ _ => false) catalogueHole
      [⟨65, false⟩] 1 16 0 none).height = none := by
  decide

/-! ## Reading a font into memory -/

/-- The loop of `RegisterFontInfo` leaves the field `size` of every record as it was. -/
theorem RegisterFontInfo.loop_size (k : FontConfig) (ft : FreeType) (name : CStr)
    (shaping : Nat) (fuel : Nat) :
    ∀ (j : Nat) (s : UIFontVector) (i : Nat),
      ((RegisterFontInfo.loop k ft name shaping fuel j s).2.fontInfo_ i).size
        = (s.fontInfo_ i).size := by
  induction fuel with
  | zero => intro j s i; rfl
  | succ fuel ih =>
    intro j s i
    unfold RegisterFontInfo.loop
    split
    · split
      · rfl
      · exact ih (j + 1) s i
    · split
      · rfl
      · simp only []
        by_cases hi : i = j
        · subst hi; simp [setAt]
        · simp [setAt, hi]

/-- `RegisterFontInfo` leaves the field `size` of every record as it was. -/
theorem RegisterFontInfo_keeps_size (k : FontConfig) (ft : FreeType) (s : UIFontVector)
    (ttfName : Option CStr) (shaping : Nat) (i : Nat) :
    ((RegisterFontInfo k ft s ttfName shaping).2.fontInfo_ i).size = (s.fontInfo_ i).size := by
  unfold RegisterFontInfo
  split
  · rfl
  · split
    · rfl
    · exact RegisterFontInfo.loop_size k ft _ shaping k.FONT_ID_MAX 0 s i

/-- C23: `RegisterFontInfo` never writes the field `size` of a record.  After
`RegisterFontInfo([97])` on the empty catalogue the record of slot 0 holds the
sentinel `FONT_TTC_MAX` in `ttcIndex`, and its `size` is still 0.
`GetTtfInfo(0, ...)` tests `size != FONT_ID_MAX`, takes the collection path and
returns false without writing the buffer, although the file `[97]` can be opened and
read through `GetTtfInfoFromTtf`. -/
theorem GetTtfInfo_file_font_takes_collection_path :
    (∀ (k : FontConfig) (ft : FreeType) (s : UIFontVector) (ttfName : Option CStr)
        (shaping i : Nat),
      ((RegisterFontInfo k ft s ttfName shaping).2.fontInfo_ i).size = (s.fontInfo_ i).size) ∧
    (catalogueFile.fontInfo_ 0).ttfName = some [97] ∧
    (catalogueFile.fontInfo_ 0).ttcIndex = sampleConfig.FONT_TTC_MAX ∧
    (catalogueFile.fontInfo_ 0).size = 0 ∧
    GetTtfInfo.collectionPath sampleConfig catalogueFile 0 = some true ∧
    (GetTtfInfoFromTtf sampleFiles catalogueFile (some (fun _ => 170)) 64 77
      (catalogueFile.fontInfo_ 0)).ret = true ∧
    (GetTtfInfoFromTtf sampleFiles catalogueFile (some (fun _ => 170)) 64 77
      (catalogueFile.fontInfo_ 0)).len = 6 ∧
    (GetTtfInfo sampleConfig sampleFiles catalogueFile 0 (some (fun _ => 170)) 64 77).ret = false ∧
    (GetTtfInfo sampleConfig sampleFiles catalogueFile 0 (some (fun _ => 170)) 64 77).len = 77 ∧
    (GetTtfInfo sampleConfig sampleFiles catalogueFile 0 (some (fun _ => 170)) 64
      77).buffer.map (fun b => b 1) = some 170 := by
  refine ⟨RegisterFontInfo_keeps_size, ?_⟩
  decide

/-- C24: in `versionOne` the sub-font count declared at byte offset 8 is 2 and the
value at byte offset 4 is 1.  The header read gives `numFonts = 1` and leaves the
stream at offset 12, where the offset table starts.  Index 0 is therefore treated as
the last sub-font, its length is derived as `128 - 20`, the rest of the container,
and not as `60 - 20`; the request for index 1 is rejected. -/
theorem GetTtfInfoFromTtc_count_from_version_bytes :
    FT_PEEK_ULONG versionOne.base 8 = 2 ∧
    FT_PEEK_ULONG versionOne.base 4 = 1 ∧
    (readTtcHeader versionOne).map (fun h => (h.1.numFonts, h.2)) = some (1, 12) ∧
    FT_PEEK_ULONG versionOne.base 12 = 20 ∧
    FT_PEEK_ULONG versionOne.base 16 = 60 ∧
    GetTtfInfoFromTtc.derived versionOne 0 = some (20, 108) ∧
    (GetTtfInfoFromTtc sampleConfig (catalogueWithStream versionOne) (some (fun _ => 170))
      128 77 (subFontParam 0)).len = 108 ∧
    GetTtfInfoFromTtc.derived versionOne 1 = none ∧
    (GetTtfInfoFromTtc sampleConfig (catalogueWithStream versionOne) (some (fun _ => 170))
      128 77 (subFontParam 1)).ret = false := by
  decide

/-- C25: two reachable states in which an occupied slot is not below
`currentFontInfoNum_`.  After `RegisterTtcFontInfo([99], collectionFonts)` on the empty
catalogue slots 0 and 1 are occupied and `currentFontInfoNum_` is 0.  After
`RegisterFontInfo([97])`, `RegisterFontInfo([98])`, `UnregisterFontInfo([97])` and
`RegisterFontInfo([99])` slot 1 is occupied and `currentFontInfoNum_` is 1. -/
theorem currentFontInfoNum_below_occupied_slot :
    (catalogueCollection.fontInfo_ 0).ttfName = some [120] ∧
    (catalogueCollection.fontInfo_ 1).ttfName = some [121] ∧
    catalogueCollection.currentFontInfoNum_ = 0 ∧
    catalogueB.currentFontInfoNum_ = 2 ∧
    (RegisterFontInfo sampleConfig sampleFreeType catalogueB (some [99]) 0).1 = 0 ∧
    ((RegisterFontInfo sampleConfig sampleFreeType catalogueB (some [99]) 0).2.fontInfo_ 1).ttfName
      = some [98] ∧
    (RegisterFontInfo sampleConfig sampleFreeType catalogueB (some [99]) 0).2.currentFontInfoNum_
      = 1 := by
  decide

/-- C28: after `UnregisterTtcFontInfo([99], collectionFonts)` has returned 0 on
`catalogueCollection`, collection slot 0 still holds the name `[99]` and the handle of
the stream, which is freed, and the two sub-fonts are unregistered.  A following
`RegisterTtcFontInfo([99], collectionFonts)` returns the old index 0 and registers
nothing: slots 0 and 1 stay free and the stream stays the freed one. -/
theorem RegisterTtcFontInfo_after_unregister :
    (UnregisterTtcFontInfo sampleConfig catalogueCollection (some [99])
      (some collectionFonts)).map (fun r => r.1) = some 0 ∧
    (catalogueUnregistered.ttcInfos_ 0).ttcName = some [99] ∧
    (catalogueUnregistered.ttcInfos_ 0).stream.map (fun st => st.freed) = some true ∧
    (catalogueUnregistered.fontInfo_ 0).ttfName = none ∧
    (catalogueUnregistered.fontInfo_ 1).ttfName = none ∧
    (RegisterTtcFontInfo sampleConfig sampleFreeType catalogueUnregistered (some [99])
      collectionFonts).1 = 0 ∧
    ((RegisterTtcFontInfo sampleConfig sampleFreeType catalogueUnregistered (some [99])
      collectionFonts).2.fontInfo_ 0).ttfName = none ∧
    ((RegisterTtcFontInfo sampleConfig sampleFreeType catalogueUnregistered (some [99])
      collectionFonts).2.fontInfo_ 1).ttfName = none ∧
    ((RegisterTtcFontInfo sampleConfig sampleFreeType catalogueUnregistered (some [99])
      collectionFonts).2.ttcInfos_ 0).stream.map (fun st => st.freed) = some true := by
  decide

set_option maxRecDepth 100000 in
/-- C26: in `fullCatalogue` all 255 slots of the table are occupied, so the search
for a free slot stops at `ttfIdx = FONT_ID_MAX`.  `RegisterTtcFontInfo` with one
descriptor then stores the face and the record at index 255, one place past the end
of `ftFaces_` and `fontInfo_`. -/
theorem RegisterTtcFontInfo_writes_past_table :
    sampleConfig.FONT_ID_MAX = 255 ∧
    RegisterTtcFontInfo.freeSlot fullCatalogue sampleConfig.FONT_ID_MAX 0 = 255 ∧
    (fullCatalogue.fontInfo_ 255).ttfName = none ∧
    (fullCatalogue.ftFaces_ 255).isSome = false ∧
    (RegisterTtcFontInfo sampleConfig sampleFreeType fullCatalogue (some [99])
      [{ ttfName := some [120], shaping := 0 }]).1 = 0 ∧
    ((RegisterTtcFontInfo sampleConfig sampleFreeType fullCatalogue (some [99])
      [{ ttfName := some [120], shaping := 0 }]).2.fontInfo_ 255).ttfName = some [120] ∧
    ((RegisterTtcFontInfo sampleConfig sampleFreeType fullCatalogue (some [99])
      [{ ttfName := some [120], shaping := 0 }]).2.ftFaces_ 255).isSome = true := by
  decide

/-- C27: sub-font 0 of `twoTables` is 22 bytes long and declares two tables.  With a
buffer of 32 bytes the call succeeds with `ttfHeader.len = 22`; the field of record
1 lies at bytes 36..39, past the copied 22 bytes and past the 32 bytes of the buffer,
and the loop rewrites it: byte 39 was 170 and is 150 afterwards. -/
theorem GetTtfInfoFromTtc_patch_past_buffer :
    FT_PEEK_USHORT twoTables.base 24 = 2 ∧
    (GetTtfInfoFromTtc sampleConfig (catalogueWithStream twoTables) (some (fun _ => 170))
      32 77 (subFontParam 0)).ret = true ∧
    (GetTtfInfoFromTtc sampleConfig (catalogueWithStream twoTables) (some (fun _ => 170))
      32 77 (subFontParam 0)).len = 22 ∧
    ¬ (20 + 16 * 1 + 4 ≤ 22) ∧
    (GetTtfInfoFromTtc sampleConfig (catalogueWithStream twoTables) (some (fun _ => 170))
      32 77 (subFontParam 0)).buffer.map (fun b => b 39) = some 150 := by
  decide

/-! ## Code points without a tag -/

/-- The loop of `GetFontId(uint32_t)` returns `FONT_INVALID_TTF_ID` or the index of an
occupied slot whose id is the tag. -/
theorem GetFontId.loop_cases (k : FontConfig) (s : UIFontVector) (t : Nat) (fuel : Nat) :
    ∀ i0 : Nat,
      GetFontId.loop k s t fuel i0 = k.FONT_INVALID_TTF_ID ∨
      ∃ i, i0 ≤ i ∧ i < i0 + fuel ∧ (s.fontInfo_ i).ttfName ≠ none ∧ (s.fontInfo_ i).ttfId = t ∧
        GetFontId.loop k s t fuel i0 = i := by
  induction fuel with
  | zero => intro i0; left; rfl
  | succ fuel ih =>
    intro i0
    unfold GetFontId.loop
    cases hname : (s.fontInfo_ i0).ttfName with
    | none =>
      simp only []
      rcases ih (i0 + 1) with h | ⟨i, h1, h2, h3, h4, h5⟩
      · exact Or.inl h
      · exact Or.inr ⟨i, by omega, by omega, h3, h4, h5⟩
    | some nm =>
      simp only []
      by_cases hid : (s.fontInfo_ i0).ttfId = t
      · rw [if_pos hid]
        exact Or.inr ⟨i0, le_refl _, by omega, by rw [hname]; simp, hid, rfl⟩
      · rw [if_neg hid]
        rcases ih (i0 + 1) with h | ⟨i, h1, h2, h3, h4, h5⟩
        · exact Or.inl h
        · exact Or.inr ⟨i, by omega, by omega, h3, h4, h5⟩

/-- The tag of a code point below `2^24` is 0. -/
theorem tag_of_plain_code_point (u : Nat) (hu : u < 2 ^ 24) : (u >>> 24) &&& 0x1F = 0 := by
  rw [Nat.shiftRight_eq_div_pow, Nat.div_eq_of_lt hu]
  simp

/-- C22, counterexample: in `catalogueShapingFirst` the font of slot 0 has id 0 and
shaping flag 1.  The code point `0x41` has no tag, yet `IsGlyphFont(0x41)` is 1, and
`LoadGlyphIntoFace` with the registered font 1 returns `INVALID_RET_VALUE` without
loading a glyph, because `GetFontId(0x41)` is 0 and not 1.  In `catalogueAB`, where
the font of slot 0 has no shaping flag, the same request succeeds. -/
theorem LoadGlyphIntoFace_untagged_rejected :
    (0x41 >>> 24) &&& 0x1F = 0 ∧
    (catalogueShapingFirst.fontInfo_ 0).ttfId = 0 ∧
    (catalogueShapingFirst.fontInfo_ 0).shaping = 1 ∧
    (catalogueShapingFirst.fontInfo_ 1).ttfName = some [98] ∧
    IsGlyphFont sampleConfig catalogueShapingFirst 0x41 = 1 ∧
    GetFontId sampleConfig catalogueShapingFirst 0x41 = 0 ∧
    (LoadGlyphIntoFace sampleConfig catalogueShapingFirst 1 0x41).1
      = sampleConfig.INVALID_RET_VALUE ∧
    (LoadGlyphIntoFace sampleConfig catalogueShapingFirst 1 0x41).2.ftLoadCalls
      = catalogueShapingFirst.ftLoadCalls ∧
    (LoadGlyphIntoFace sampleConfig catalogueAB 1 0x41).1 = sampleConfig.RET_VALUE_OK := by
  decide

/-- C22, as amended: let `u` be a code point below `2^24` and let every occupied slot
whose id is 0 hold a font without shaping flag.  Then `IsGlyphFont(u)` is 0, and for
every requested font `f` `LoadGlyphIntoFace` passes `u` unchanged to `FT_Load_Char` on
the face of `f` (with `FT_LOAD_COLOR` for an emoji font and `FT_LOAD_RENDER`
otherwise); it returns `INVALID_RET_VALUE` only when that load fails or yields glyph
index 0, never for a mismatch between tag and request. -/
theorem LoadGlyphIntoFace_untagged (k : FontConfig) (s : UIFontVector) (u f : Nat)
    (hmax : k.FONT_ID_MAX ≤ 256) (hinv : k.FONT_INVALID_TTF_ID < 256) (hu : u < 2 ^ 24)
    (hplain : ∀ i, i < k.FONT_ID_MAX → (s.fontInfo_ i).ttfName ≠ none →
      (s.fontInfo_ i).ttfId = 0 → (s.fontInfo_ i).shaping = 0) :
    IsGlyphFont k s u = 0 ∧
    LoadGlyphIntoFace.load k s f u
      = some ((FT_Load_Char (s.ftFaces_ f) u
                (if IsEmojiFont k s f then FT_Load_Flag.FT_LOAD_COLOR
                 else FT_Load_Flag.FT_LOAD_RENDER)).1,
              { s with ftFaces_ := setAt s.ftFaces_ f
                         (FT_Load_Char (s.ftFaces_ f) u
                           (if IsEmojiFont k s f then FT_Load_Flag.FT_LOAD_COLOR
                            else FT_Load_Flag.FT_LOAD_RENDER)).2,
                       ftLoadCalls := s.ftLoadCalls + 1 }) ∧
    (LoadGlyphIntoFace k s f u).1
      = (if glyphMissing
            (FT_Load_Char (s.ftFaces_ f) u
              (if IsEmojiFont k s f then FT_Load_Flag.FT_LOAD_COLOR
               else FT_Load_Flag.FT_LOAD_RENDER)).1
            (FT_Load_Char (s.ftFaces_ f) u
              (if IsEmojiFont k s f then FT_Load_Flag.FT_LOAD_COLOR
               else FT_Load_Flag.FT_LOAD_RENDER)).2
         then k.INVALID_RET_VALUE else k.RET_VALUE_OK) := by
  have htag : IsGlyphFont k s u = 0 := by
    unfold IsGlyphFont GetFontId
    rw [tag_of_plain_code_point u hu]
    have h0 : toU8 0 = 0 := rfl
    rw [h0]
    simp only []
    rcases GetFontId.loop_cases k s 0 k.FONT_ID_MAX 0 with h | ⟨i, _, h2, h3, h4, h5⟩
    · rw [h]
      have h8 : toU8 (k.FONT_INVALID_TTF_ID % 65536) = k.FONT_INVALID_TTF_ID := by
        unfold toU8; omega
      rw [h8]
      simp
    · rw [h5]
      have h8 : toU8 (i % 65536) = i := by unfold toU8; omega
      rw [h8]
      split
      · rfl
      · exact hplain i (by omega) h3 h4
  have hload : LoadGlyphIntoFace.load k s f u
      = some ((FT_Load_Char (s.ftFaces_ f) u
                (if IsEmojiFont k s f then FT_Load_Flag.FT_LOAD_COLOR
                 else FT_Load_Flag.FT_LOAD_RENDER)).1,
              { s with ftFaces_ := setAt s.ftFaces_ f
                         (FT_Load_Char (s.ftFaces_ f) u
                           (if IsEmojiFont k s f then FT_Load_Flag.FT_LOAD_COLOR
                            else FT_Load_Flag.FT_LOAD_RENDER)).2,
                       ftLoadCalls := s.ftLoadCalls + 1 }) := by
    unfold LoadGlyphIntoFace.load
    simp only [htag, ne_eq, not_true_eq_false, if_false]
    cases IsEmojiFont k s f <;> rfl
  refine ⟨htag, hload, ?_⟩
  unfold LoadGlyphIntoFace
  rw [hload]
  simp only [setAt_same]
  generalize FT_Load_Char (s.ftFaces_ f) u
    (if IsEmojiFont k s f then FT_Load_Flag.FT_LOAD_COLOR else FT_Load_Flag.FT_LOAD_RENDER) = r
  cases glyphMissing r.1 r.2 <;> rfl

/-! ## The height of a mixed line -/

set_option maxRecDepth 100000 in
theorem LoadGlyphIntoFace_untagged_witness :
    sampleConfig.FONT_ID_MAX ≤ 256 ∧ sampleConfig.FONT_INVALID_TTF_ID < 256 ∧
    0x41 < 2 ^ 24 ∧
    IsGlyphFont sampleConfig catalogueAB 0x41 = 0 ∧
    (LoadGlyphIntoFace sampleConfig catalogueAB 1 0x41).1 = sampleConfig.RET_VALUE_OK ∧
    (LoadGlyphIntoFace.load sampleConfig catalogueAB 1 0x41).isSome = true :=
  have h := LoadGlyphIntoFace_untagged sampleConfig catalogueAB 0x41 1 (by decide) (by decide)
    (by decide) (by decide)
  ⟨by decide, by decide, by decide, h.1, by decide, by rw [h.2.1]; rfl⟩

end OHOS
